import Mathlib

/-!
# nature-pixel: shallow embedding and verification

This file embeds the core data model and operations of the `nature-pixel`
simulator (a tick-driven cellular ecosystem over a 2-D height-mapped grid)
into Lean 4, translated from the Rust sources:

* `src/point.rs` — grid geometry (taxicab circles and circumferences),
* `src/cell.rs`, `src/cell_color.rs` — the cell layers and the color palette,
* `src/map.rs`, `src/set_cell_color.rs`, `src/web_error.rs` — the world state
  and the paint endpoint,
* `src/ecosystem/water_flow.rs` — the water-flow planner and ticker,
* `src/cell/cell_animal.rs`, `src/ecosystem/simple_animal.rs`,
  `src/ecosystem/amphibian.rs`, `src/ecosystem/snake.rs` — the animal layer
  and the simple-animal and snake engines.

Modelling conventions:
* Rust `isize` coordinates become `Int`, `usize` sizes become `Nat`; the few
  places where wrap-around or conversion panics matter are modelled explicitly.
* `Instant`/`Duration` become `Nat` (Rust `Instant` subtraction saturates at
  zero, exactly like `Nat` subtraction).
* Random choices (`choose`, `choose_weighted`, `gen_bool`) are modelled by an
  index supplied by an oracle argument: `chooseIdx k l` picks `l[k % l.length]`,
  which has the same support as the uniform choice in the source.
* Functions that can panic in Rust (out-of-bounds `ndarray` indexing,
  aliasing in `multi_slice_mut`, failing `try_into().unwrap()`) return
  `Option`, with `none` modelling the panic.
* The grid is modelled as `Point → Cell` together with its size; writes through
  `&mut` references become functional updates.
-/

/-! ## Geometry: `src/point.rs` -/

/-- A point that may or may not be inside the map space (`Point` in `point.rs`).
Coordinates are Rust `isize`, modelled as `Int`. -/
structure Point where
  x : Int
  y : Int
deriving DecidableEq, Repr

instance : Add Point := ⟨fun a b => ⟨a.x + b.x, a.y + b.y⟩⟩

instance : Sub Point := ⟨fun a b => ⟨a.x - b.x, a.y - b.y⟩⟩

instance : Neg Point := ⟨fun a => ⟨-a.x, -a.y⟩⟩

/-- `Point::X` -/
def Point.X : Point := ⟨1, 0⟩

/-- `Point::Y` -/
def Point.Y : Point := ⟨0, 1⟩

/-- `Point::DIRECTIONS` -/
def Point.DIRECTIONS : List Point := [⟨1, 0⟩, ⟨0, 1⟩, ⟨-1, 0⟩, ⟨0, -1⟩]

/-- `Point::is_in_valid_range` -/
def Point.isInValidRange (v : Int) (mapSize : Nat) : Bool :=
  0 ≤ v && v < (mapSize : Int)

/-- `Point::is_valid` -/
def Point.isValid (p : Point) (mapSize : Nat) : Bool :=
  Point.isInValidRange p.x mapSize && Point.isInValidRange p.y mapSize

/-- `Point::distance`: taxicab distance `|Δx| + |Δy|`. -/
def Point.distance (a b : Point) : Nat :=
  (a.x - b.x).natAbs + (a.y - b.y).natAbs

/-- `Point::surroundings`: the 5 points up to distance 1 (not necessarily valid). -/
def Point.surroundings (p : Point) : List Point :=
  [⟨p.x - 1, p.y⟩, ⟨p.x, p.y - 1⟩, ⟨p.x, p.y⟩, ⟨p.x, p.y + 1⟩, ⟨p.x + 1, p.y⟩]

/-- `Point::turn_right` -/
def Point.turnRight (p : Point) : Point := ⟨-p.y, p.x⟩

/-- `Point::turn_left` -/
def Point.turnLeft (p : Point) : Point := ⟨p.y, -p.x⟩

/-- `Point::turn_over` -/
def Point.turnOver (p : Point) : Point := ⟨-p.x, -p.y⟩

/-- The list of integers in the half-open interval `[s, e)` (a Rust
`Range<isize>` iterated in order). -/
def intRange (s e : Int) : List Int :=
  (List.range (e - s).toNat).map (fun (k : Nat) => s + (k : Int))

/-- `Point::valid_range`: the clipped range
`max(center − radius, 0) .. min(center + radius + 1, mapSize)`. -/
def Point.validRange (center radius mapSize : Int) : List Int :=
  intRange (max (center - radius) 0) (min (center + radius + 1) mapSize)

/-- `Point::circle` (the `CircleIter` iterator as a list, in emission order):
for each `x` of the clipped x-range, all valid `y` with
`|Δx| + |Δy| ≤ radius`. -/
def Point.circleList (c : Point) (radius mapSize : Nat) : List Point :=
  (Point.validRange c.x radius mapSize).flatMap fun x =>
    (Point.validRange c.y ((radius : Int) - (c.x - x).natAbs) mapSize).map
      fun y => ⟨x, y⟩

/-- `Point::circumference` (the `CircumferenceIter` iterator as a list, in
emission order): for each `x` of the clipped x-range with
`dy = radius - |Δx|`, the point `(x, c.y + dy)` if valid, then
`(x, c.y - dy)` if `dy > 0` and valid. -/
def Point.circumferenceList (c : Point) (radius mapSize : Nat) : List Point :=
  (Point.validRange c.x radius mapSize).flatMap fun x =>
    let dy : Int := (radius : Int) - (c.x - x).natAbs
    (if Point.isInValidRange (c.y + dy) mapSize then [(⟨x, c.y + dy⟩ : Point)] else []) ++
      (if 0 < dy && Point.isInValidRange (c.y - dy) mapSize then [(⟨x, c.y - dy⟩ : Point)] else [])

/-! ## Random choice oracle -/

/-- Models `rand`'s `choose` (and `choose_weighted`, whose support is the same
list): the oracle supplies `k` and the element `l[k % l.length]` is picked;
`none` on an empty list. -/
def chooseIdx {α : Type} (k : Nat) (l : List α) : Option α :=
  l.get? (k % l.length)

/-- Models itertools' `min_set_by_key`: all elements whose key is minimal,
in their original order. -/
def minSetByKey {α : Type} (f : α → Nat) (l : List α) : List α :=
  match (l.map f).min? with
  | none => []
  | some m => l.filter fun a => f a = m

/-- Models itertools' `max_set_by_key`: all elements whose key is maximal,
in their original order. -/
def maxSetByKey {α : Type} (f : α → Nat) (l : List α) : List α :=
  match (l.map f).max? with
  | none => []
  | some m => l.filter fun a => f a = m

/-! ## Colors: `src/cell_color.rs` -/

/-- `CellColor` in `cell_color.rs`. -/
inductive CellColor where
  | empty
  | ant
  | frog
  | snake1
  | snake2
  | snake3
  | dryGrass
  | lowGrass
  | highGrass
  | shallowWater
  | deepWater
  | deadMatter
deriving DecidableEq, Repr

/-- `CellColor::ALL_COLORS`: all known colors, sorted by their index. -/
def CellColor.ALL_COLORS : List CellColor :=
  [.empty, .ant, .frog, .snake1, .snake2, .snake3, .dryGrass, .lowGrass,
   .highGrass, .shallowWater, .deepWater, .deadMatter]

/-- `CellColor::AVAILABLE_COLORS`: colors available for user interaction. -/
def CellColor.AVAILABLE_COLORS : List CellColor :=
  [.empty, .ant, .frog, .snake1, .snake2, .snake3, .lowGrass, .shallowWater]

/-- `CellColor::as_index` (`self as usize`, the discriminant). -/
def CellColor.asIndex : CellColor → Nat
  | .empty => 0
  | .ant => 1
  | .frog => 2
  | .snake1 => 3
  | .snake2 => 4
  | .snake3 => 5
  | .dryGrass => 6
  | .lowGrass => 7
  | .highGrass => 8
  | .shallowWater => 9
  | .deepWater => 10
  | .deadMatter => 11

/-- `CellColor::as_str`: the CSS hex string of each color. -/
def CellColor.asStr : CellColor → String
  | .empty => "#ffffff"
  | .ant => "#321210"
  | .frog => "#bce23d"
  | .snake1 => "#e5cd17"
  | .snake2 => "#d99e2f"
  | .snake3 => "#b85337"
  | .dryGrass => "#ab9065"
  | .lowGrass => "#638256"
  | .highGrass => "#1b7448"
  | .shallowWater => "#2fa8e8"
  | .deepWater => "#094663"
  | .deadMatter => "#555555"

/-- Value of one lowercase hex digit. -/
def hexDigitVal (ch : Char) : Nat :=
  if '0' ≤ ch ∧ ch ≤ '9' then ch.toNat - '0'.toNat
  else if 'a' ≤ ch ∧ ch ≤ 'f' then 10 + ch.toNat - 'a'.toNat
  else 0

/-- Parse a `#rrggbb` hex string into an RGB triple. -/
def rgbOfHexStr (s : String) : Nat × Nat × Nat :=
  match s.toList with
  | ['#', r1, r2, g1, g2, b1, b2] =>
    (16 * hexDigitVal r1 + hexDigitVal r2,
     16 * hexDigitVal g1 + hexDigitVal g2,
     16 * hexDigitVal b1 + hexDigitVal b2)
  | _ => (0, 0, 0)

/-- The RGB triple of a color, as decoded from `CellColor::as_str` (the hex
strings are the authoritative palette in `cell_color.rs`). -/
def CellColor.asRgb (c : CellColor) : Nat × Nat × Nat :=
  rgbOfHexStr c.asStr

/-! ## Cells: `src/cell.rs` -/

/-- `CellAnimal` in `cell.rs` (the flat animal layer used by the grid/paint
code path). -/
inductive CellAnimal where
  | empty
  | ant
  | frog
  | snake1
  | snake2
  | snake3
  | dead
deriving DecidableEq, Repr

/-- `CellWater` in `cell.rs`. -/
inductive CellWater where
  | empty
  | shallow
  | deep
deriving DecidableEq, Repr

/-- `CellGrass` in `cell.rs`. -/
inductive CellGrass where
  | empty
  | dry
  | low
  | high
deriving DecidableEq, Repr

/-- `CellWater::drier` -/
def CellWater.drier : CellWater → Option CellWater
  | .empty => none
  | .shallow => some .empty
  | .deep => some .shallow

/-- `CellWater::wetter` -/
def CellWater.wetter : CellWater → Option CellWater
  | .empty => some .shallow
  | .shallow => some .deep
  | .deep => none

/-- `Cell` in `cell.rs`: the four layers. Height is a `u8` intensity. -/
structure Cell where
  animal : CellAnimal
  water : CellWater
  grass : CellGrass
  height : Nat
deriving DecidableEq, Repr

/-- `Cell::empty` -/
def Cell.emptyCell (height : Nat) : Cell :=
  ⟨.empty, .empty, .empty, height⟩

/-- `Cell::color`: project the layers to a color with precedence
animal > water > grass. -/
def Cell.color (c : Cell) : CellColor :=
  match c.animal with
  | .ant => .ant
  | .frog => .frog
  | .snake1 => .snake1
  | .snake2 => .snake2
  | .snake3 => .snake3
  | .dead => .deadMatter
  | .empty =>
    match c.water with
    | .shallow => .shallowWater
    | .deep => .deepWater
    | .empty =>
      match c.grass with
      | .dry => .dryGrass
      | .low => .lowGrass
      | .high => .highGrass
      | .empty => .empty

/-- `Cell::with_color`: paint one color onto the cell; `none` models the
`bail!("cannot set such color")` error, in which case the Rust cell is left
unmodified. -/
def Cell.withColor (c : Cell) (color : CellColor) : Option Cell :=
  match color with
  | .empty => some { c with animal := .empty, water := .empty, grass := .empty }
  | .ant => some { c with animal := .ant }
  | .frog => some { c with animal := .frog }
  | .snake1 => some { c with animal := .snake1 }
  | .snake2 => some { c with animal := .snake2 }
  | .snake3 => some { c with animal := .snake3 }
  | .shallowWater => some { c with water := .shallow }
  | .lowGrass => some { c with grass := .low }
  | _ => none

/-! ## The world map and the paint endpoint:
`src/map.rs`, `src/web_error.rs`, `src/set_cell_color.rs` -/

/-- `Map` in `map.rs`: a square grid of side `size` plus the version id. The
version id string (nanoseconds since epoch) is modelled as a counter that
`notify_update` strictly increases. -/
structure Map where
  size : Nat
  cells : Point → Cell
  version : Nat

/-- `ndarray` lookup through the `NdIndex` impl for `Point`
(`usize::try_from` each coordinate, then bounds-check): `some` exactly for
in-bounds points. Models `map.cells().get(point)`. -/
def Map.cellsGet (m : Map) (p : Point) : Option Cell :=
  if p.isValid m.size then some (m.cells p) else none

/-- Functional write to one grid cell, modelling a write through
`&mut` obtained from the grid. -/
def Map.setCell (m : Map) (p : Point) (c : Cell) : Map :=
  { m with cells := fun q => if q = p then c else m.cells q }

/-- `Map::notify_update`: advance the version id (strictly increasing) and
wake the change-signal waiters. -/
def Map.notifyUpdate (m : Map) : Map :=
  { m with version := m.version + 1 }

/-- `Map::set_cell_color`: look the cell up (`none` = "invalid cell position"
error), paint it (`none` = disallowed color error), then `notify_update`.
`none` models the returned `Err`, in which case the map is unmodified. -/
def Map.setCellColor (m : Map) (p : Point) (color : CellColor) : Option Map := do
  let cell ← m.cellsGet p
  let painted ← cell.withColor color
  some ((m.setCell p painted).notifyUpdate)

/-- The error kinds of `web_error.rs`, by HTTP status. -/
inductive WebErrorKind where
  | badRequest
  | internalError
deriving DecidableEq, Repr

/-- Modelled from the spec: `CellColor::try_from_index` is called by the paint
endpoint but its definition is not part of the given sources; the spec states
"`400` for out-of-range or disallowed color", so an out-of-range index is a
`BadRequest`, and an in-range index denotes the color at that position of
`ALL_COLORS`. -/
def CellColor.tryFromIndex (i : Nat) : Except WebErrorKind CellColor :=
  match CellColor.ALL_COLORS.get? i with
  | some c => .ok c
  | none => .error .badRequest

/-- `isize::MAX + 1`: a `usize` below this converts to `isize` without
panicking. -/
def isizeBound : Nat := 2 ^ 63

/-- The `set_cell_color` endpoint (`set_cell_color.rs`): build the point
(`Point::new` panics — `none` — when a coordinate does not fit `isize`),
decode the color index, and paint. The result carries the final map and
either the error kind or the reported version id. -/
def setCellColorEndpoint (m : Map) (xIndex yIndex colorIndex : Nat) :
    Option (Map × Except WebErrorKind Nat) :=
  if xIndex < isizeBound ∧ yIndex < isizeBound then
    let point : Point := ⟨(xIndex : Int), (yIndex : Int)⟩
    match CellColor.tryFromIndex colorIndex with
    | .error e => some (m, .error e)
    | .ok color =>
      match m.setCellColor point color with
      | none => some (m, .error .badRequest)
      | some m2 => some (m2, .ok m2.version)
  else
    none

/-! ## Multi-cell exclusive borrows: `Map::two_cells_mut`,
`Map::three_cells_mut` (`src/map.rs`)

Both functions borrow cells through `ndarray::multi_slice_mut` on the indices
`(point.y as usize, point.x as usize)`; per the doc comments in `map.rs` they
panic iff two points coincide or a point is out of bounds (an `as usize` cast
of a negative `isize` wraps modulo `2^64` into a huge index, which is out of
bounds for any realistic map). -/

/-- The `as usize` cast of an `isize` coordinate: wraps modulo `2^64`. -/
def usizeOfInt (v : Int) : Nat :=
  (v % (2 ^ 64 : Int)).toNat

/-- The `(row, col)` index pair actually passed to `multi_slice_mut`. -/
def castIndexPair (p : Point) : Nat × Nat :=
  (usizeOfInt p.y, usizeOfInt p.x)

/-- Whether the cast index of `p` is out of bounds for an `n × n` grid. -/
def castOutOfBounds (n : Nat) (p : Point) : Bool :=
  n ≤ (castIndexPair p).1 || n ≤ (castIndexPair p).2

/-- Panic condition of `Map::two_cells_mut` (doc comment of `map.rs`:
"Panics: If the points are the same or out of bounds"). -/
def twoCellsMutPanics (n : Nat) (a b : Point) : Bool :=
  castOutOfBounds n a || castOutOfBounds n b || castIndexPair a = castIndexPair b

/-- Panic condition of `Map::three_cells_mut` (doc comment of `map.rs`:
"Panics: If the points are the same or out of bounds"). -/
def threeCellsMutPanics (n : Nat) (a b c : Point) : Bool :=
  castOutOfBounds n a || castOutOfBounds n b || castOutOfBounds n c ||
    castIndexPair a = castIndexPair b || castIndexPair a = castIndexPair c ||
    castIndexPair b = castIndexPair c

/-! ## Water flow: `src/ecosystem/water_flow.rs`

The water-flow system's own view of the grid: heights are fixed at bootstrap
and only the water layer changes. Grid indices are the `ndarray` `(i, j)`
pairs (row, column). -/

/-- An `(i, j)` grid index. -/
abbrev GridIdx : Type := Nat × Nat

/-- `WaterFlowTarget`: a candidate recipient with its height fall
(positive means the target is lower). -/
structure WaterFlowTarget where
  coordinates : GridIdx
  fall : Int
deriving DecidableEq, Repr

/-- The grid as seen by the water-flow system. -/
structure WaterGrid where
  size : Nat
  height : GridIdx → Nat
  water : GridIdx → CellWater

/-- The list of naturals in `[s, e)`, in order. -/
def natRangeCl (s e : Nat) : List Nat :=
  (List.range (e - s)).map (fun k => s + k)

/-- All `(i, j)` indices of an `n × n` grid in `indexed_iter` (row-major)
order. -/
def idxList (n : Nat) : List GridIdx :=
  (List.range n).flatMap fun i => (List.range n).map fun j => (i, j)

/-- Lexicographic order on the `(radius, target_height)` sort key used by
`determine_water_flows`. -/
def keyLe (a b : Nat × Nat) : Bool :=
  a.1 < b.1 || (a.1 = b.1 && a.2 ≤ b.2)

/-- Stable insertion into a `keyLe`-sorted list: the new element goes after
all existing elements whose key is `≤` its own, like Rust's stable
`sort_by_key`. -/
def insertByKey (x : Nat × Nat × WaterFlowTarget) :
    List (Nat × Nat × WaterFlowTarget) → List (Nat × Nat × WaterFlowTarget)
  | [] => [x]
  | y :: ys =>
    if keyLe (y.1, y.2.1) (x.1, x.2.1) then y :: insertByKey x ys
    else x :: y :: ys

/-- Stable sort by the `(radius, target_height)` key (Rust `sort_by_key` is
stable; a stable insertion sort produces the same list). -/
def sortByKey (l : List (Nat × Nat × WaterFlowTarget)) :
    List (Nat × Nat × WaterFlowTarget) :=
  l.foldr insertByKey []

/-- The candidate record `maybe_add_target` pushes for one target index:
present iff `fall > -water_thickness`. -/
def maybeAddTarget (g : WaterGrid) (thickness : Int) (srcHeight : Int)
    (target : GridIdx) (radius : Nat) : Option (Nat × Nat × WaterFlowTarget) :=
  let targetHeight := g.height target
  let fall := srcHeight - (targetHeight : Int)
  if -thickness < fall then some (radius, targetHeight, ⟨target, fall⟩) else none

/-- `WaterFlowSystem::determine_water_flows` for one source cell `(i, j)`:
enumerate the clipped taxicab diamond of radius `maxRadius` in row-major
order, keep targets with `fall > -water_thickness`, and stable-sort by
`(radius, target_height)`. -/
def determineWaterFlowsAt (g : WaterGrid) (maxRadius : Nat) (thickness : Int)
    (i j : Nat) : List WaterFlowTarget :=
  let srcHeight : Int := g.height (i, j)
  let raw :=
    (natRangeCl (i - maxRadius) (min (i + maxRadius + 1) g.size)).flatMap fun ti =>
      let maxDeltaJ := maxRadius - Nat.dist ti i
      (natRangeCl (j - maxDeltaJ) (min (j + maxDeltaJ + 1) g.size)).filterMap fun tj =>
        maybeAddTarget g thickness srcHeight (ti, tj) (Nat.dist ti i + Nat.dist tj j)
  (sortByKey raw).map fun e => e.2.2

/-- The `min_fall` table of `WaterFlowSystem::flow`, keyed on the source's
post-transfer water (`drier`) and the target's post-transfer water
(`wetter`). The other combinations are unreachable; the embedding returns
`0` for them. -/
def minFall (thickness : Int) : CellWater → CellWater → Int
  | .empty, .shallow => 0
  | .empty, .deep => thickness
  | .shallow, .shallow => -thickness
  | .shallow, .deep => 0
  | _, _ => 0

/-- The mutable per-tick state of `flow`: the water layer plus the
received-this-tick markers (`last_received_tick == this_tick`). -/
structure FlowState where
  water : GridIdx → CellWater
  received : GridIdx → Bool

/-- The inner target-list walk of `WaterFlowSystem::flow`: try each target in
priority order; on the first whose water can step wetter and whose fall
exceeds `min_fall`, transfer one level and stop (`break`). -/
def flowVisitTargets (thickness : Int) (source : GridIdx) (drier : CellWater)
    (st : FlowState) : List WaterFlowTarget → FlowState
  | [] => st
  | t :: ts =>
    match (st.water t.coordinates).wetter with
    | none => flowVisitTargets thickness source drier st ts
    | some wetter =>
      if minFall thickness drier wetter < t.fall then
        { water := fun q =>
            if q = source then drier
            else if q = t.coordinates then wetter
            else st.water q
          received := fun q => if q = t.coordinates then true else st.received q }
      else flowVisitTargets thickness source drier st ts

/-- One source step of `WaterFlowSystem::flow`: skip if the source already
received water this tick or cannot step drier, else walk its priority list. -/
def flowStep (thickness : Int) (targets : GridIdx → List WaterFlowTarget)
    (st : FlowState) (source : GridIdx) : FlowState :=
  if st.received source then st
  else
    match (st.water source).drier with
    | none => st
    | some drier => flowVisitTargets thickness source drier st (targets source)

/-- One full tick of `WaterFlowSystem::flow`: scan all sources in grid order,
starting from the tick's initial all-false received markers. -/
def flowTick (thickness : Int) (targets : GridIdx → List WaterFlowTarget)
    (n : Nat) (water : GridIdx → CellWater) : FlowState :=
  (idxList n).foldl (flowStep thickness targets) ⟨water, fun _ => false⟩

/-! ## The ecosystem cell model

`src/cell/cell_animal.rs` defines the animal layer used by the ecosystem
engines (`CellAnimal` with per-animal records). It lives in the `Eco`
namespace to distinguish it from the flat `CellAnimal` of `cell.rs`. The
`Insect`/`Amphibian` structs are thin wrappers around `SimpleAnimal`
(`amphibian.rs`); they are flattened here. -/

namespace Eco

/-- `SnakeSpecies` (`snake.rs`). -/
inductive SnakeSpecies where
  | A
  | B
  | C
deriving DecidableEq, Repr

/-- `SnakeSegmentKind` (`snake.rs`): the head carries `last_feeding`. -/
inductive SnakeSegmentKind where
  | head (lastFeeding : Nat)
  | body
deriving DecidableEq, Repr

/-- `SnakeSegment` (`snake.rs`): `next_segment` is the grid point of the next
segment toward the tail, `none` for the tail. -/
structure SnakeSegment where
  kind : SnakeSegmentKind
  nextSegment : Option Point
deriving DecidableEq, Repr

/-- `Snake` (`snake.rs`): `segment = none` marks a spare part. -/
structure Snake where
  species : SnakeSpecies
  segment : Option SnakeSegment
deriving DecidableEq, Repr

/-- `Snake::is_body` -/
def Snake.isBody (s : Snake) : Bool :=
  match s.segment with
  | some seg => seg.kind = .body
  | none => false

/-- `Snake::next_segment` -/
def Snake.nextSegmentOf (s : Snake) : Option Point :=
  s.segment.bind (·.nextSegment)

/-- `SimpleAnimalState` (`simple_animal.rs`). -/
inductive SimpleAnimalState where
  | searchFood
  | searchMatingGround
  | searchPartner
deriving DecidableEq, Repr

/-- `SimpleAnimal` (`simple_animal.rs`). `last_feeding` is an `Instant`,
modelled as a `Nat` timestamp. -/
structure SimpleAnimal where
  state : SimpleAnimalState
  direction : Point
  destination : Option Point
  lastFeeding : Nat
deriving DecidableEq, Repr

/-- `SimpleAnimal::default()` evaluated at time `now`
(`last_feeding: Instant::now()`). -/
def SimpleAnimal.defaultAt (now : Nat) : SimpleAnimal :=
  ⟨.searchFood, Point.X, none, now⟩

/-- `CellAnimal` (`cell/cell_animal.rs`). -/
inductive CellAnimal where
  | empty
  | insect (sa : SimpleAnimal)
  | amphibian (sa : SimpleAnimal)
  | snake (s : Snake)
  | dead
deriving DecidableEq, Repr

/-- `CellAnimal::is_empty` -/
def CellAnimal.isEmpty : CellAnimal → Bool
  | .empty => true
  | _ => false

/-- `CellAnimal::is_dead` -/
def CellAnimal.isDead : CellAnimal → Bool
  | .dead => true
  | _ => false

/-- `CellAnimal::insect` -/
def CellAnimal.insect? : CellAnimal → Option SimpleAnimal
  | .insect sa => some sa
  | _ => none

/-- The amphibian accessor (the `CellAnimal::Amphibian` match arm). -/
def CellAnimal.amphibian? : CellAnimal → Option SimpleAnimal
  | .amphibian sa => some sa
  | _ => none

/-- `CellAnimal::snake` -/
def CellAnimal.snake? : CellAnimal → Option Snake
  | .snake s => some s
  | _ => none

/-- `CellWater::is_empty` (`cell/cell_water.rs`). -/
def waterIsEmpty : CellWater → Bool
  | .empty => true
  | _ => false

/-- The cell of the latest source layout: same four layers as `cell.rs`, with
the ecosystem animal layer. -/
structure Cell where
  animal : CellAnimal
  water : CellWater
  grass : CellGrass
  height : Nat
deriving DecidableEq, Repr

/-- Modelled from the spec: the latest `Cell::with_color` over the ecosystem
animal layer is not among the given sources; per §3/§4.9 of the spec, painting
`Empty` clears the animate/water/grass layers, painting an animal color
creates a fresh default-state animal (a freshly painted snake is a spare
part, `segment = None`), and painting `ShallowWater`/`LowGrass` sets only
that layer. Any other color is not paintable (`none`). `now` is the paint
time used for a fresh animal's `last_feeding`. -/
def Cell.withColor (now : Nat) (c : Cell) (color : CellColor) : Option Cell :=
  match color with
  | .empty => some { c with animal := .empty, water := .empty, grass := .empty }
  | .ant => some { c with animal := .insect (SimpleAnimal.defaultAt now) }
  | .frog => some { c with animal := .amphibian (SimpleAnimal.defaultAt now) }
  | .snake1 => some { c with animal := .snake ⟨.A, none⟩ }
  | .snake2 => some { c with animal := .snake ⟨.B, none⟩ }
  | .snake3 => some { c with animal := .snake ⟨.C, none⟩ }
  | .shallowWater => some { c with water := .shallow }
  | .lowGrass => some { c with grass := .low }
  | _ => none

/-- The world map over ecosystem cells (`Map` of `map.rs`, latest layout). -/
structure Map where
  size : Nat
  cells : Point → Cell
  version : Nat

/-- `map.cells().get(point)`: `some` exactly for in-bounds points. -/
def Map.cellsGet (m : Map) (p : Point) : Option Cell :=
  if p.isValid m.size then some (m.cells p) else none

/-- `map.cells()[point]` / `map.cells_mut()[point]` indexing, which panics
(`none`) on an out-of-bounds point. -/
def Map.cellsIdx (m : Map) (p : Point) : Option Cell :=
  m.cellsGet p

/-- Functional write to one grid cell. -/
def Map.setCell (m : Map) (p : Point) (c : Cell) : Map :=
  { m with cells := fun q => if q = p then c else m.cells q }

/-- Write just the animal layer of one cell. -/
def Map.setAnimal (m : Map) (p : Point) (a : CellAnimal) : Map :=
  m.setCell p { m.cells p with animal := a }

/-- `Map::notify_update` (latest layout). -/
def Map.notifyUpdate (m : Map) : Map :=
  { m with version := m.version + 1 }

/-- `Map::set_cell_color` over ecosystem cells: the paint commit path. -/
def Map.setCellColor (m : Map) (now : Nat) (p : Point) (color : CellColor) :
    Option Map := do
  let cell ← m.cellsGet p
  let painted ← cell.withColor now color
  some ((m.setCell p painted).notifyUpdate)

/-- The all-empty bootstrap world (`Map::new` builds `Cell::empty(height)`
everywhere; heights are irrelevant to the animal layer and set to 0 here). -/
def emptyMap (n : Nat) : Map :=
  { size := n, cells := fun _ => ⟨.empty, .empty, .empty, 0⟩, version := 0 }

end Eco

/-! ## The simple-animal engine: `src/ecosystem/simple_animal.rs` -/

namespace Eco

/-- Scale a direction (`Mul<usize> for Point`). -/
def Point.scaleBy (p : Point) (s : Nat) : Point :=
  ⟨p.x * (s : Int), p.y * (s : Int)⟩

/-- `WalkCandidate` (`simple_animal.rs`). -/
structure WalkCandidate where
  target : Point
  newDirection : Point
deriving DecidableEq, Repr

/-- `WalkCandidate::new` -/
def WalkCandidate.mk' (point direction : Point) (scale : Nat) : WalkCandidate :=
  ⟨point + Point.scaleBy direction scale, direction⟩

/-- The `SimpleAnimalKind` trait (`simple_animal.rs`), as a record of the
species capabilities. `set` models writing back through the `&mut` reference
returned by `get_mut`. -/
structure SimpleAnimalKind where
  get : Cell → Option SimpleAnimal
  set : Cell → SimpleAnimal → Cell
  walkCandidates : Point → Point → List WalkCandidate
  isFoodGoal : Cell → Bool
  isMatingGroundGoal : Cell → Bool
  buildCell : SimpleAnimal → CellAnimal

/-- The tuning carried by `SimpleAnimalSystem` (`tick_sleep` is irrelevant to
single-tick behavior). -/
structure SAConfig where
  eatingRadius : Nat
  matingRadius : Nat
  destinationRadius : Nat
  starvationDelay : Nat

/-- The `Change` enum of `simple_animal.rs`. -/
inductive SAChange where
  | eat (target : Point)
  | searchPartner
  | mate (partner newBorn : Point)
  | moveTo (candidate : WalkCandidate)
  | setDestination (destination : Point)
  | searchMatingGround
  | starve
deriving DecidableEq, Repr

/-- `SimpleAnimalSystem::determine_starvation`. `Instant` subtraction
saturates at zero exactly like `Nat` subtraction. -/
def determineStarvation (starvationDelay now : Nat) (sa : SimpleAnimal) :
    Option SAChange :=
  if starvationDelay < now - sa.lastFeeding then some .starve else none

/-- `SimpleAnimalSystem::check_food_goal` -/
def checkFoodGoal (K : SimpleAnimalKind) (m : Map) (p : Point) : Bool :=
  ((m.cellsGet p).map K.isFoodGoal).getD false

/-- `SimpleAnimalSystem::check_mating_ground_goal` -/
def checkMatingGroundGoal (K : SimpleAnimalKind) (m : Map) (p : Point) : Bool :=
  ((m.cellsGet p).map K.isMatingGroundGoal).getD false

/-- `SimpleAnimalSystem::check_partner_goal` -/
def checkPartnerGoal (K : SimpleAnimalKind) (m : Map) (selfPoint p : Point) : Bool :=
  if selfPoint = p then false
  else
    (((m.cellsGet p).bind K.get).map fun partner =>
      partner.state == SimpleAnimalState.searchPartner).getD false

/-- `SimpleAnimalSystem::check_new_born` -/
def checkNewBorn (m : Map) (p : Point) : Bool :=
  ((m.cellsGet p).map fun cell => cell.animal.isEmpty).getD false

/-- `SimpleAnimalSystem::determine_reached_goal`; `k` is the oracle index for
the newborn-cell choice. -/
def determineReachedGoal (K : SimpleAnimalKind) (cfg : SAConfig) (m : Map)
    (point : Point) (sa : SimpleAnimal) (k : Nat) : Option SAChange :=
  match sa.state with
  | .searchFood =>
    ((Point.circleList point cfg.eatingRadius m.size).find? fun target =>
        checkFoodGoal K m target).map .eat
  | .searchMatingGround =>
    (point.surroundings.find? fun target =>
        checkMatingGroundGoal K m target).map fun _ => .searchPartner
  | .searchPartner =>
    ((Point.circleList point cfg.matingRadius m.size).find? fun target =>
        checkPartnerGoal K m point target).bind fun partner =>
      (chooseIdx k ((Point.circleList point cfg.matingRadius m.size).filter fun target =>
          checkNewBorn m target)).map fun newBorn => .mate partner newBorn

/-- `SimpleAnimalSystem::determine_next_walk`; `k` is the oracle index for the
choice among closest candidates. -/
def determineNextWalk (K : SimpleAnimalKind) (m : Map) (point : Point)
    (sa : SimpleAnimal) (k : Nat) : Option SAChange :=
  sa.destination.bind fun destination =>
    if destination = point then none
    else
      (chooseIdx k
        (minSetByKey (fun candidate => candidate.target.distance destination)
          ((K.walkCandidates point sa.direction).filter fun candidate =>
            ((m.cellsGet candidate.target).map fun cell =>
              cell.animal.isEmpty).getD false))).map .moveTo

/-- `SimpleAnimalSystem::determine_next_destination`; `k1` picks the random
goal-fulfilling point, `k2` the random circumference point, `k3` the random
farthest mating ground. `none` models the
`.expect("must have at least one point")` panic on an empty circumference. -/
def determineNextDestination (K : SimpleAnimalKind) (cfg : SAConfig) (m : Map)
    (point : Point) (sa : SimpleAnimal) (k1 k2 k3 : Nat) : Option SAChange :=
  let searchCircle := Point.circleList point cfg.destinationRadius m.size
  let goalDestination :=
    match sa.state with
    | .searchFood => chooseIdx k1 (searchCircle.filter fun target => checkFoodGoal K m target)
    | .searchMatingGround =>
      chooseIdx k1 (searchCircle.filter fun target => checkMatingGroundGoal K m target)
    | .searchPartner =>
      chooseIdx k1 (searchCircle.filter fun target => checkPartnerGoal K m point target)
  match goalDestination with
  | some destination => some (.setDestination destination)
  | none =>
    match sa.state with
    | .searchFood | .searchMatingGround =>
      (chooseIdx k2 (Point.circumferenceList point cfg.destinationRadius m.size)).map
        .setDestination
    | .searchPartner =>
      some ((chooseIdx k3
          (maxSetByKey (fun target => target.distance point)
            (searchCircle.filter fun target => checkMatingGroundGoal K m target))).map
            .setDestination |>.getD .searchMatingGround)

/-- The per-animal chain of `SimpleAnimalSystem::determine_changes`:
starvation, then reached-goal, then walk, then next-destination. -/
def determineChange (K : SimpleAnimalKind) (cfg : SAConfig) (now : Nat) (m : Map)
    (point : Point) (sa : SimpleAnimal) (k1 k2 k3 k4 k5 : Nat) : Option SAChange :=
  match determineStarvation cfg.starvationDelay now sa with
  | some c => some c
  | none =>
    match determineReachedGoal K cfg m point sa k1 with
    | some c => some c
    | none =>
      match determineNextWalk K m point sa k2 with
      | some c => some c
      | none => determineNextDestination K cfg m point sa k3 k4 k5

/-- `SimpleAnimalSystem::apply_changes`, one change: re-check the
preconditions and apply. Returns the new map and whether this change set
`changed_map`; `none` models a panic (out-of-bounds indexing or an aliasing
`two_cells_mut`/`three_cells_mut` call). `now` is the commit-time instant. -/
def applyChange (K : SimpleAnimalKind) (now : Nat) (m : Map) (point : Point) :
    SAChange → Option (Map × Bool)
  | .starve => do
    let cell ← m.cellsIdx point
    match K.get cell with
    | none => some (m, false)
    | some sa =>
      match sa.state with
      | .searchFood => some (m.setCell point { cell with animal := .dead }, false)
      | .searchMatingGround | .searchPartner =>
        some (m.setCell point
          (K.set cell { sa with state := .searchFood, lastFeeding := now,
                                destination := none }), false)
  | .searchMatingGround => do
    let cell ← m.cellsIdx point
    match K.get cell with
    | none => some (m, false)
    | some sa =>
      if sa.state ≠ .searchMatingGround then
        some (m.setCell point
          (K.set cell { sa with state := .searchMatingGround, destination := none }), false)
      else some (m, false)
  | .searchPartner => do
    let cell ← m.cellsIdx point
    match K.get cell with
    | none => some (m, false)
    | some sa =>
      if sa.state = .searchMatingGround then
        some (m.setCell point
          (K.set cell { sa with state := .searchPartner, destination := none }), false)
      else some (m, false)
  | .setDestination destination => do
    let cell ← m.cellsIdx point
    match K.get cell with
    | none => some (m, false)
    | some sa => some (m.setCell point (K.set cell { sa with destination := some destination }), false)
  | .eat target =>
    if twoCellsMutPanics m.size point target then none
    else
      let animalCell := m.cells point
      let foodCell := m.cells target
      match K.get animalCell, K.isFoodGoal foodCell with
      | some sa, true =>
        if sa.state = .searchFood then
          some ((m.setCell point
              (K.set animalCell { sa with state := .searchMatingGround, destination := none,
                                          lastFeeding := now })).setAnimal target .empty, true)
        else some (m, false)
      | _, _ => some (m, false)
  | .mate partner newBorn =>
    if threeCellsMutPanics m.size point partner newBorn then none
    else
      let cell1 := m.cells point
      let cell2 := m.cells partner
      let cellNb := m.cells newBorn
      match K.get cell1, K.get cell2, cellNb.animal.isEmpty with
      | some sa1, some sa2, true =>
        if sa1.state = .searchPartner ∧ sa2.state = .searchPartner then
          some ((((m.setCell point (K.set cell1 { sa1 with state := .searchFood })).setCell
              partner (K.set cell2 { sa2 with state := .searchFood })).setAnimal
              newBorn (K.buildCell (SimpleAnimal.defaultAt now))), true)
        else some (m, false)
      | _, _, _ => some (m, false)
  | .moveTo candidate =>
    if twoCellsMutPanics m.size point candidate.target then none
    else
      let fromCell := m.cells point
      let toCell := m.cells candidate.target
      match K.get fromCell, toCell.animal.isEmpty with
      | some sa, true =>
        let sa2 : SimpleAnimal :=
          { sa with
            destination := if sa.destination = some candidate.target then none else sa.destination,
            direction := candidate.newDirection }
        let fromCell2 := K.set fromCell sa2
        some (((m.setCell point { fromCell2 with animal := toCell.animal }).setCell
            candidate.target { toCell with animal := fromCell2.animal }), true)
      | _, _ => some (m, false)

/-- The `SimpleAnimalKind` impl for `Amphibian` (`amphibian.rs`):
amphibians eat insects, mate on water, and can step sideways, forward by one
or forward by two. -/
def amphibianKind : SimpleAnimalKind where
  get cell := cell.animal.amphibian?
  set cell sa :=
    match cell.animal with
    | .amphibian _ => { cell with animal := .amphibian sa }
    | _ => cell
  walkCandidates point direction :=
    [WalkCandidate.mk' point direction.turnRight 1,
     WalkCandidate.mk' point direction.turnLeft 1,
     WalkCandidate.mk' point direction 1,
     WalkCandidate.mk' point direction 2]
  isFoodGoal cell := cell.animal.insect?.isSome
  isMatingGroundGoal cell := !waterIsEmpty cell.water
  buildCell sa := .amphibian sa

end Eco

/-! ## The snake engine: `src/ecosystem/snake.rs` -/

namespace Eco

/-- The per-species tuning of `SnakeSystem` (`move_ratio` only gates a
Bernoulli draw, which the oracle decides, so it does not appear here). -/
structure SnakeConfig where
  minSize : Nat
  eatingRadius : Nat
  starvationDelay : Nat
  aMaxSize : Nat
  bMaxSize : Nat
  cMaxSize : Nat

/-- `SnakeSystem::max_size` -/
def SnakeConfig.maxSize (cfg : SnakeConfig) : SnakeSpecies → Nat
  | .A => cfg.aMaxSize
  | .B => cfg.bMaxSize
  | .C => cfg.cMaxSize

/-- The `Change` enum of `snake.rs`. -/
inductive SnakeChange where
  | newSnake (points : List Point)
  | starve (points : List Point)
  | move (snake : List Point) (target : Point)
  | eat (head newHead food : Point)
  | death (point : Point)
deriving DecidableEq, Repr

/-- Whether a change is a `NewSnake` enrollment. -/
def SnakeChange.isNewSnake : SnakeChange → Bool
  | .newSnake _ => true
  | _ => false

/-- `SnakeSystem::find_movement_target`: the animal-empty axis neighbors of
`head` closest to `goal`; `k` picks among ties. -/
def findMovementTarget (m : Map) (head goal : Point) (k : Nat) : Option Point :=
  chooseIdx k
    (minSetByKey (fun target => target.distance goal)
      ((Point.DIRECTIONS.map fun direction => head + direction).filter fun target =>
        ((m.cellsGet target).map fun cell => cell.animal.isEmpty).getD false))

/-- `SnakeSystem::determine_eat_nearby_prey`: choose an uneaten prey within
the eating circle of the head (`k1`), then a movement target toward it
(`k2`). -/
def determineEatNearbyPrey (m : Map) (eatingRadius : Nat) (uneatenPreys : List Point)
    (head : Point) (k1 k2 : Nat) : Option SnakeChange := do
  let food ← chooseIdx k1
    ((Point.circleList head eatingRadius m.size).filter fun target =>
      uneatenPreys.contains target)
  let newHead ← findMovementTarget m head food k2
  some (.eat head newHead food)

/-- The validation loop of `SnakeSystem::apply_new_snake`: every listed cell
must still hold a spare part (`segment = None`) of the same species. The
loop short-circuits on the first failing cell; `none` models the panic of
indexing an out-of-bounds point that is actually reached. -/
def validNewSnake (m : Map) (species : SnakeSpecies) : List Point → Option Bool
  | [] => some true
  | p :: rest => do
    let c ← m.cellsIdx p
    match c.animal.snake? with
    | none => some false
    | some s =>
      if s.species = species ∧ s.segment = none then validNewSnake m species rest
      else some false

/-- The write loop of `SnakeSystem::apply_new_snake`, recursing over the
remaining points (so that `points.get(i + 1)` is the head of the remaining
suffix): the current point becomes a `Head` fed at `now` when it is the
first of the list (`isHead`), a `Body` otherwise, and links to the next
listed point (`None` for the tail). -/
def writeNewSnakeGo (m : Map) (now : Nat) (isHead : Bool) : List Point → Map
  | [] => m
  | p :: rest =>
    let m2 :=
      match (m.cells p).animal.snake? with
      | some s =>
        let kind : SnakeSegmentKind := if isHead then .head now else .body
        m.setAnimal p (.snake { s with segment := some ⟨kind, rest.head?⟩ })
      | none => m
    writeNewSnakeGo m2 now false rest

/-- The write loop of `SnakeSystem::apply_new_snake`: the first point becomes
a `Head` fed at `now`, each following point a `Body`, and each links to the
next listed point (`None` for the tail). -/
def writeNewSnake (m : Map) (now : Nat) (points : List Point) : Map :=
  writeNewSnakeGo m now true points

/-- `SnakeSystem::apply_new_snake`. `none` models a panic (empty point list —
`points[0]` — or out-of-bounds indexing); a failed re-validation leaves the
map unchanged. -/
def applyNewSnake (m : Map) (now : Nat) (points : List Point) : Option Map :=
  match points with
  | [] => none
  | p0 :: _ => do
    let c0 ← m.cellsIdx p0
    match c0.animal.snake? with
    | none => some m
    | some head => do
      let ok ← validNewSnake m head.species points
      if ok then some (writeNewSnake m now points) else some m

/-- The body-validation loop of `SnakeSystem::apply_move` over
`snake[1..]`: each listed point still holds a same-species `Body` whose
forward link is the next listed point (`None` at the tail). -/
def validMoveBody (m : Map) (species : SnakeSpecies) : List Point → Option Bool
  | [] => some true
  | p :: rest => do
    let c ← m.cellsIdx p
    match c.animal.snake? with
    | none => some false
    | some s =>
      if s.species = species ∧ s.isBody ∧ s.nextSegmentOf = rest.head? then
        validMoveBody m species rest
      else some false

/-- Demote the segment at `p` to a `Body`, keeping its forward link (the
`head.kind = Body` write of `apply_move`). -/
def demoteToBody (m : Map) (p : Point) : Map :=
  match (m.cells p).animal.snake? with
  | some s =>
    match s.segment with
    | some seg => m.setAnimal p (.snake { s with segment := some { seg with kind := .body } })
    | none => m
  | _ => m

/-- Clear the forward link of the segment at `p` (the new-tail write of
`apply_move`). -/
def clearNextSegment (m : Map) (p : Point) : Map :=
  match (m.cells p).animal.snake? with
  | some s =>
    match s.segment with
    | some seg => m.setAnimal p (.snake { s with segment := some { seg with nextSegment := none } })
    | none => m
  | _ => m

/-- `SnakeSystem::apply_move`: re-validate the whole chain and the target,
then move the head into the target, demote the old head, empty the old tail
and clear the new tail's link; `none` models a panic. -/
def applyMove (m : Map) (snake : List Point) (targetPoint : Point) : Option Map :=
  match snake with
  | [] => none
  | s0 :: srest => do
    let c0 ← m.cellsIdx s0
    match c0.animal.snake? with
    | none => some m
    | some headSnake =>
      let species := headSnake.species
      match headSnake.segment with
      | none => some m
      | some headSegment =>
        if headSegment.nextSegment ≠ srest.head? then some m
        else
          match headSegment.kind with
          | .body => some m
          | .head lastFeeding => do
            let ok ← validMoveBody m species srest
            if !ok then some m
            else do
              let targetCell ← m.cellsIdx targetPoint
              if !targetCell.animal.isEmpty then some m
              else
                let m1 := m.setAnimal targetPoint
                  (.snake ⟨species, some ⟨.head lastFeeding, some s0⟩⟩)
                let m2 := demoteToBody m1 s0
                let m3 := m2.setAnimal (srest.getLastD s0) .empty
                let newTail :=
                  if srest.isEmpty then targetPoint
                  else (s0 :: srest).getD ((s0 :: srest).length - 2) s0
                some (clearNextSegment m3 newTail)

/-- `SnakeSystem::apply_eat`: borrow the three cells (`none` models the
`three_cells_mut` panic), re-validate, then advance the head into `newHead`
fed at `now` and consume the amphibian at `food`. -/
def applyEat (m : Map) (now : Nat) (headPoint newHeadPoint foodPoint : Point) :
    Option Map :=
  if threeCellsMutPanics m.size headPoint newHeadPoint foodPoint then none
  else
    match (m.cells headPoint).animal.snake? with
    | none => some m
    | some headSnake =>
      match headSnake.segment with
      | none => some m
      | some headSegment =>
        match headSegment.kind with
        | .body => some m
        | .head _ =>
          if !(m.cells newHeadPoint).animal.isEmpty then some m
          else if ((m.cells foodPoint).animal.amphibian?).isNone then some m
          else
            let m1 := m.setAnimal headPoint
              (.snake { headSnake with segment := some { headSegment with kind := .body } })
            let m2 := m1.setAnimal newHeadPoint
              (.snake ⟨headSnake.species, some ⟨.head now, some headPoint⟩⟩)
            some (m2.setAnimal foodPoint .empty)

/-- `SnakeSystem::apply_death`: a cell that still holds a snake becomes
`Dead`; `none` models the out-of-bounds indexing panic. -/
def applyDeath (m : Map) (p : Point) : Option Map := do
  let c ← m.cellsIdx p
  if c.animal.snake?.isSome then some (m.setAnimal p .dead) else some m

/-- `SnakeSystem::apply_starvation`: kill every listed snake cell. -/
def applyStarvation (m : Map) (points : List Point) : Option Map :=
  points.foldlM applyDeath m

/-- One iteration of the commit loop of `SnakeSystem::apply_changes`:
apply the change and update the `changed_map` flag (every change except
`NewSnake` sets it, whether or not its re-validation succeeded). -/
def applyOneSnakeChange (now : Nat) (acc : Map × Bool) :
    SnakeChange → Option (Map × Bool)
  | .newSnake points => (applyNewSnake acc.1 now points).map fun m => (m, acc.2)
  | .move snake target => (applyMove acc.1 snake target).map fun m => (m, true)
  | .eat head newHead food => (applyEat acc.1 now head newHead food).map fun m => (m, true)
  | .death point => (applyDeath acc.1 point).map fun m => (m, true)
  | .starve points => (applyStarvation acc.1 points).map fun m => (m, true)

/-- `SnakeSystem::apply_changes`: apply all changes under the write lock;
`notify_update` is called at the end iff `changed_map` was set. Returns the
final map and the flag; `none` models a panic inside the loop. -/
def applyChanges (m : Map) (now : Nat) (changes : List SnakeChange) :
    Option (Map × Bool) := do
  let acc ← changes.foldlM (applyOneSnakeChange now) (m, false)
  some (if acc.2 then (acc.1.notifyUpdate, acc.2) else acc)

end Eco

/-! ## Snake chain invariant and the commit-step transition system -/

namespace Eco

/-- Walk the `next_segment` links through body segments of the given species:
`some l` returns the visited points in order when a `none` link is reached
within `fuel` steps and every visited cell is an in-grid, same-species
`Body`; `none` otherwise. -/
def walkBodies (n : Nat) (cells : Point → Cell) (species : SnakeSpecies) :
    Nat → Option Point → Option (List Point)
  | _, none => some []
  | 0, some _ => none
  | fuel + 1, some q =>
    if q.isValid n then
      match (cells q).animal with
      | .snake s =>
        match s.segment with
        | some seg =>
          if s.species = species ∧ seg.kind = .body then
            (walkBodies n cells species fuel seg.nextSegment).map fun l => q :: l
          else none
        | none => none
      | _ => none
    else none

/-- The species and forward link of a cell that holds a snake `Head`
segment. -/
def headInfo (c : Cell) : Option (SnakeSpecies × Option Point) :=
  match c.animal with
  | .snake s =>
    match s.segment with
    | some seg =>
      match seg.kind with
      | .head _ => some (s.species, seg.nextSegment)
      | .body => none
    | none => none
  | _ => none

/-- A list of points that forms a linked chain of in-grid same-species
`Body` segments in the given cells, each linking to the next listed point
and the last linking to `None`. `walkBodies` succeeds exactly on such
lists. -/
def BodyChain (n : Nat) (cells : Point → Cell) (sp : SnakeSpecies) :
    List Point → Prop
  | [] => True
  | p :: rest =>
    p.isValid n = true ∧
      (cells p).animal = .snake ⟨sp, some ⟨.body, rest.head?⟩⟩ ∧
      BodyChain n cells sp rest

/-- The snake-chain well-formedness property of the spec: from every `Head`,
following `next_segment` visits only in-grid same-species `Body` cells and
reaches a `None` link within `max_size(species)` cells in total (the head
plus at most `max_size − 1` bodies). -/
def SnakeChainProp (cfg : SnakeConfig) (m : Map) : Prop :=
  ∀ p : Point, p.isValid m.size = true →
    ∀ sp nx, headInfo (m.cells p) = some (sp, nx) →
      ∃ l, walkBodies m.size m.cells sp (cfg.maxSize sp - 1) nx = some l

/-- Chains of distinct heads occupy disjoint sets of body cells. -/
def ChainsDisjoint (cfg : SnakeConfig) (m : Map) : Prop :=
  ∀ p1 p2 : Point, p1 ≠ p2 →
    p1.isValid m.size = true → p2.isValid m.size = true →
    ∀ sp1 nx1 sp2 nx2 l1 l2,
      headInfo (m.cells p1) = some (sp1, nx1) →
      headInfo (m.cells p2) = some (sp2, nx2) →
      walkBodies m.size m.cells sp1 (cfg.maxSize sp1 - 1) nx1 = some l1 →
      walkBodies m.size m.cells sp2 (cfg.maxSize sp2 - 1) nx2 = some l2 →
      ∀ q, q ∈ l1 → q ∉ l2

/-- The full inductive invariant: every head's chain walk succeeds and
distinct chains are disjoint. -/
def SnakeInv (cfg : SnakeConfig) (m : Map) : Prop :=
  SnakeChainProp cfg m ∧ ChainsDisjoint cfg m

/-- A point that does not lie on the body chain of any head of `m`. -/
def OffAllChains (cfg : SnakeConfig) (m : Map) (p : Point) : Prop :=
  ∀ q : Point, q.isValid m.size = true →
    ∀ sp nx l, headInfo (m.cells q) = some (sp, nx) →
      walkBodies m.size m.cells sp (cfg.maxSize sp - 1) nx = some l → p ∉ l

/-- One committed snake-engine change, guarded by the facts the planner
(`determine_changes`) guarantees about the changes it emits:
`NewSnake` points are distinct and no longer than any species' `max_size`
(the planner emits exactly `min_size` freshly popped spare parts);
an `Eat` is only planned for an in-grid head cell of a snake strictly
shorter than its `max_size`;
a `Death` only hits cells outside every surviving chain (invalid heads and
dangling bodies); a `Starve` kills exactly one head together with its own
chain. `Move` needs no guard: its commit-time re-validation is complete. -/
inductive SnakeEngineStep (cfg : SnakeConfig) : Map → Map → Prop where
  | newSnake (m m' : Map) (now : Nat) (points : List Point)
      (hnodup : points.Nodup)
      (hlen : ∀ sp, points.length ≤ cfg.maxSize sp)
      (happ : applyNewSnake m now points = some m') : SnakeEngineStep cfg m m'
  | move (m m' : Map) (snake : List Point) (target : Point)
      (happ : applyMove m snake target = some m') : SnakeEngineStep cfg m m'
  | eat (m m' : Map) (now : Nat) (headPt newHeadPt foodPt : Point)
      (hvalid : headPt.isValid m.size = true)
      (hshort : ∀ sp nx l, headInfo (m.cells headPt) = some (sp, nx) →
        walkBodies m.size m.cells sp (cfg.maxSize sp - 1) nx = some l →
        l.length + 2 ≤ cfg.maxSize sp)
      (happ : applyEat m now headPt newHeadPt foodPt = some m') :
      SnakeEngineStep cfg m m'
  | death (m m' : Map) (p : Point)
      (hoff : OffAllChains cfg m p)
      (happ : applyDeath m p = some m') : SnakeEngineStep cfg m m'
  | starve (m m' : Map) (p : Point) (sp : SnakeSpecies) (nx : Option Point)
      (l : List Point)
      (hvalid : p.isValid m.size = true)
      (hhead : headInfo (m.cells p) = some (sp, nx))
      (hwalk : walkBodies m.size m.cells sp (cfg.maxSize sp - 1) nx = some l)
      (happ : applyStarvation m (p :: l) = some m') : SnakeEngineStep cfg m m'

/-- A world step as the original claim quantifies them: a snake-engine commit
or an arbitrary successful paint. -/
inductive WorldStepAny (cfg : SnakeConfig) : Map → Map → Prop where
  | engine (m m' : Map) (h : SnakeEngineStep cfg m m') : WorldStepAny cfg m m'
  | paint (m m' : Map) (now : Nat) (p : Point) (color : CellColor)
      (happ : m.setCellColor now p color = some m') : WorldStepAny cfg m m'

/-- A world step whose paints never strike a cell lying on a live snake
chain. -/
inductive WorldStepSafe (cfg : SnakeConfig) : Map → Map → Prop where
  | engine (m m' : Map) (h : SnakeEngineStep cfg m m') : WorldStepSafe cfg m m'
  | paint (m m' : Map) (now : Nat) (p : Point) (color : CellColor)
      (hoff : OffAllChains cfg m p)
      (happ : m.setCellColor now p color = some m') : WorldStepSafe cfg m m'

/-- States reachable from the all-empty bootstrap world through snake-engine
commits and arbitrary paints. -/
def ReachAny (cfg : SnakeConfig) (n : Nat) (m : Map) : Prop :=
  Relation.ReflTransGen (WorldStepAny cfg) (emptyMap n) m

/-- States reachable from the all-empty bootstrap world through snake-engine
commits and chain-safe paints. -/
def ReachSafe (cfg : SnakeConfig) (n : Nat) (m : Map) : Prop :=
  Relation.ReflTransGen (WorldStepSafe cfg) (emptyMap n) m

end Eco

/-! ## Concrete example states (used by witnesses and counterexamples) -/

/-- A snake configuration for the concrete runs:
`min_size = 3`, `eating_radius = 2`, `starvation_delay = 100`,
`max_size = 5` for all species. -/
def cfgEx : Eco.SnakeConfig := ⟨3, 2, 100, 5, 5, 5⟩

/-- The empty 4×4 ecosystem world. -/
def exM0 : Eco.Map := Eco.emptyMap 4

/-- After painting SnakeA at (0,0). -/
def exM1 : Eco.Map := (exM0.setCellColor 0 ⟨0, 0⟩ .snake1).getD exM0

/-- After painting SnakeA at (0,1). -/
def exM2 : Eco.Map := (exM1.setCellColor 1 ⟨0, 1⟩ .snake1).getD exM1

/-- After painting SnakeA at (0,2): three spare parts in a column. -/
def exM3 : Eco.Map := (exM2.setCellColor 2 ⟨0, 2⟩ .snake1).getD exM2

/-- The `NewSnake` enrollment the snake planner emits for the three spare
parts (head first). -/
def exNewSnakePoints : List Point := [⟨0, 0⟩, ⟨0, 1⟩, ⟨0, 2⟩]

/-- After the snake engine commits the `NewSnake` enrollment at time 5. -/
def exM4 : Eco.Map := (Eco.applyNewSnake exM3 5 exNewSnakePoints).getD exM3

/-- After painting Empty onto the middle `Body` cell (0,1) of the enrolled
snake: the head's chain is broken. -/
def exM5 : Eco.Map := (exM4.setCellColor 9 ⟨0, 1⟩ .empty).getD exM4

/-- The snake-engine commit of the `NewSnake` batch alone, used to observe
the `changed_map` flag. -/
def exC1run : Option (Eco.Map × Bool) :=
  Eco.applyChanges exM3 7 [Eco.SnakeChange.newSnake exNewSnakePoints]

/-- A tiny 2×2 legacy world for the paint-endpoint runs. -/
def legacyMapEx : Map := ⟨2, fun _ => Cell.emptyCell 0, 41⟩

/-! ## Claim-side descriptions (used for refinement comparisons) -/

/-- The water-flow source step as the spec sentence describes it: skip a
source that already received this tick or cannot step drier; otherwise find
the first target in the priority list whose water can step wetter and whose
`fall` exceeds `min_fall(drier, wetter)`, and transfer one level: source
steps drier, target steps wetter, target marked received. -/
def flowStepSpec (thickness : Int) (targets : GridIdx → List WaterFlowTarget)
    (st : FlowState) (source : GridIdx) : FlowState :=
  if st.received source then st
  else
    match (st.water source).drier with
    | none => st
    | some drier =>
      match (targets source).find? (fun t =>
          match (st.water t.coordinates).wetter with
          | some wetter => decide (minFall thickness drier wetter < t.fall)
          | none => false) with
      | none => st
      | some t =>
        match (st.water t.coordinates).wetter with
        | none => st
        | some wetter =>
          { water := fun q =>
              if q = source then drier
              else if q = t.coordinates then wetter
              else st.water q
            received := fun q => if q = t.coordinates then true else st.received q }

/-- Taxicab distance between two `(i, j)` grid indices. -/
def gridDist (a b : GridIdx) : Nat :=
  Nat.dist a.1 b.1 + Nat.dist a.2 b.2

/-- The sort key of a water-flow target relative to its source: distance,
then target height. -/
def targetKey (g : WaterGrid) (source : GridIdx) (t : WaterFlowTarget) : Nat × Nat :=
  (gridDist source t.coordinates, g.height t.coordinates)

/-- A 4×4 world exercising the planners: an amphibian in `SearchFood` at
(1,1) next to an insect at (2,1); a `SearchPartner` pair at (0,0) and (0,1)
with a free cell at (1,0); a walking amphibian at (3,3) heading to (0,3); a
snake cell at (3,0) next to an amphibian prey at (3,1). -/
def exC10Map : Eco.Map :=
  ⟨4,
    fun p =>
      if p = ⟨1, 1⟩ then ⟨.amphibian ⟨.searchFood, Point.X, none, 99⟩, .empty, .empty, 0⟩
      else if p = ⟨2, 1⟩ then ⟨.insect ⟨.searchFood, Point.X, none, 99⟩, .empty, .empty, 0⟩
      else if p = ⟨0, 0⟩ then ⟨.amphibian ⟨.searchPartner, Point.X, none, 99⟩, .empty, .empty, 0⟩
      else if p = ⟨0, 1⟩ then ⟨.amphibian ⟨.searchPartner, Point.X, none, 99⟩, .empty, .empty, 0⟩
      else if p = ⟨3, 3⟩ then
        ⟨.amphibian ⟨.searchFood, Point.X, some ⟨0, 3⟩, 99⟩, .empty, .empty, 0⟩
      else if p = ⟨3, 0⟩ then ⟨.snake ⟨.A, none⟩, .empty, .empty, 0⟩
      else if p = ⟨3, 1⟩ then ⟨.amphibian ⟨.searchFood, Point.X, none, 99⟩, .empty, .empty, 0⟩
      else ⟨.empty, .empty, .empty, 0⟩,
    0⟩

/-! # Theorems -/

/-! ## Geometry lemmas -/

theorem mem_intRange {a s e : Int} : a ∈ intRange s e ↔ s ≤ a ∧ a < e := by
  unfold intRange
  simp only [List.mem_map, List.mem_range]
  constructor
  · rintro ⟨k, hk, rfl⟩
    omega
  · intro h
    exact ⟨(a - s).toNat, by omega, by omega⟩

theorem nodup_intRange {s e : Int} : (intRange s e).Nodup := by
  unfold intRange
  apply List.Nodup.map
  · intro a b h
    replace h : s + (a : Int) = s + (b : Int) := h
    omega
  · exact List.nodup_range _

theorem mem_validRange {a c rI N : Int} :
    a ∈ Point.validRange c rI N ↔ 0 ≤ a ∧ a < N ∧ c - rI ≤ a ∧ a ≤ c + rI := by
  unfold Point.validRange
  rw [mem_intRange]
  omega

theorem nodup_validRange {c rI N : Int} : (Point.validRange c rI N).Nodup :=
  nodup_intRange

theorem isValid_iff {p : Point} {N : Nat} :
    p.isValid N = true ↔ 0 ≤ p.x ∧ p.x < (N : Int) ∧ 0 ≤ p.y ∧ p.y < (N : Int) := by
  simp [Point.isValid, Point.isInValidRange, Bool.and_eq_true, decide_eq_true_eq]
  tauto

theorem mem_circleList {c p : Point} {r N : Nat} :
    p ∈ Point.circleList c r N ↔ p.isValid N = true ∧ c.distance p ≤ r := by
  unfold Point.circleList
  rw [isValid_iff]
  simp only [List.mem_flatMap, List.mem_map]
  constructor
  · rintro ⟨x, hx, y, hy, rfl⟩
    rw [mem_validRange] at hx hy
    simp only [Point.distance]
    constructor
    · exact ⟨hx.1, hx.2.1, hy.1, hy.2.1⟩
    · omega
  · rintro ⟨hv, hd⟩
    refine ⟨p.x, ?_, p.y, ?_, rfl⟩
    · rw [mem_validRange]
      simp only [Point.distance] at hd
      omega
    · rw [mem_validRange]
      simp only [Point.distance] at hd
      omega

theorem nodup_circleList {c : Point} {r N : Nat} : (Point.circleList c r N).Nodup := by
  unfold Point.circleList
  rw [List.nodup_flatMap]
  constructor
  · intro x _
    exact nodup_validRange.map fun a b h => by
      simpa using congrArg Point.y h
  · refine List.Pairwise.imp ?_ nodup_validRange
    intro x1 x2 hne
    intro p hp1 hp2
    simp only [List.mem_map] at hp1 hp2
    obtain ⟨y1, _, rfl⟩ := hp1
    obtain ⟨y2, _, h⟩ := hp2
    exact hne (by simpa using congrArg Point.x h.symm)

theorem mem_circumferenceList {c p : Point} {r N : Nat} :
    p ∈ Point.circumferenceList c r N ↔ p.isValid N = true ∧ c.distance p = r := by
  obtain ⟨px, py⟩ := p
  unfold Point.circumferenceList
  rw [isValid_iff]
  simp only [List.mem_flatMap, List.mem_append, List.mem_ite_nil_right,
    List.mem_singleton, Point.isInValidRange, Bool.and_eq_true, decide_eq_true_eq,
    Point.mk.injEq, Point.distance]
  constructor
  · rintro ⟨x, hx, hcase⟩
    rw [mem_validRange] at hx
    rcases hcase with ⟨hy, rfl, rfl⟩ | ⟨⟨hdy, hy⟩, rfl, rfl⟩ <;>
      refine ⟨⟨by omega, by omega, by omega, by omega⟩, by omega⟩
  · rintro ⟨⟨h1, h2, h3, h4⟩, hd⟩
    refine ⟨px, ?_, ?_⟩
    · rw [mem_validRange]
      omega
    · by_cases hy : c.y ≤ py
      · left
        refine ⟨⟨by omega, by omega⟩, rfl, by omega⟩
      · right
        refine ⟨⟨by omega, by omega, by omega⟩, rfl, by omega⟩

theorem nodup_circumferenceList {c : Point} {r N : Nat} :
    (Point.circumferenceList c r N).Nodup := by
  unfold Point.circumferenceList
  rw [List.nodup_flatMap]
  constructor
  · intro x hx
    rw [mem_validRange] at hx
    dsimp only
    split <;> split
    all_goals simp_all [Point.mk.injEq]
    intro h
    omega
  · refine List.Pairwise.imp ?_ nodup_validRange
    intro x1 x2 hne pt hp1 hp2
    simp only [List.mem_append, List.mem_ite_nil_right, List.mem_singleton] at hp1 hp2
    have hx1 : pt.x = x1 := by
      rcases hp1 with ⟨_, rfl⟩ | ⟨_, rfl⟩ <;> rfl
    have hx2 : pt.x = x2 := by
      rcases hp2 with ⟨_, rfl⟩ | ⟨_, rfl⟩ <;> rfl
    exact hne (hx1 ▸ hx2)

theorem nodup_mem_singleton {α : Type} [DecidableEq α] {l : List α} {c : α}
    (hnd : l.Nodup) (hm : ∀ a, a ∈ l ↔ a = c) : l = [c] := by
  cases l with
  | nil => exact absurd ((hm c).2 rfl) (by simp)
  | cons a t =>
    have ha : a = c := (hm a).1 (by simp)
    subst ha
    cases t with
    | nil => rfl
    | cons b t2 =>
      have hb : b = a := (hm b).1 (by simp)
      subst hb
      simp at hnd

/-- Claim C8: `circle(center, r, N)` yields exactly once each in-bounds point
at taxicab distance ≤ r from the center and nothing else;
`circumference(center, r, N)` yields exactly once each in-bounds point at
distance exactly r; for a valid center at `r = 0` both yield only the center.
Both are lists, hence finite. -/
theorem C8_circle_circumference_exact (c : Point) (r N : Nat) :
    ((Point.circleList c r N).Nodup ∧
      ∀ p : Point, p ∈ Point.circleList c r N ↔
        (p.isValid N = true ∧ c.distance p ≤ r)) ∧
    ((Point.circumferenceList c r N).Nodup ∧
      ∀ p : Point, p ∈ Point.circumferenceList c r N ↔
        (p.isValid N = true ∧ c.distance p = r)) ∧
    (c.isValid N = true →
      Point.circleList c 0 N = [c] ∧ Point.circumferenceList c 0 N = [c]) := by
  refine ⟨⟨nodup_circleList, fun p => mem_circleList⟩,
    ⟨nodup_circumferenceList, fun p => mem_circumferenceList⟩, fun hc => ⟨?_, ?_⟩⟩
  · refine nodup_mem_singleton nodup_circleList fun p => ?_
    rw [mem_circleList]
    constructor
    · rintro ⟨hv, hd⟩
      simp only [Nat.le_zero] at hd
      simp only [Point.distance] at hd
      have h1 : p.x = c.x := by omega
      have h2 : p.y = c.y := by omega
      cases p; cases c; simp_all
    · rintro rfl
      exact ⟨hc, by simp [Point.distance]⟩
  · refine nodup_mem_singleton nodup_circumferenceList fun p => ?_
    rw [mem_circumferenceList]
    constructor
    · rintro ⟨hv, hd⟩
      simp only [Point.distance] at hd
      have h1 : p.x = c.x := by omega
      have h2 : p.y = c.y := by omega
      cases p; cases c; simp_all
    · rintro rfl
      exact ⟨hc, by simp [Point.distance]⟩

/-- Witness for C8 at a concrete input: at a valid center and `r = 0` both
iterators yield exactly the center. -/
theorem C8_circle_circumference_exact_witness :
    Point.circleList ⟨1, 1⟩ 0 3 = [⟨1, 1⟩] ∧
      Point.circumferenceList ⟨1, 1⟩ 0 3 = [⟨1, 1⟩] :=
  (C8_circle_circumference_exact ⟨1, 1⟩ 0 3).2.2 (by decide)

/-! ## The color palette (claim C5) -/

/-- Counterexample to claim C5: the claim states `DeadMatter` maps to RGB
`(123, 123, 123)`, but `cell_color.rs` defines it as `"#555555"`, which is
`(85, 85, 85)`. -/
theorem C5_deadMatter_rgb_counterexample :
    CellColor.asRgb .deadMatter = (85, 85, 85) ∧
      CellColor.asRgb .deadMatter ≠ (123, 123, 123) := by
  constructor <;> decide

/-- Claim C5 (amended): indices 0..11 map bit-exactly to
Empty(255,255,255), Insect(50,18,16), Amphibian(188,226,61),
SnakeA(229,205,23), SnakeB(217,158,47), SnakeC(184,83,55),
DryGrass(171,144,101), LowGrass(99,130,86), HighGrass(27,116,72),
ShallowWater(47,168,232), DeepWater(9,70,99) and DeadMatter(85,85,85)
— the claimed (123,123,123) corrected to the source's `#555555` — and the
paintable subset is exactly {Empty, Insect, Amphibian, SnakeA, SnakeB,
SnakeC, LowGrass, ShallowWater}. -/
theorem C5_palette_bit_exact :
    (CellColor.ALL_COLORS.map fun c => (c.asIndex, c.asRgb)) =
      [(0, (255, 255, 255)), (1, (50, 18, 16)), (2, (188, 226, 61)),
       (3, (229, 205, 23)), (4, (217, 158, 47)), (5, (184, 83, 55)),
       (6, (171, 144, 101)), (7, (99, 130, 86)), (8, (27, 116, 72)),
       (9, (47, 168, 232)), (10, (9, 70, 99)), (11, (85, 85, 85))] ∧
    (∀ c : CellColor, c ∈ CellColor.ALL_COLORS) ∧
    (CellColor.ALL_COLORS.map CellColor.asIndex = List.range 12) ∧
    (CellColor.AVAILABLE_COLORS =
      [.empty, .ant, .frog, .snake1, .snake2, .snake3, .lowGrass, .shallowWater]) := by
  refine ⟨by decide, fun c => by cases c <;> decide, by decide, by decide⟩

/-! ## Paint algebra (claim C7) -/

/-- Claim C7: for every cell, painting Empty succeeds and clears the animal,
water and grass layers; painting ShallowWater on the result succeeds and sets
only the water layer; the final color is ShallowWater whatever the prior
animal/water/grass state was, and the height layer is untouched by both
paints. -/
theorem C7_paint_empty_then_shallow (c : Cell) :
    c.withColor .empty = some ⟨.empty, .empty, .empty, c.height⟩ ∧
    Cell.withColor ⟨.empty, .empty, .empty, c.height⟩ .shallowWater =
      some ⟨.empty, .shallow, .empty, c.height⟩ ∧
    Cell.color ⟨.empty, .shallow, .empty, c.height⟩ = .shallowWater := by
  obtain ⟨a, w, g, h⟩ := c
  exact ⟨rfl, rfl, rfl⟩

/-! ## Multi-cell borrow panics (claim C9) -/

/-- Counterexample to claim C9 as stated: by the documented panic contract of
`Map::two_cells_mut`/`three_cells_mut` ("if the points are the same **or out
of bounds**"), the call panics on distinct but out-of-bounds points, so
"panics iff the points coincide" is false: on a 3×3 grid, `(5,5)` and `(6,6)`
are distinct yet the call panics. -/
theorem C9_panic_iff_coincide_counterexample :
    twoCellsMutPanics 3 ⟨5, 5⟩ ⟨6, 6⟩ = true ∧ (⟨5, 5⟩ : Point) ≠ ⟨6, 6⟩ ∧
    threeCellsMutPanics 3 ⟨0, 0⟩ ⟨5, 5⟩ ⟨6, 6⟩ = true ∧
    (⟨0, 0⟩ : Point) ≠ ⟨5, 5⟩ ∧ (⟨0, 0⟩ : Point) ≠ ⟨6, 6⟩ ∧
    (⟨5, 5⟩ : Point) ≠ ⟨6, 6⟩ := by
  refine ⟨by decide, by decide, by decide, by decide, by decide, by decide⟩

theorem pow64 : (2 ^ 64 : Int) = 18446744073709551616 := by norm_num

theorem pow63 : (2 ^ 63 : Int) = 9223372036854775808 := by norm_num

theorem pow63n : (2 ^ 63 : Nat) = 9223372036854775808 := by norm_num

theorem castOOB_iff {n : Nat} {p : Point} (hn : n ≤ 2 ^ 63)
    (hp : -(2 ^ 63 : Int) ≤ p.x ∧ p.x < 2 ^ 63 ∧ -(2 ^ 63 : Int) ≤ p.y ∧ p.y < 2 ^ 63) :
    castOutOfBounds n p = true ↔ p.isValid n = false := by
  obtain ⟨px, py⟩ := p
  simp only [castOutOfBounds, castIndexPair, usizeOfInt, Point.isValid,
    Point.isInValidRange, Bool.or_eq_true, decide_eq_true_eq,
    Bool.and_eq_false_iff, decide_eq_false_iff_not, not_le, not_lt, pow64,
    pow63, pow63n] at *
  omega

theorem castPairEq_iff {a b : Point}
    (ha : -(2 ^ 63 : Int) ≤ a.x ∧ a.x < 2 ^ 63 ∧ -(2 ^ 63 : Int) ≤ a.y ∧ a.y < 2 ^ 63)
    (hb : -(2 ^ 63 : Int) ≤ b.x ∧ b.x < 2 ^ 63 ∧ -(2 ^ 63 : Int) ≤ b.y ∧ b.y < 2 ^ 63) :
    (castIndexPair a = castIndexPair b) ↔ a = b := by
  obtain ⟨ax, ay⟩ := a
  obtain ⟨bx, by2⟩ := b
  simp only [castIndexPair, usizeOfInt, Prod.mk.injEq, Point.mk.injEq, pow64, pow63] at *
  omega

/-- Claim C9 (amended): for points whose coordinates fit `isize` and a grid
of realistic side (`n ≤ 2^63`), `two_cells_mut(a, b)` panics iff `a = b` or
a point is out of bounds, and `three_cells_mut(a, b, c)` panics iff two of
the points coincide or a point is out of bounds (negative coordinates wrap
to huge indices under `as usize` and are out of bounds). -/
theorem C9_multi_borrow_panics_iff (n : Nat) (a b c : Point)
    (hn : n ≤ 2 ^ 63)
    (ha : -(2 ^ 63 : Int) ≤ a.x ∧ a.x < 2 ^ 63 ∧ -(2 ^ 63 : Int) ≤ a.y ∧ a.y < 2 ^ 63)
    (hb : -(2 ^ 63 : Int) ≤ b.x ∧ b.x < 2 ^ 63 ∧ -(2 ^ 63 : Int) ≤ b.y ∧ b.y < 2 ^ 63)
    (hc : -(2 ^ 63 : Int) ≤ c.x ∧ c.x < 2 ^ 63 ∧ -(2 ^ 63 : Int) ≤ c.y ∧ c.y < 2 ^ 63) :
    (twoCellsMutPanics n a b = true ↔
      (a = b ∨ a.isValid n = false ∨ b.isValid n = false)) ∧
    (threeCellsMutPanics n a b c = true ↔
      (a = b ∨ a = c ∨ b = c ∨
        a.isValid n = false ∨ b.isValid n = false ∨ c.isValid n = false)) := by
  simp only [twoCellsMutPanics, threeCellsMutPanics, Bool.or_eq_true,
    decide_eq_true_eq, castOOB_iff hn ha, castOOB_iff hn hb, castOOB_iff hn hc,
    castPairEq_iff ha hb, castPairEq_iff ha hc, castPairEq_iff hb hc]
  constructor <;> tauto

/-- Witness for C9 at concrete inputs: on a 3×3 grid with the distinct
in-bounds points (0,0), (1,1), (2,2), neither borrow panics. -/
theorem C9_multi_borrow_panics_iff_witness :
    (twoCellsMutPanics 3 ⟨0, 0⟩ ⟨1, 1⟩ = true ↔
      ((⟨0, 0⟩ : Point) = ⟨1, 1⟩ ∨ Point.isValid ⟨0, 0⟩ 3 = false ∨
        Point.isValid ⟨1, 1⟩ 3 = false)) ∧
    (threeCellsMutPanics 3 ⟨0, 0⟩ ⟨1, 1⟩ ⟨2, 2⟩ = true ↔
      ((⟨0, 0⟩ : Point) = ⟨1, 1⟩ ∨ (⟨0, 0⟩ : Point) = ⟨2, 2⟩ ∨
        (⟨1, 1⟩ : Point) = ⟨2, 2⟩ ∨ Point.isValid ⟨0, 0⟩ 3 = false ∨
        Point.isValid ⟨1, 1⟩ 3 = false ∨ Point.isValid ⟨2, 2⟩ 3 = false)) :=
  C9_multi_borrow_panics_iff 3 ⟨0, 0⟩ ⟨1, 1⟩ ⟨2, 2⟩ (by norm_num) (by norm_num)
    (by norm_num) (by norm_num)

/-! ## The paint endpoint (claim C6) -/

theorem invalid_point_of_coords {m : Map} {x y : Nat}
    (h : ¬(x < m.size ∧ y < m.size)) :
    Point.isValid ⟨(x : Int), (y : Int)⟩ m.size = false := by
  rw [Bool.eq_false_iff]
  intro hv
  rw [isValid_iff] at hv
  simp only at hv
  omega

/-- Counterexample to claim C6 as stated: a paint request whose `x_index` is
`2^63` has its coordinate outside any grid (here a 2×2 one), yet the endpoint
does not answer 400: `Point::new` panics on the failed `usize → isize`
conversion (modelled as `none`), because `try_into().unwrap()` runs before
any validation. -/
theorem C6_endpoint_panic_counterexample :
    setCellColorEndpoint legacyMapEx (2 ^ 63) 0 0 = none ∧
      legacyMapEx.size ≤ 2 ^ 63 := by
  constructor
  · rfl
  · norm_num [legacyMapEx]

/-- Claim C6 (amended): every paint request whose coordinates are
`isize`-representable and out of the grid, or whose color index is not the
index of a paintable color, answers `BadRequest` (HTTP 400), leaves every
cell unchanged and does not advance `version_id` (the result map is exactly
the input map). Requests with a coordinate ≥ 2^63 panic instead of
answering 400. -/
theorem C6_paint_rejects_bad_requests (m : Map) (x y ci : Nat)
    (hx : x < 2 ^ 63) (hy : y < 2 ^ 63)
    (hbad : ¬(x < m.size ∧ y < m.size) ∨
      ci ∉ CellColor.AVAILABLE_COLORS.map CellColor.asIndex) :
    setCellColorEndpoint m x y ci = some (m, .error .badRequest) := by
  unfold setCellColorEndpoint
  rw [if_pos ⟨hx, hy⟩]
  by_cases h12 : ci < 12
  · interval_cases ci
    all_goals (
      first
      | · -- non-paintable colors: `with_color` fails whatever the cell is
          simp only [CellColor.tryFromIndex, CellColor.ALL_COLORS, List.get?]
          unfold Map.setCellColor
          cases m.cellsGet ⟨(x : Int), (y : Int)⟩ <;>
            simp [Cell.withColor, Option.bind]
      | · -- paintable colors: the coordinates must be the bad part
          rcases hbad with hcoords | havail
          · simp only [CellColor.tryFromIndex, CellColor.ALL_COLORS, List.get?]
            unfold Map.setCellColor
            rw [show m.cellsGet ⟨(x : Int), (y : Int)⟩ = none from
              by simp [Map.cellsGet, invalid_point_of_coords hcoords]]
            simp [Option.bind]
          · exact absurd (by decide) havail)
  · have hnone : CellColor.ALL_COLORS.get? ci = none := by
      apply List.get?_eq_none.mpr
      simp only [CellColor.ALL_COLORS]
      simp only [List.length]
      omega
    simp only [CellColor.tryFromIndex, hnone]

/-- Witness for C6: on the 2×2 example world, painting at the out-of-grid
cell (5, 0) with a paintable color answers 400 and leaves the world
untouched; so does painting in-grid with the non-paintable DeepWater index
10 and with the out-of-range index 25. -/
theorem C6_paint_rejects_bad_requests_witness :
    setCellColorEndpoint legacyMapEx 5 0 0 = some (legacyMapEx, .error .badRequest) ∧
    setCellColorEndpoint legacyMapEx 0 0 10 = some (legacyMapEx, .error .badRequest) ∧
    setCellColorEndpoint legacyMapEx 0 1 25 = some (legacyMapEx, .error .badRequest) :=
  ⟨C6_paint_rejects_bad_requests legacyMapEx 5 0 0 (by norm_num) (by norm_num)
      (Or.inl (by norm_num [legacyMapEx])),
    C6_paint_rejects_bad_requests legacyMapEx 0 0 10 (by norm_num) (by norm_num)
      (Or.inr (by decide)),
    C6_paint_rejects_bad_requests legacyMapEx 0 1 25 (by norm_num) (by norm_num)
      (Or.inr (by decide))⟩

/-! ## Water flow (claim C3) -/

theorem mem_natRangeCl {a s e : Nat} : a ∈ natRangeCl s e ↔ s ≤ a ∧ a < e := by
  unfold natRangeCl
  simp only [List.mem_map, List.mem_range]
  constructor
  · rintro ⟨k, hk, rfl⟩
    omega
  · intro h
    exact ⟨a - s, by omega, by omega⟩

theorem nodup_natRangeCl {s e : Nat} : (natRangeCl s e).Nodup := by
  unfold natRangeCl
  apply List.Nodup.map
  · intro a b h
    replace h : s + a = s + b := h
    omega
  · exact List.nodup_range _

theorem keyLe_total (a b : Nat × Nat) : keyLe a b = true ∨ keyLe b a = true := by
  simp only [keyLe, Bool.or_eq_true, Bool.and_eq_true, decide_eq_true_eq]
  omega

theorem keyLe_trans {a b c : Nat × Nat} (h1 : keyLe a b = true)
    (h2 : keyLe b c = true) : keyLe a c = true := by
  simp only [keyLe, Bool.or_eq_true, Bool.and_eq_true, decide_eq_true_eq] at *
  omega

theorem perm_insertByKey (x : Nat × Nat × WaterFlowTarget)
    (l : List (Nat × Nat × WaterFlowTarget)) : (insertByKey x l).Perm (x :: l) := by
  induction l with
  | nil => exact List.Perm.refl _
  | cons y ys ih =>
    unfold insertByKey
    split
    · exact ((ih.cons y).trans (List.Perm.swap x y ys))
    · exact List.Perm.refl _

theorem perm_sortByKey (l : List (Nat × Nat × WaterFlowTarget)) :
    (sortByKey l).Perm l := by
  induction l with
  | nil => exact List.Perm.refl _
  | cons y ys ih =>
    unfold sortByKey
    simp only [List.foldr_cons]
    exact (perm_insertByKey y _).trans ((ih.cons y))

theorem sorted_insertByKey {x : Nat × Nat × WaterFlowTarget}
    {l : List (Nat × Nat × WaterFlowTarget)}
    (hl : l.Pairwise fun a b => keyLe (a.1, a.2.1) (b.1, b.2.1) = true) :
    (insertByKey x l).Pairwise fun a b => keyLe (a.1, a.2.1) (b.1, b.2.1) = true := by
  induction l with
  | nil => simp [insertByKey]
  | cons y ys ih =>
    rw [List.pairwise_cons] at hl
    unfold insertByKey
    split
    · rename_i hyx
      rw [List.pairwise_cons]
      refine ⟨?_, ih hl.2⟩
      intro z hz
      have hz2 := (perm_insertByKey x ys).mem_iff.mp hz
      rcases List.mem_cons.mp hz2 with rfl | hz3
      · exact hyx
      · exact hl.1 z hz3
    · rename_i hyx
      rw [List.pairwise_cons]
      constructor
      · intro z hz
        have hxy : keyLe (x.1, x.2.1) (y.1, y.2.1) = true := by
          rcases keyLe_total (x.1, x.2.1) (y.1, y.2.1) with h | h
          · exact h
          · exact absurd h hyx
        rcases List.mem_cons.mp hz with rfl | hz2
        · exact hxy
        · exact keyLe_trans hxy (hl.1 z hz2)
      · exact List.pairwise_cons.mpr hl

theorem sorted_sortByKey (l : List (Nat × Nat × WaterFlowTarget)) :
    (sortByKey l).Pairwise fun a b => keyLe (a.1, a.2.1) (b.1, b.2.1) = true := by
  induction l with
  | nil => simp [sortByKey]
  | cons y ys ih =>
    unfold sortByKey
    simp only [List.foldr_cons]
    exact sorted_insertByKey ih

theorem maybeAddTarget_eq_some {g : WaterGrid} {th hs : Int} {tgt : GridIdx}
    {rad : Nat} {e : Nat × Nat × WaterFlowTarget} :
    maybeAddTarget g th hs tgt rad = some e ↔
      (-th < hs - (g.height tgt : Int) ∧
        e = (rad, g.height tgt, ⟨tgt, hs - (g.height tgt : Int)⟩)) := by
  unfold maybeAddTarget
  dsimp only
  split
  · rename_i h
    simp only [Option.some.injEq]
    constructor
    · intro he
      exact ⟨h, he.symm⟩
    · intro he
      exact he.2.symm
  · rename_i h
    simp only [reduceCtorEq, false_iff, not_and]
    intro hc
    exact absurd hc h

theorem mem_determineWaterFlowsAt {g : WaterGrid} {r : Nat} {th : Int}
    {i j : Nat} {t : WaterFlowTarget} :
    t ∈ determineWaterFlowsAt g r th i j ↔
      (t.coordinates.1 < g.size ∧ t.coordinates.2 < g.size ∧
        gridDist (i, j) t.coordinates ≤ r ∧
        t.fall = (g.height (i, j) : Int) - g.height t.coordinates ∧
        -th < t.fall) := by
  obtain ⟨⟨tc1, tc2⟩, f⟩ := t
  unfold determineWaterFlowsAt
  dsimp only
  rw [List.mem_map]
  constructor
  · rintro ⟨e, he, heq⟩
    rw [(perm_sortByKey _).mem_iff] at he
    rw [List.mem_flatMap] at he
    obtain ⟨ti, hti, he⟩ := he
    rw [List.mem_filterMap] at he
    obtain ⟨tj, htj, he⟩ := he
    rw [maybeAddTarget_eq_some] at he
    rw [mem_natRangeCl] at hti htj
    obtain ⟨hfall, rfl⟩ := he
    simp only [WaterFlowTarget.mk.injEq, Prod.mk.injEq] at heq
    obtain ⟨⟨rfl, rfl⟩, rfl⟩ := heq
    simp only [gridDist, Nat.dist] at *
    refine ⟨by omega, by omega, by omega, by trivial, hfall⟩
  · rintro ⟨h1, h2, h3, rfl, h5⟩
    refine ⟨(Nat.dist tc1 i + Nat.dist tc2 j, g.height (tc1, tc2),
      ⟨(tc1, tc2), (g.height (i, j) : Int) - g.height (tc1, tc2)⟩), ?_, rfl⟩
    rw [(perm_sortByKey _).mem_iff]
    rw [List.mem_flatMap]
    simp only [gridDist, Nat.dist] at h3
    refine ⟨tc1, ?_, ?_⟩
    · rw [mem_natRangeCl]
      omega
    · rw [List.mem_filterMap]
      refine ⟨tc2, ?_, ?_⟩
      · rw [mem_natRangeCl]
        simp only [Nat.dist]
        omega
      · rw [maybeAddTarget_eq_some]
        exact ⟨h5, rfl⟩

theorem nodup_coords_determineWaterFlowsAt {g : WaterGrid} {r : Nat} {th : Int}
    {i j : Nat} :
    ((determineWaterFlowsAt g r th i j).map (·.coordinates)).Nodup := by
  unfold determineWaterFlowsAt
  dsimp only
  rw [List.map_map]
  rw [((perm_sortByKey _).map _).nodup_iff]
  rw [List.map_flatMap]
  rw [List.nodup_flatMap]
  constructor
  · intro ti _
    rw [List.map_filterMap]
    apply List.Nodup.filterMap
    · intro a b q hqa hqb
      simp only [Option.mem_def, Function.comp, Option.map_eq_some'] at hqa hqb
      obtain ⟨ea, hea, rfl⟩ := hqa
      obtain ⟨eb, heb, hcoords⟩ := hqb
      rw [maybeAddTarget_eq_some] at hea heb
      obtain ⟨_, rfl⟩ := hea
      obtain ⟨_, rfl⟩ := heb
      simpa using (congrArg Prod.snd hcoords).symm
    · exact nodup_natRangeCl
  · refine List.Pairwise.imp ?_ nodup_natRangeCl
    intro t1 t2 hne q hq1 hq2
    dsimp only at hq1 hq2
    rw [List.map_filterMap, List.mem_filterMap] at hq1 hq2
    obtain ⟨a1, _, ha1⟩ := hq1
    obtain ⟨a2, _, ha2⟩ := hq2
    simp only [Function.comp, Option.map_eq_some'] at ha1 ha2
    obtain ⟨e1, he1, rfl⟩ := ha1
    obtain ⟨e2, he2, hcoords⟩ := ha2
    rw [maybeAddTarget_eq_some] at he1 he2
    obtain ⟨_, rfl⟩ := he1
    obtain ⟨_, rfl⟩ := he2
    exact hne (by simpa using congrArg Prod.fst hcoords.symm)

theorem sorted_determineWaterFlowsAt {g : WaterGrid} {r : Nat} {th : Int}
    {i j : Nat} :
    (determineWaterFlowsAt g r th i j).Pairwise
      (fun a b => keyLe (targetKey g (i, j) a) (targetKey g (i, j) b) = true) := by
  unfold determineWaterFlowsAt
  dsimp only
  rw [List.pairwise_map]
  have hwf : ∀ e ∈ sortByKey
      ((natRangeCl (i - r) (min (i + r + 1) g.size)).flatMap fun ti =>
        (natRangeCl (j - (r - Nat.dist ti i)) (min (j + (r - Nat.dist ti i) + 1) g.size)).filterMap
          fun tj => maybeAddTarget g th (g.height (i, j)) (ti, tj) (Nat.dist ti i + Nat.dist tj j)),
      (e.1, e.2.1) = targetKey g (i, j) e.2.2 := by
    intro e he
    rw [(perm_sortByKey _).mem_iff, List.mem_flatMap] at he
    obtain ⟨ti, hti, he⟩ := he
    rw [List.mem_filterMap] at he
    obtain ⟨tj, htj, he⟩ := he
    rw [maybeAddTarget_eq_some] at he
    obtain ⟨_, rfl⟩ := he
    simp only [targetKey, gridDist, Prod.mk.injEq]
    constructor
    · simp [Nat.dist_comm]
    · trivial
  refine List.Pairwise.imp_of_mem ?_ (sorted_sortByKey _)
  intro a b ha hb hk
  rw [← hwf a ha, ← hwf b hb]
  exact hk

theorem flowVisitTargets_eq_find (thickness : Int) (source : GridIdx)
    (drier : CellWater) (st : FlowState) (ts : List WaterFlowTarget) :
    flowVisitTargets thickness source drier st ts =
      match ts.find? (fun t =>
          match (st.water t.coordinates).wetter with
          | some wetter => decide (minFall thickness drier wetter < t.fall)
          | none => false) with
      | none => st
      | some t =>
        match (st.water t.coordinates).wetter with
        | none => st
        | some wetter =>
          { water := fun q =>
              if q = source then drier
              else if q = t.coordinates then wetter
              else st.water q
            received := fun q => if q = t.coordinates then true else st.received q } := by
  induction ts with
  | nil => rfl
  | cons t ts ih =>
    unfold flowVisitTargets
    rw [List.find?_cons]
    cases hw : (st.water t.coordinates).wetter with
    | none =>
      simp only [hw]
      exact ih
    | some wetter =>
      simp only [hw]
      by_cases hf : minFall thickness drier wetter < t.fall
      · rw [if_pos hf]
        simp only [decide_eq_true_eq, hf, decide_True, hw]
      · rw [if_neg hf]
        simp only [decide_eq_true_eq, hf, decide_False]
        simpa using ih

/-- Claim C3: the water-flow tick. (1) The precomputed priority list of a
source holds exactly the in-grid cells within taxicab distance
`water_flow_max_radius` whose fall exceeds `-water_thickness`, each once,
with the correct fall, sorted by distance then target height. (2) Each
source step follows the claimed rule: a source that already received this
tick is skipped, as is one that cannot step drier; otherwise one level goes
to the first listed target that can step wetter and whose fall exceeds
`min_fall(drier, wetter)` — the source steps drier, the target steps wetter
and is marked received. (3) A tick scans all sources in grid order. -/
theorem C3_water_flow_tick (g : WaterGrid) (r : Nat) (th : Int) (i j : Nat)
    (targets : GridIdx → List WaterFlowTarget) (st : FlowState) (source : GridIdx)
    (n : Nat) (w : GridIdx → CellWater) :
    (∀ t : WaterFlowTarget, t ∈ determineWaterFlowsAt g r th i j ↔
      (t.coordinates.1 < g.size ∧ t.coordinates.2 < g.size ∧
        gridDist (i, j) t.coordinates ≤ r ∧
        t.fall = (g.height (i, j) : Int) - g.height t.coordinates ∧
        -th < t.fall)) ∧
    ((determineWaterFlowsAt g r th i j).map (·.coordinates)).Nodup ∧
    ((determineWaterFlowsAt g r th i j).Pairwise
      (fun a b => keyLe (targetKey g (i, j) a) (targetKey g (i, j) b) = true)) ∧
    flowStep th targets st source = flowStepSpec th targets st source ∧
    flowTick th targets n w =
      (idxList n).foldl (flowStepSpec th targets) ⟨w, fun _ => false⟩ := by
  have hstep : ∀ st2 src2, flowStep th targets st2 src2 = flowStepSpec th targets st2 src2 := by
    intro st2 src2
    unfold flowStep flowStepSpec
    cases st2.received src2
    · cases (st2.water src2).drier with
      | none => simp
      | some drier => simpa using flowVisitTargets_eq_find th src2 drier st2 (targets src2)
    · simp
  refine ⟨fun t => mem_determineWaterFlowsAt, nodup_coords_determineWaterFlowsAt,
    sorted_determineWaterFlowsAt, hstep st source, ?_⟩
  unfold flowTick
  congr 1
  funext a b
  exact hstep a b

/-! ## Simple-animal starvation (claim C4) -/

/-- Claim C4: in the shared simple-animal engine, if
`now − last_feeding > starvation_delay` at plan time then the starvation rule
fires before any other rule (the planned change is `Starve` whatever the
grid, oracle or phase); at commit time an animal still in `SearchFood`
becomes `Dead`, while one in `SearchMatingGround` or `SearchPartner` returns
to `SearchFood` with `last_feeding` reset to the commit-time `now` and its
destination cleared. Neither commit sets `changed_map`. -/
theorem C4_starvation_rule (K : Eco.SimpleAnimalKind) (cfg : Eco.SAConfig)
    (nowPlan nowCommit : Nat) (m : Eco.Map) (point : Point)
    (sa : Eco.SimpleAnimal) (k1 k2 k3 k4 k5 : Nat)
    (cell : Eco.Cell) :
    (cfg.starvationDelay < nowPlan - sa.lastFeeding →
      Eco.determineChange K cfg nowPlan m point sa k1 k2 k3 k4 k5 =
        some .starve) ∧
    (point.isValid m.size = true → m.cells point = cell → K.get cell = some sa →
      sa.state = .searchFood →
      Eco.applyChange K nowCommit m point .starve =
        some (m.setCell point { cell with animal := .dead }, false)) ∧
    (point.isValid m.size = true → m.cells point = cell → K.get cell = some sa →
      (sa.state = .searchMatingGround ∨ sa.state = .searchPartner) →
      Eco.applyChange K nowCommit m point .starve =
        some (m.setCell point
          (K.set cell { sa with state := .searchFood, lastFeeding := nowCommit,
                                destination := none }), false)) := by
  refine ⟨?_, ?_, ?_⟩
  · intro hstarve
    unfold Eco.determineChange Eco.determineStarvation
    rw [if_pos hstarve]
  · intro hvalid hcell hget hstate
    unfold Eco.applyChange Eco.Map.cellsIdx Eco.Map.cellsGet
    rw [hvalid]
    simp [hcell, hget, hstate]
  · intro hvalid hcell hget hstate
    unfold Eco.applyChange Eco.Map.cellsIdx Eco.Map.cellsGet
    rw [hvalid]
    rcases hstate with hs | hs <;> simp [hcell, hget, hs]

/-- Witness for C4 at a concrete input: a 3×3 world with a starving amphibian
in `SearchFood` at (1,1) (`last_feeding = 0`, `starvation_delay = 2`,
`now = 5`): the planner emits `Starve` and the commit kills it. -/
theorem C4_starvation_rule_witness :
    (Eco.determineChange Eco.amphibianKind ⟨1, 1, 2, 2⟩ 5
        (Eco.Map.mk 3
          (fun p => if p = ⟨1, 1⟩ then
            ⟨.amphibian ⟨.searchFood, Point.X, none, 0⟩, .empty, .empty, 0⟩
          else ⟨.empty, .empty, .empty, 0⟩) 0)
        ⟨1, 1⟩ ⟨.searchFood, Point.X, none, 0⟩ 0 0 0 0 0 = some .starve) ∧
    (Eco.applyChange Eco.amphibianKind 5
        (Eco.Map.mk 3
          (fun p => if p = ⟨1, 1⟩ then
            ⟨.amphibian ⟨.searchFood, Point.X, none, 0⟩, .empty, .empty, 0⟩
          else ⟨.empty, .empty, .empty, 0⟩) 0)
        ⟨1, 1⟩ .starve =
      some ((Eco.Map.mk 3
          (fun p => if p = ⟨1, 1⟩ then
            ⟨.amphibian ⟨.searchFood, Point.X, none, 0⟩, .empty, .empty, 0⟩
          else ⟨.empty, .empty, .empty, 0⟩) 0).setCell ⟨1, 1⟩
        ⟨.dead, .empty, .empty, 0⟩, false)) :=
  ⟨((C4_starvation_rule Eco.amphibianKind ⟨1, 1, 2, 2⟩ 5 5 _ ⟨1, 1⟩
      ⟨.searchFood, Point.X, none, 0⟩ 0 0 0 0 0
      ⟨.amphibian ⟨.searchFood, Point.X, none, 0⟩, .empty, .empty, 0⟩).1 (by decide)),
    ((C4_starvation_rule Eco.amphibianKind ⟨1, 1, 2, 2⟩ 5 5 _ ⟨1, 1⟩
      ⟨.searchFood, Point.X, none, 0⟩ 0 0 0 0 0
      ⟨.amphibian ⟨.searchFood, Point.X, none, 0⟩, .empty, .empty, 0⟩).2.1 (by decide)
      (by simp) (by decide) (by decide))⟩

/-! ## Commit-phase multi-borrow safety (claim C10) -/

theorem chooseIdx_mem {α : Type} {k : Nat} {l : List α} {a : α}
    (h : chooseIdx k l = some a) : a ∈ l :=
  List.get?_mem h

theorem minSetByKey_subset {α : Type} {f : α → Nat} {l : List α} {a : α}
    (h : a ∈ minSetByKey f l) : a ∈ l := by
  unfold minSetByKey at h
  split at h
  · simp at h
  · exact (List.mem_filter.mp h).1

theorem maxSetByKey_subset {α : Type} {f : α → Nat} {l : List α} {a : α}
    (h : a ∈ maxSetByKey f l) : a ∈ l := by
  unfold maxSetByKey at h
  split at h
  · simp at h
  · exact (List.mem_filter.mp h).1

theorem isValid_isize {p : Point} {n : Nat} (hn : n ≤ 2 ^ 63)
    (hv : p.isValid n = true) :
    -(2 ^ 63 : Int) ≤ p.x ∧ p.x < 2 ^ 63 ∧ -(2 ^ 63 : Int) ≤ p.y ∧ p.y < 2 ^ 63 := by
  rw [isValid_iff] at hv
  have hn2 : (n : Int) ≤ 2 ^ 63 := by exact_mod_cast hn
  rw [pow63] at hn2 ⊢
  omega

theorem twoCells_no_panic {n : Nat} {a b : Point} (hn : n ≤ 2 ^ 63)
    (ha : a.isValid n = true) (hb : b.isValid n = true) (hne : a ≠ b) :
    twoCellsMutPanics n a b = false := by
  rw [Bool.eq_false_iff]
  intro hp
  simp only [twoCellsMutPanics, Bool.or_eq_true, decide_eq_true_eq] at hp
  rcases hp with (h | h) | h
  · rw [castOOB_iff hn (isValid_isize hn ha), ha] at h
    cases h
  · rw [castOOB_iff hn (isValid_isize hn hb), hb] at h
    cases h
  · exact hne ((castPairEq_iff (isValid_isize hn ha) (isValid_isize hn hb)).mp h)

theorem threeCells_no_panic {n : Nat} {a b c : Point} (hn : n ≤ 2 ^ 63)
    (ha : a.isValid n = true) (hb : b.isValid n = true) (hc : c.isValid n = true)
    (hab : a ≠ b) (hac : a ≠ c) (hbc : b ≠ c) :
    threeCellsMutPanics n a b c = false := by
  rw [Bool.eq_false_iff]
  intro hp
  simp only [threeCellsMutPanics, Bool.or_eq_true, decide_eq_true_eq] at hp
  rcases hp with ((((h | h) | h) | h) | h) | h
  · rw [castOOB_iff hn (isValid_isize hn ha), ha] at h
    cases h
  · rw [castOOB_iff hn (isValid_isize hn hb), hb] at h
    cases h
  · rw [castOOB_iff hn (isValid_isize hn hc), hc] at h
    cases h
  · exact hab ((castPairEq_iff (isValid_isize hn ha) (isValid_isize hn hb)).mp h)
  · exact hac ((castPairEq_iff (isValid_isize hn ha) (isValid_isize hn hc)).mp h)
  · exact hbc ((castPairEq_iff (isValid_isize hn hb) (isValid_isize hn hc)).mp h)

theorem amphibianKind_nonempty (c : Eco.Cell)
    (h : (Eco.amphibianKind.get c).isSome = true) : c.animal.isEmpty = false := by
  cases hc : c.animal <;>
    simp [Eco.amphibianKind, Eco.CellAnimal.amphibian?, Eco.CellAnimal.isEmpty, hc] at *

theorem amphibianKind_food_disjoint (c : Eco.Cell)
    (h : (Eco.amphibianKind.get c).isSome = true) :
    Eco.amphibianKind.isFoodGoal c = false := by
  cases hc : c.animal <;>
    simp [Eco.amphibianKind, Eco.CellAnimal.amphibian?, Eco.CellAnimal.insect?, hc] at *

theorem snake_isSome_not_empty {a : Eco.CellAnimal}
    (h : (a.snake?).isSome = true) : a.isEmpty = false := by
  cases a <;> simp [Eco.CellAnimal.snake?, Eco.CellAnimal.isEmpty] at *

theorem amphibian_isSome_not_empty {a : Eco.CellAnimal}
    (h : (a.amphibian?).isSome = true) : a.isEmpty = false := by
  cases a <;> simp [Eco.CellAnimal.amphibian?, Eco.CellAnimal.isEmpty] at *

theorem not_snake_and_amphibian {a : Eco.CellAnimal}
    (h1 : (a.snake?).isSome = true) (h2 : (a.amphibian?).isSome = true) : False := by
  cases a <;> simp [Eco.CellAnimal.snake?, Eco.CellAnimal.amphibian?] at *

theorem checkFoodGoal_true {K : Eco.SimpleAnimalKind} {m : Eco.Map} {p : Point}
    (h : Eco.checkFoodGoal K m p = true) :
    p.isValid m.size = true ∧ K.isFoodGoal (m.cells p) = true := by
  unfold Eco.checkFoodGoal Eco.Map.cellsGet at h
  by_cases hv : p.isValid m.size = true
  · rw [hv] at h
    simp at h
    exact ⟨hv, h⟩
  · rw [Bool.not_eq_true] at hv
    rw [hv] at h
    simp at h

theorem checkNewBorn_true {m : Eco.Map} {p : Point}
    (h : Eco.checkNewBorn m p = true) :
    p.isValid m.size = true ∧ (m.cells p).animal.isEmpty = true := by
  unfold Eco.checkNewBorn Eco.Map.cellsGet at h
  by_cases hv : p.isValid m.size = true
  · rw [hv] at h
    simp at h
    exact ⟨hv, h⟩
  · rw [Bool.not_eq_true] at hv
    rw [hv] at h
    simp at h

theorem checkPartnerGoal_true {K : Eco.SimpleAnimalKind} {m : Eco.Map}
    {selfPoint p : Point} (h : Eco.checkPartnerGoal K m selfPoint p = true) :
    selfPoint ≠ p ∧ p.isValid m.size = true ∧ (K.get (m.cells p)).isSome = true := by
  unfold Eco.checkPartnerGoal Eco.Map.cellsGet at h
  by_cases hsp : selfPoint = p
  · rw [if_pos hsp] at h
    cases h
  · rw [if_neg hsp] at h
    by_cases hv : p.isValid m.size = true
    · rw [hv] at h
      simp only [if_true, Option.some_bind] at h
      cases hg : K.get (m.cells p) with
      | none => rw [hg] at h; simp at h
      | some pa => exact ⟨hsp, hv, by simp [hg]⟩
    · rw [Bool.not_eq_true] at hv
      rw [hv] at h
      simp at h

/-- Claim C10: changes planned by the engines' own scans feed
`two_cells_mut`/`three_cells_mut` with pairwise distinct in-grid points, so
the commit-phase borrows never panic. The hypotheses are exactly what the
scans guarantee: the animal's own cell holds a `K`-animal; `K`-animal cells
are never food goals and never animal-empty (true of the amphibian and
insect kinds); the snake head cell holds a snake; the uneaten-prey set holds
amphibian positions; the grid side is realistic (≤ 2^63). -/
theorem C10_planned_commit_points_safe (K : Eco.SimpleAnimalKind)
    (cfg : Eco.SAConfig) (m : Eco.Map) (point : Point) (sa : Eco.SimpleAnimal)
    (hsize : m.size ≤ 2 ^ 63)
    (hfood : ∀ c : Eco.Cell, (K.get c).isSome = true → K.isFoodGoal c = false)
    (hne : ∀ c : Eco.Cell, (K.get c).isSome = true → c.animal.isEmpty = false)
    (hpoint : point.isValid m.size = true)
    (hget : K.get (m.cells point) = some sa) :
    (∀ (target : Point) (k : Nat),
      Eco.determineReachedGoal K cfg m point sa k = some (.eat target) →
        target.isValid m.size = true ∧ target ≠ point ∧
          twoCellsMutPanics m.size point target = false) ∧
    (∀ (partner newBorn : Point) (k : Nat),
      Eco.determineReachedGoal K cfg m point sa k = some (.mate partner newBorn) →
        partner.isValid m.size = true ∧ newBorn.isValid m.size = true ∧
          point ≠ partner ∧ point ≠ newBorn ∧ partner ≠ newBorn ∧
          threeCellsMutPanics m.size point partner newBorn = false) ∧
    (∀ (cand : Eco.WalkCandidate) (k : Nat),
      Eco.determineNextWalk K m point sa k = some (.moveTo cand) →
        cand.target.isValid m.size = true ∧ cand.target ≠ point ∧
          twoCellsMutPanics m.size point cand.target = false) ∧
    (∀ (eatingRadius : Nat) (preys : List Point) (head nh f : Point) (k1 k2 : Nat),
      head.isValid m.size = true →
      ((m.cells head).animal.snake?).isSome = true →
      (∀ q ∈ preys, ((m.cells q).animal.amphibian?).isSome = true) →
      Eco.determineEatNearbyPrey m eatingRadius preys head k1 k2 =
        some (.eat head nh f) →
        head ≠ nh ∧ head ≠ f ∧ nh ≠ f ∧
          nh.isValid m.size = true ∧ f.isValid m.size = true ∧
          threeCellsMutPanics m.size head nh f = false) := by
  have hpointNE : (m.cells point).animal.isEmpty = false := by
    apply hne
    rw [hget]
    rfl
  refine ⟨?_, ?_, ?_, ?_⟩
  · -- Eat
    intro target k he
    unfold Eco.determineReachedGoal at he
    cases hs : sa.state <;> rw [hs] at he
    case searchMatingGround =>
      rw [Option.map_eq_some'] at he
      obtain ⟨_, _, hc⟩ := he
      cases hc
    case searchPartner =>
      rw [Option.bind_eq_some] at he
      obtain ⟨_, _, he⟩ := he
      rw [Option.map_eq_some'] at he
      obtain ⟨_, _, hc⟩ := he
      cases hc
    case searchFood =>
      rw [Option.map_eq_some'] at he
      obtain ⟨t0, hfind, hc⟩ := he
      cases hc
      have hpred := List.find?_some hfind
      obtain ⟨hvalid, hgoal⟩ := checkFoodGoal_true hpred
      have hnept : target ≠ point := by
        rintro rfl
        rw [hfood (m.cells target) (by rw [hget]; rfl)] at hgoal
        cases hgoal
      exact ⟨hvalid, hnept,
        twoCells_no_panic hsize hpoint hvalid (Ne.symm hnept)⟩
  · -- Mate
    intro partner newBorn k he
    unfold Eco.determineReachedGoal at he
    cases hs : sa.state <;> rw [hs] at he
    case searchFood =>
      rw [Option.map_eq_some'] at he
      obtain ⟨_, _, hc⟩ := he
      cases hc
    case searchMatingGround =>
      rw [Option.map_eq_some'] at he
      obtain ⟨_, _, hc⟩ := he
      cases hc
    case searchPartner =>
      rw [Option.bind_eq_some] at he
      obtain ⟨p0, hfind, he⟩ := he
      rw [Option.map_eq_some'] at he
      obtain ⟨nb0, hchoose, hc⟩ := he
      cases hc
      obtain ⟨hsp, hpv, hpget⟩ := checkPartnerGoal_true (List.find?_some hfind)
      have hnb := chooseIdx_mem hchoose
      rw [List.mem_filter] at hnb
      obtain ⟨hnbv, hnbempty⟩ := checkNewBorn_true hnb.2
      have hpartnerNE : (m.cells partner).animal.isEmpty = false := hne _ hpget
      have h1 : point ≠ newBorn := by
        rintro rfl
        rw [hpointNE] at hnbempty
        cases hnbempty
      have h2 : partner ≠ newBorn := by
        rintro rfl
        rw [hpartnerNE] at hnbempty
        cases hnbempty
      exact ⟨hpv, hnbv, hsp, h1, h2,
        threeCells_no_panic hsize hpoint hpv hnbv hsp h1 h2⟩
  · -- MoveTo
    intro cand k he
    unfold Eco.determineNextWalk at he
    rw [Option.bind_eq_some] at he
    obtain ⟨dest, _, he⟩ := he
    split at he
    · cases he
    · rw [Option.map_eq_some'] at he
      obtain ⟨c0, hchoose, hc⟩ := he
      cases hc
      have hc1 := minSetByKey_subset (chooseIdx_mem hchoose)
      rw [List.mem_filter] at hc1
      have hc2 := hc1.2
      unfold Eco.Map.cellsGet at hc2
      by_cases hv : cand.target.isValid m.size = true
      · rw [hv] at hc2
        simp at hc2
        have hnep : cand.target ≠ point := by
          rintro heq
          rw [heq, hpointNE] at hc2
          cases hc2
        exact ⟨hv, hnep, twoCells_no_panic hsize hpoint hv (Ne.symm hnep)⟩
      · rw [Bool.not_eq_true] at hv
        rw [hv] at hc2
        simp at hc2
  · -- Snake Eat
    intro eatingRadius preys head nh f k1 k2 hheadv hheadsnake hpreys he
    unfold Eco.determineEatNearbyPrey at he
    cases hchoose : chooseIdx k1
        ((Point.circleList head eatingRadius m.size).filter fun target =>
          preys.contains target) with
    | none => rw [hchoose] at he; simp at he
    | some f0 =>
    rw [hchoose] at he
    simp only [Option.bind_eq_bind, Option.some_bind] at he
    cases hfmt : Eco.findMovementTarget m head f0 k2 with
    | none => rw [hfmt] at he; simp at he
    | some nh0 =>
    rw [hfmt] at he
    simp only [Option.bind_eq_bind, Option.some_bind, Option.some.injEq,
      Eco.SnakeChange.eat.injEq] at he
    obtain ⟨_, hnh0, hf0⟩ := he
    subst hnh0
    subst hf0
    have hf := chooseIdx_mem hchoose
    rw [List.mem_filter] at hf
    have hfv : f0.isValid m.size = true := (mem_circleList.mp hf.1).1
    have hfprey : f0 ∈ preys := by simpa using hf.2
    have hfamph := hpreys f0 hfprey
    unfold Eco.findMovementTarget at hfmt
    have hnh := minSetByKey_subset (chooseIdx_mem hfmt)
    rw [List.mem_filter] at hnh
    have hnh2 := hnh.2
    unfold Eco.Map.cellsGet at hnh2
    by_cases hv : nh0.isValid m.size = true
    · rw [hv] at hnh2
      simp at hnh2
      have hheadNE : (m.cells head).animal.isEmpty = false :=
        snake_isSome_not_empty hheadsnake
      have hfNE : (m.cells f0).animal.isEmpty = false :=
        amphibian_isSome_not_empty hfamph
      have h1 : head ≠ nh0 := by
        rintro rfl
        rw [hheadNE] at hnh2
        cases hnh2
      have h2 : head ≠ f0 := by
        rintro rfl
        exact not_snake_and_amphibian hheadsnake hfamph
      have h3 : nh0 ≠ f0 := by
        rintro rfl
        rw [hfNE] at hnh2
        cases hnh2
      exact ⟨h1, h2, h3, hv, hfv,
        threeCells_no_panic hsize hheadv hv hfv h1 h2 h3⟩
    · rw [Bool.not_eq_true] at hv
      rw [hv] at hnh2
      simp at hnh2

/-- Witness for C10 on `exC10Map`: the planned Eat, Mate, MoveTo and snake
Eat changes all carry pairwise distinct in-grid points and none of the
commit-phase borrows panics. -/
theorem C10_planned_commit_points_safe_witness :
    (Point.isValid ⟨2, 1⟩ 4 = true ∧ (⟨2, 1⟩ : Point) ≠ ⟨1, 1⟩ ∧
      twoCellsMutPanics 4 ⟨1, 1⟩ ⟨2, 1⟩ = false) ∧
    (Point.isValid ⟨0, 1⟩ 4 = true ∧ Point.isValid ⟨1, 0⟩ 4 = true ∧
      (⟨0, 0⟩ : Point) ≠ ⟨0, 1⟩ ∧ (⟨0, 0⟩ : Point) ≠ ⟨1, 0⟩ ∧
      (⟨0, 1⟩ : Point) ≠ ⟨1, 0⟩ ∧
      threeCellsMutPanics 4 ⟨0, 0⟩ ⟨0, 1⟩ ⟨1, 0⟩ = false) ∧
    (Point.isValid ⟨3, 2⟩ 4 = true ∧ (⟨3, 2⟩ : Point) ≠ ⟨3, 3⟩ ∧
      twoCellsMutPanics 4 ⟨3, 3⟩ ⟨3, 2⟩ = false) ∧
    ((⟨3, 0⟩ : Point) ≠ ⟨2, 0⟩ ∧ (⟨3, 0⟩ : Point) ≠ ⟨3, 1⟩ ∧
      (⟨2, 0⟩ : Point) ≠ ⟨3, 1⟩ ∧ Point.isValid ⟨2, 0⟩ 4 = true ∧
      Point.isValid ⟨3, 1⟩ 4 = true ∧
      threeCellsMutPanics 4 ⟨3, 0⟩ ⟨2, 0⟩ ⟨3, 1⟩ = false) := by
  have app1 := C10_planned_commit_points_safe Eco.amphibianKind ⟨1, 1, 2, 100⟩
    exC10Map ⟨1, 1⟩ ⟨.searchFood, Point.X, none, 99⟩ (by norm_num [exC10Map])
    amphibianKind_food_disjoint amphibianKind_nonempty (by decide) (by decide)
  have app2 := C10_planned_commit_points_safe Eco.amphibianKind ⟨1, 1, 2, 100⟩
    exC10Map ⟨0, 0⟩ ⟨.searchPartner, Point.X, none, 99⟩ (by norm_num [exC10Map])
    amphibianKind_food_disjoint amphibianKind_nonempty (by decide) (by decide)
  have app3 := C10_planned_commit_points_safe Eco.amphibianKind ⟨1, 1, 2, 100⟩
    exC10Map ⟨3, 3⟩ ⟨.searchFood, Point.X, some ⟨0, 3⟩, 99⟩ (by norm_num [exC10Map])
    amphibianKind_food_disjoint amphibianKind_nonempty (by decide) (by decide)
  exact ⟨app1.1 ⟨2, 1⟩ 0 (by decide),
    app2.2.1 ⟨0, 1⟩ ⟨1, 0⟩ 0 (by decide),
    app3.2.2.1 ⟨⟨3, 2⟩, ⟨0, -1⟩⟩ 0 (by decide),
    app1.2.2.2 1 [⟨3, 1⟩] ⟨3, 0⟩ ⟨2, 0⟩ ⟨3, 1⟩ 0 0 (by decide) (by decide)
      (by decide) (by decide)⟩

/-! ## Snake commit notification (claim C1) -/

theorem version_writeNewSnakeGo {now : Nat} {points : List Point} :
    ∀ {m : Eco.Map} {b : Bool},
      (Eco.writeNewSnakeGo m now b points).version = m.version := by
  induction points with
  | nil => intro m b; rfl
  | cons p rest ih =>
    intro m b
    show (Eco.writeNewSnakeGo _ now false rest).version = m.version
    rw [ih]
    cases ((m.cells p).animal.snake?) <;> rfl

theorem version_writeNewSnake {m : Eco.Map} {now : Nat} {points : List Point} :
    (Eco.writeNewSnake m now points).version = m.version :=
  version_writeNewSnakeGo

theorem version_applyNewSnake {m m' : Eco.Map} {now : Nat} {points : List Point}
    (h : Eco.applyNewSnake m now points = some m') : m'.version = m.version := by
  unfold Eco.applyNewSnake at h
  cases points with
  | nil => cases h
  | cons p0 rest =>
    dsimp only at h
    cases hc : m.cellsIdx p0 with
    | none => simp [hc] at h
    | some c0 =>
      simp only [hc, Option.bind_eq_bind, Option.some_bind] at h
      cases hs : c0.animal.snake? with
      | none => simp only [hs] at h; cases h; rfl
      | some head =>
        simp only [hs] at h
        cases hv : Eco.validNewSnake m head.species (p0 :: rest) with
        | none => simp [hv] at h
        | some ok =>
          simp only [hv, Option.bind_eq_bind, Option.some_bind] at h
          cases ok with
          | true => simp only [if_pos rfl] at h; cases h; exact version_writeNewSnake
          | false => simp at h; cases h; rfl

theorem version_demoteToBody {m : Eco.Map} {p : Point} :
    (Eco.demoteToBody m p).version = m.version := by
  unfold Eco.demoteToBody
  cases (m.cells p).animal.snake? with
  | none => rfl
  | some s =>
    obtain ⟨sp, seg⟩ := s
    cases seg <;> rfl

theorem version_clearNextSegment {m : Eco.Map} {p : Point} :
    (Eco.clearNextSegment m p).version = m.version := by
  unfold Eco.clearNextSegment
  cases (m.cells p).animal.snake? with
  | none => rfl
  | some s =>
    obtain ⟨sp, seg⟩ := s
    cases seg <;> rfl

theorem version_applyMove {m m' : Eco.Map} {snake : List Point} {target : Point}
    (h : Eco.applyMove m snake target = some m') : m'.version = m.version := by
  unfold Eco.applyMove at h
  cases snake with
  | nil => cases h
  | cons s0 srest =>
    dsimp only at h
    cases hc : m.cellsIdx s0 with
    | none => simp [hc] at h
    | some c0 =>
      simp only [hc, Option.bind_eq_bind, Option.some_bind] at h
      cases hs : c0.animal.snake? with
      | none => simp only [hs] at h; cases h; rfl
      | some headSnake =>
        simp only [hs] at h
        cases hseg : headSnake.segment with
        | none => simp only [hseg] at h; cases h; rfl
        | some headSegment =>
          simp only [hseg] at h
          split at h
          · cases h; rfl
          · cases hk : headSegment.kind with
            | body => simp only [hk] at h; cases h; rfl
            | head lastFeeding =>
              simp only [hk] at h
              cases hv : Eco.validMoveBody m headSnake.species srest with
              | none => simp [hv] at h
              | some ok =>
                simp only [hv, Option.bind_eq_bind, Option.some_bind] at h
                cases ok with
                | false => simp at h; cases h; rfl
                | true =>
                  simp only [Bool.not_true, Bool.false_eq_true, if_false] at h
                  cases ht : m.cellsIdx target with
                  | none => simp [ht] at h
                  | some targetCell =>
                    simp only [ht, Option.bind_eq_bind, Option.some_bind] at h
                    split at h
                    · cases h; rfl
                    · cases h
                      rw [version_clearNextSegment]
                      rw [show ∀ mm p a, (Eco.Map.setAnimal mm p a).version = mm.version
                        from fun _ _ _ => rfl]
                      rw [version_demoteToBody]
                      rfl

theorem version_applyEat {m m' : Eco.Map} {now : Nat} {h1 h2 h3 : Point}
    (h : Eco.applyEat m now h1 h2 h3 = some m') : m'.version = m.version := by
  unfold Eco.applyEat at h
  split at h
  · cases h
  · cases hs : (m.cells h1).animal.snake? with
    | none => simp only [hs] at h; cases h; rfl
    | some headSnake =>
      simp only [hs] at h
      cases hseg : headSnake.segment with
      | none => simp only [hseg] at h; cases h; rfl
      | some headSegment =>
        simp only [hseg] at h
        cases hk : headSegment.kind with
        | body => simp only [hk] at h; cases h; rfl
        | head lf =>
          simp only [hk] at h
          split at h
          · cases h; rfl
          · split at h
            · cases h; rfl
            · cases h; rfl

theorem version_applyDeath {m m' : Eco.Map} {p : Point}
    (h : Eco.applyDeath m p = some m') : m'.version = m.version := by
  unfold Eco.applyDeath at h
  cases hc : m.cellsIdx p with
  | none => rw [hc] at h; cases h
  | some c =>
    rw [hc] at h
    simp only [Option.bind_eq_bind, Option.some_bind] at h
    split at h <;> (cases h; rfl)

theorem version_applyStarvation {m m' : Eco.Map} {points : List Point}
    (h : Eco.applyStarvation m points = some m') : m'.version = m.version := by
  unfold Eco.applyStarvation at h
  induction points generalizing m with
  | nil => cases h; rfl
  | cons p rest ih =>
    rw [List.foldlM_cons] at h
    simp only [Option.bind_eq_bind, Option.bind_eq_some] at h
    obtain ⟨m1, hm1, hrest⟩ := h
    rw [ih hrest, version_applyDeath hm1]

theorem applyOneSnakeChange_flag {now : Nat} {acc acc' : Eco.Map × Bool}
    {c : Eco.SnakeChange} (h : Eco.applyOneSnakeChange now acc c = some acc') :
    acc'.1.version = acc.1.version ∧ acc'.2 = (acc.2 || !c.isNewSnake) := by
  cases c with
  | newSnake points =>
    unfold Eco.applyOneSnakeChange at h
    dsimp only at h
    cases hap : Eco.applyNewSnake acc.1 now points with
    | none => simp [hap] at h
    | some m2 =>
      simp only [hap, Option.map_some'] at h
      cases h
      exact ⟨version_applyNewSnake hap, by simp [Eco.SnakeChange.isNewSnake]⟩
  | move snake target =>
    unfold Eco.applyOneSnakeChange at h
    dsimp only at h
    cases hap : Eco.applyMove acc.1 snake target with
    | none => simp [hap] at h
    | some m2 =>
      simp only [hap, Option.map_some'] at h
      cases h
      exact ⟨version_applyMove hap, by simp [Eco.SnakeChange.isNewSnake]⟩
  | eat h1 h2 h3 =>
    unfold Eco.applyOneSnakeChange at h
    dsimp only at h
    cases hap : Eco.applyEat acc.1 now h1 h2 h3 with
    | none => simp [hap] at h
    | some m2 =>
      simp only [hap, Option.map_some'] at h
      cases h
      exact ⟨version_applyEat hap, by simp [Eco.SnakeChange.isNewSnake]⟩
  | death p =>
    unfold Eco.applyOneSnakeChange at h
    dsimp only at h
    cases hap : Eco.applyDeath acc.1 p with
    | none => simp [hap] at h
    | some m2 =>
      simp only [hap, Option.map_some'] at h
      cases h
      exact ⟨version_applyDeath hap, by simp [Eco.SnakeChange.isNewSnake]⟩
  | starve points =>
    unfold Eco.applyOneSnakeChange at h
    dsimp only at h
    cases hap : Eco.applyStarvation acc.1 points with
    | none => simp [hap] at h
    | some m2 =>
      simp only [hap, Option.map_some'] at h
      cases h
      exact ⟨version_applyStarvation hap, by simp [Eco.SnakeChange.isNewSnake]⟩

theorem snakeChanges_fold_flag {now : Nat} {changes : List Eco.SnakeChange}
    {acc res : Eco.Map × Bool}
    (h : changes.foldlM (Eco.applyOneSnakeChange now) acc = some res) :
    res.1.version = acc.1.version ∧
      res.2 = (acc.2 || changes.any fun c => !c.isNewSnake) := by
  induction changes generalizing acc with
  | nil =>
    cases h
    simp
  | cons c cs ih =>
    rw [List.foldlM_cons] at h
    simp only [Option.bind_eq_bind, Option.bind_eq_some] at h
    obtain ⟨acc1, hacc1, hrest⟩ := h
    have h1 := applyOneSnakeChange_flag hacc1
    have h2 := ih hrest
    refine ⟨by rw [h2.1, h1.1], ?_⟩
    rw [h2.2, h1.2]
    simp [List.any_cons, Bool.or_assoc]

/-- Counterexample to claim C1 as stated: committing the batch containing
only the `NewSnake` enrollment of the three painted spare parts mutates the
grid (the cell (0,0) goes from a spare part to a `Head` segment), yet
`changed_map` stays `false`, `notify_update` is not called and `version_id`
does not advance — the `NewSnake` arm of `apply_changes` never sets
`changed_map`. -/
theorem C1_newsnake_no_notify_counterexample :
    (exC1run.map fun r => r.2) = some false ∧
    (exC1run.map fun r => (r.1.cells ⟨0, 0⟩).animal) =
      some (.snake ⟨.A, some ⟨.head 7, some ⟨0, 1⟩⟩⟩) ∧
    (exM3.cells ⟨0, 0⟩).animal = .snake ⟨.A, none⟩ ∧
    (exC1run.map fun r => r.1.version) = some exM3.version := by
  refine ⟨by decide, by decide, by decide, by decide⟩

/-- Claim C1 (amended): at the end of a snake-engine commit that does not
panic, `notify_update` is called (and `version_id` advances, exactly once)
iff the batch contains at least one change other than a `NewSnake`
enrollment — whether or not that change passed re-validation. Committed
`NewSnake` enrollments mutate the grid without setting `changed_map`, so a
batch of only `NewSnake` changes never notifies and never advances
`version_id`. -/
theorem C1_notify_iff_non_newsnake_change (m : Eco.Map) (now : Nat)
    (changes : List Eco.SnakeChange) (res : Eco.Map × Bool)
    (h : Eco.applyChanges m now changes = some res) :
    res.2 = (changes.any fun c => !c.isNewSnake) ∧
      res.1.version = (if res.2 = true then m.version + 1 else m.version) := by
  unfold Eco.applyChanges at h
  simp only [Option.bind_eq_bind, Option.bind_eq_some] at h
  obtain ⟨acc, hacc, hres⟩ := h
  have hfold := snakeChanges_fold_flag hacc
  rw [Bool.false_or] at hfold
  have hre := (Option.some.inj hres).symm
  have h2 : res.2 = acc.2 := by
    rw [hre]
    cases hb : acc.2 <;> simp [hb]
  have h1 : res.1.version =
      if acc.2 = true then acc.1.version + 1 else acc.1.version := by
    rw [hre]
    cases hb : acc.2 <;> simp [hb, Eco.Map.notifyUpdate]
  refine ⟨h2.trans hfold.2, ?_⟩
  rw [h1, h2]
  cases hb : acc.2 <;> simp [hb, hfold.1]

/-- Witness for C1: the `NewSnake`-only batch commits with
`changed_map = false` and an unchanged `version_id`. -/
theorem C1_notify_iff_non_newsnake_change_witness :
    (exC1run.getD (exM3, false)).2 =
      ([Eco.SnakeChange.newSnake exNewSnakePoints].any fun c => !c.isNewSnake) ∧
    (exC1run.getD (exM3, false)).1.version =
      (if (exC1run.getD (exM3, false)).2 = true then exM3.version + 1
        else exM3.version) :=
  C1_notify_iff_non_newsnake_change exM3 7 [Eco.SnakeChange.newSnake exNewSnakePoints]
    (exC1run.getD (exM3, false)) (by rfl)

/-! ## Snake chain invariant (claim C2): walk/chain correspondence -/

theorem walkBodies_none {n : Nat} {cells : Point → Eco.Cell} {sp : Eco.SnakeSpecies}
    {f : Nat} : Eco.walkBodies n cells sp f none = some [] := by
  cases f <;> rfl

theorem walkBodies_succ {n : Nat} {cells : Point → Eco.Cell} {sp : Eco.SnakeSpecies}
    {f : Nat} {q : Point} :
    Eco.walkBodies n cells sp (f + 1) (some q) =
      if q.isValid n then
        match (cells q).animal with
        | .snake s =>
          match s.segment with
          | some seg =>
            if s.species = sp ∧ seg.kind = .body then
              (Eco.walkBodies n cells sp f seg.nextSegment).map fun l => q :: l
            else none
          | none => none
        | _ => none
      else none := rfl

theorem walkBodies_cons {n : Nat} {cells : Point → Eco.Cell} {sp : Eco.SnakeSpecies}
    {f : Nat} {q : Point} {nx : Option Point} {l : List Point}
    (hv : q.isValid n = true)
    (ha : (cells q).animal = .snake ⟨sp, some ⟨.body, nx⟩⟩)
    (hrec : Eco.walkBodies n cells sp f nx = some l) :
    Eco.walkBodies n cells sp (f + 1) (some q) = some (q :: l) := by
  rw [walkBodies_succ, if_pos hv, ha]
  show (if sp = sp ∧ Eco.SnakeSegmentKind.body = Eco.SnakeSegmentKind.body then _ else none) = _
  rw [if_pos ⟨rfl, rfl⟩, hrec]
  rfl

theorem bodyChain_of_walk {n : Nat} {cells : Point → Eco.Cell} {sp : Eco.SnakeSpecies} :
    ∀ {f : Nat} {nx : Option Point} {l : List Point},
      Eco.walkBodies n cells sp f nx = some l →
      nx = l.head? ∧ Eco.BodyChain n cells sp l ∧ l.length ≤ f := by
  intro f
  induction f with
  | zero =>
    intro nx l h
    cases nx with
    | none =>
      cases h
      exact ⟨rfl, trivial, Nat.le_refl _⟩
    | some q => cases h
  | succ f ih =>
    intro nx l h
    cases nx with
    | none =>
      cases h
      exact ⟨rfl, trivial, Nat.zero_le _⟩
    | some q =>
      rw [walkBodies_succ] at h
      split at h
      case isFalse => cases h
      case isTrue hv =>
        split at h
        case h_1 s heq =>
          split at h
          case h_1 seg hseg =>
            split at h
            case isTrue hsp =>
              rw [Option.map_eq_some'] at h
              obtain ⟨l0, hw0, hl⟩ := h
              obtain ⟨hnx0, hbc0, hlen0⟩ := ih hw0
              subst hl
              refine ⟨rfl, ⟨hv, ?_, hbc0⟩, Nat.succ_le_succ hlen0⟩
              rw [heq]
              obtain ⟨s1, s2⟩ := s
              obtain ⟨k1, k2⟩ := seg
              simp only at hseg
              subst hseg
              obtain ⟨hspec, hkind⟩ := hsp
              simp only at hspec hkind
              subst hspec
              subst hkind
              rw [← hnx0]
            case isFalse => cases h
          case h_2 => cases h
        case h_2 => cases h

theorem walk_of_bodyChain {n : Nat} {cells : Point → Eco.Cell} {sp : Eco.SnakeSpecies} :
    ∀ {l : List Point} {f : Nat},
      Eco.BodyChain n cells sp l → l.length ≤ f →
      Eco.walkBodies n cells sp f l.head? = some l := by
  intro l
  induction l with
  | nil => intro f _ _; exact walkBodies_none
  | cons p rest ih =>
    intro f hbc hlen
    obtain ⟨hv, ha, hrest⟩ := hbc
    cases f with
    | zero => exact absurd hlen (by simp)
    | succ f =>
      exact walkBodies_cons hv ha (ih hrest (Nat.le_of_succ_le_succ hlen))

theorem bodyChain_det {n : Nat} {cells : Point → Eco.Cell} {sp : Eco.SnakeSpecies} :
    ∀ {l1 l2 : List Point},
      Eco.BodyChain n cells sp l1 → Eco.BodyChain n cells sp l2 →
      l1.head? = l2.head? → l1 = l2 := by
  intro l1
  induction l1 with
  | nil =>
    intro l2 _ _ hh
    cases l2 with
    | nil => rfl
    | cons b t => cases hh
  | cons a t1 ih =>
    intro l2 h1 h2 hh
    cases l2 with
    | nil => cases hh
    | cons b t2 =>
      simp only [List.head?_cons, Option.some.injEq] at hh
      subst hh
      obtain ⟨_, ha1, ht1⟩ := h1
      obtain ⟨_, ha2, ht2⟩ := h2
      rw [ha1] at ha2
      simp only [Eco.CellAnimal.snake.injEq, Eco.Snake.mk.injEq,
        Option.some.injEq, Eco.SnakeSegment.mk.injEq, true_and] at ha2
      rw [ih ht1 ht2 ha2]

theorem bodyChain_suffix {n : Nat} {cells : Point → Eco.Cell} {sp : Eco.SnakeSpecies} :
    ∀ {l1 l2 : List Point},
      Eco.BodyChain n cells sp (l1 ++ l2) → Eco.BodyChain n cells sp l2 := by
  intro l1
  induction l1 with
  | nil => intro l2 h; exact h
  | cons a t ih => intro l2 h; exact ih h.2.2

theorem bodyChain_nodup {n : Nat} {cells : Point → Eco.Cell} {sp : Eco.SnakeSpecies} :
    ∀ {l : List Point}, Eco.BodyChain n cells sp l → l.Nodup := by
  intro l
  induction l with
  | nil => intro _; exact List.nodup_nil
  | cons p rest ih =>
    intro h
    obtain ⟨hv, ha, hrest⟩ := h
    refine List.nodup_cons.mpr ⟨?_, ih hrest⟩
    intro hmem
    obtain ⟨r1, r2, hsplit⟩ := List.append_of_mem hmem
    subst hsplit
    have hsuf : Eco.BodyChain n cells sp (p :: r2) := @bodyChain_suffix n cells sp r1 (p :: r2) hrest
    obtain ⟨_, ha2, _⟩ := hsuf
    rw [ha] at ha2
    simp only [Eco.CellAnimal.snake.injEq, Eco.Snake.mk.injEq,
      Option.some.injEq, Eco.SnakeSegment.mk.injEq, true_and] at ha2
    have hdet : r1 ++ p :: r2 = r2 := bodyChain_det hrest (@bodyChain_suffix n cells sp (r1 ++ [p]) r2 (by simpa using hrest)) ha2
    have : (r1 ++ p :: r2).length = r2.length := by rw [hdet]
    simp only [List.length_append, List.length_cons] at this
    omega

theorem bodyChain_frame {n : Nat} {cells cells2 : Point → Eco.Cell}
    {sp : Eco.SnakeSpecies} :
    ∀ {l : List Point},
      (∀ q ∈ l, (cells2 q).animal = (cells q).animal) →
      Eco.BodyChain n cells sp l → Eco.BodyChain n cells2 sp l := by
  intro l
  induction l with
  | nil => intro _ _; trivial
  | cons p rest ih =>
    intro hag h
    obtain ⟨hv, ha, hrest⟩ := h
    exact ⟨hv, by rw [hag p (List.mem_cons_self p rest)]; exact ha,
      ih (fun q hq => hag q (List.mem_cons_of_mem p hq)) hrest⟩

theorem bodyChain_mem {n : Nat} {cells : Point → Eco.Cell} {sp : Eco.SnakeSpecies} :
    ∀ {l : List Point} {q : Point},
      Eco.BodyChain n cells sp l → q ∈ l →
      q.isValid n = true ∧
        ∃ nxq, (cells q).animal = .snake ⟨sp, some ⟨.body, nxq⟩⟩ := by
  intro l
  induction l with
  | nil => intro q _ hq; cases hq
  | cons p rest ih =>
    intro q h hq
    obtain ⟨hv, ha, hrest⟩ := h
    cases List.mem_cons.mp hq with
    | inl heq => subst heq; exact ⟨hv, _, ha⟩
    | inr hmem => exact ih hrest hmem

theorem listGet_dropLast {α : Type} :
    ∀ (l : List α) (i : Nat), i + 1 < l.length → l.dropLast.get? i = l.get? i := by
  intro l
  induction l with
  | nil => intro i h; simp at h
  | cons a t ih =>
    intro i h
    cases t with
    | nil => simp at h
    | cons b t2 =>
      rw [List.dropLast_cons₂]
      cases i with
      | zero => rfl
      | succ j =>
        rw [List.get?_cons_succ, List.get?_cons_succ]
        exact ih j (by simpa using h)

theorem nodup_get_ne {α : Type} :
    ∀ {l : List α}, l.Nodup → ∀ {i j : Nat}, i ≠ j → ∀ {a b : α},
      l.get? i = some a → l.get? j = some b → a ≠ b := by
  intro l
  induction l with
  | nil => intro _ i j _ a b ha; cases ha
  | cons c t ih =>
    intro hN i j hij a b ha hb
    obtain ⟨hc, ht⟩ := List.nodup_cons.mp hN
    cases i with
    | zero =>
      cases ha
      cases j with
      | zero => exact absurd rfl hij
      | succ j2 =>
        rw [List.get?_cons_succ] at hb
        intro hab
        exact hc (hab ▸ List.get?_mem hb)
    | succ i2 =>
      rw [List.get?_cons_succ] at ha
      cases j with
      | zero =>
        cases hb
        intro hab
        exact hc (hab ▸ List.get?_mem ha)
      | succ j2 =>
        rw [List.get?_cons_succ] at hb
        exact ih ht (fun hh => hij (by rw [hh])) ha hb

theorem headInfo_some_animal {c : Eco.Cell} {sp : Eco.SnakeSpecies} {nx : Option Point}
    (h : Eco.headInfo c = some (sp, nx)) :
    ∃ lf, c.animal = .snake ⟨sp, some ⟨.head lf, nx⟩⟩ := by
  unfold Eco.headInfo at h
  split at h
  case h_1 s heq =>
    split at h
    case h_1 seg hseg =>
      split at h
      case h_1 lf hk =>
        simp only [Option.some.injEq, Prod.mk.injEq] at h
        refine ⟨lf, ?_⟩
        rw [heq]
        obtain ⟨s1, s2⟩ := s
        obtain ⟨k1, k2⟩ := seg
        simp only at hseg hk h
        rw [hseg, hk, h.1, h.2]
      case h_2 => cases h
    case h_2 => cases h
  case h_2 => cases h

theorem headInfo_of_animal {c : Eco.Cell} {sp : Eco.SnakeSpecies} {lf : Nat}
    {nx : Option Point} (h : c.animal = .snake ⟨sp, some ⟨.head lf, nx⟩⟩) :
    Eco.headInfo c = some (sp, nx) := by
  unfold Eco.headInfo
  rw [h]

theorem headInfo_congr {c1 c2 : Eco.Cell} (h : c1.animal = c2.animal) :
    Eco.headInfo c1 = Eco.headInfo c2 := by
  unfold Eco.headInfo
  rw [h]

theorem headInfo_none_of_snakeq {c : Eco.Cell} (h : c.animal.snake? = none) :
    Eco.headInfo c = none := by
  unfold Eco.headInfo
  cases hc : c.animal <;> try rfl
  case snake s => rw [hc] at h; cases h

theorem headInfo_none_of_body {c : Eco.Cell} {sp : Eco.SnakeSpecies}
    {nx : Option Point} (h : c.animal = .snake ⟨sp, some ⟨.body, nx⟩⟩) :
    Eco.headInfo c = none := by
  unfold Eco.headInfo
  rw [h]

theorem snakeq_of_some {a : Eco.CellAnimal} {s : Eco.Snake}
    (h : a.snake? = some s) : a = .snake s := by
  cases a <;> simp_all [Eco.CellAnimal.snake?]

theorem animal_isEmpty_true {a : Eco.CellAnimal} (h : a.isEmpty = true) :
    a = .empty := by
  cases a <;> simp_all [Eco.CellAnimal.isEmpty]

theorem validNewSnake_spec {m : Eco.Map} {species : Eco.SnakeSpecies} :
    ∀ {pts : List Point}, Eco.validNewSnake m species pts = some true →
      ∀ p ∈ pts, p.isValid m.size = true ∧
        (m.cells p).animal = .snake ⟨species, none⟩ := by
  intro pts
  induction pts with
  | nil => intro _ p hp; cases hp
  | cons p0 rest ih =>
    intro h p hp
    unfold Eco.validNewSnake at h
    cases hg : m.cellsIdx p0 with
    | none => rw [hg] at h; cases h
    | some c =>
      simp only [hg, Option.bind_eq_bind, Option.some_bind] at h
      cases hs : c.animal.snake? with
      | none => simp only [hs] at h; cases h
      | some s =>
        simp only [hs] at h
        split at h
        case isFalse => cases h
        case isTrue hcond =>
          unfold Eco.Map.cellsIdx Eco.Map.cellsGet at hg
          split at hg
          case isFalse => cases hg
          case isTrue hv =>
            have hcp0 : c = m.cells p0 := by cases hg; rfl
            have hanim : (m.cells p0).animal = .snake ⟨species, none⟩ := by
              rw [← hcp0, snakeq_of_some hs]
              obtain ⟨s1, s2⟩ := s
              obtain ⟨hc1, hc2⟩ := hcond
              simp only at hc1 hc2
              rw [hc1, hc2]
            cases List.mem_cons.mp hp with
            | inl heq => subst heq; exact ⟨hv, hanim⟩
            | inr hmem => exact ih h p hmem

theorem snake_isBody_parts {s : Eco.Snake} (h : s.isBody = true) :
    ∃ seg, s.segment = some seg ∧ seg.kind = .body := by
  unfold Eco.Snake.isBody at h
  split at h
  case h_1 seg hseg => exact ⟨seg, hseg, by simpa using h⟩
  case h_2 => cases h

theorem validMoveBody_chain {m : Eco.Map} {species : Eco.SnakeSpecies} :
    ∀ {pts : List Point}, Eco.validMoveBody m species pts = some true →
      Eco.BodyChain m.size m.cells species pts := by
  intro pts
  induction pts with
  | nil => intro _; trivial
  | cons p0 rest ih =>
    intro h
    unfold Eco.validMoveBody at h
    cases hg : m.cellsIdx p0 with
    | none => rw [hg] at h; cases h
    | some c =>
      simp only [hg, Option.bind_eq_bind, Option.some_bind] at h
      cases hs : c.animal.snake? with
      | none => simp only [hs] at h; cases h
      | some s =>
        simp only [hs] at h
        split at h
        case isFalse => cases h
        case isTrue hcond =>
          obtain ⟨hspec, hbody, hnext⟩ := hcond
          obtain ⟨seg, hseg, hkind⟩ := snake_isBody_parts hbody
          unfold Eco.Map.cellsIdx Eco.Map.cellsGet at hg
          split at hg
          case isFalse => cases hg
          case isTrue hv =>
            have hcp0 : c = m.cells p0 := by cases hg; rfl
            refine ⟨hv, ?_, ih h⟩
            rw [← hcp0, snakeq_of_some hs]
            have hnx : seg.nextSegment = rest.head? := by
              unfold Eco.Snake.nextSegmentOf at hnext
              rw [hseg] at hnext
              exact hnext
            obtain ⟨s1, s2⟩ := s
            obtain ⟨k1, k2⟩ := seg
            simp only at hspec hseg hkind hnx
            rw [hspec, hseg, hkind, hnx]

theorem writeNewSnakeGo_size {now : Nat} :
    ∀ {pts : List Point} {m : Eco.Map} {b : Bool},
      (Eco.writeNewSnakeGo m now b pts).size = m.size := by
  intro pts
  induction pts with
  | nil => intro m b; rfl
  | cons p rest ih =>
    intro m b
    show (Eco.writeNewSnakeGo _ now false rest).size = m.size
    rw [ih]
    cases ((m.cells p).animal.snake?) <;> rfl

theorem writeNewSnakeGo_outside {now : Nat} :
    ∀ {pts : List Point} {m : Eco.Map} {b : Bool} {q : Point}, q ∉ pts →
      (Eco.writeNewSnakeGo m now b pts).cells q = m.cells q := by
  intro pts
  induction pts with
  | nil => intro m b q _; rfl
  | cons p rest ih =>
    intro m b q hq
    have hqp : q ≠ p := fun hh => hq (hh ▸ List.mem_cons_self p rest)
    have hqr : q ∉ rest := fun hh => hq (List.mem_cons_of_mem p hh)
    show (Eco.writeNewSnakeGo _ now false rest).cells q = m.cells q
    rw [ih hqr]
    cases ((m.cells p).animal.snake?) with
    | none => rfl
    | some s =>
      show (if q = p then _ else m.cells q) = m.cells q
      rw [if_neg hqp]

theorem writeNewSnakeGo_chain {now : Nat} {species : Eco.SnakeSpecies} :
    ∀ {pts : List Point} {m : Eco.Map},
      pts.Nodup →
      (∀ p ∈ pts, p.isValid m.size = true) →
      (∀ p ∈ pts, (m.cells p).animal = .snake ⟨species, none⟩) →
      Eco.BodyChain m.size (Eco.writeNewSnakeGo m now false pts).cells species pts := by
  intro pts
  induction pts with
  | nil => intro m _ _ _; trivial
  | cons p rest ih =>
    intro m hnd hval hsp
    have hpmem := List.mem_cons_self p rest
    have hpnr : p ∉ rest := (List.nodup_cons.mp hnd).1
    have hsq : (m.cells p).animal.snake? = some ⟨species, none⟩ := by
      rw [hsp p hpmem]; rfl
    have hgo : Eco.writeNewSnakeGo m now false (p :: rest) =
        Eco.writeNewSnakeGo
          (m.setAnimal p (.snake ⟨species, some ⟨.body, rest.head?⟩⟩)) now false rest := by
      show Eco.writeNewSnakeGo
        (match (m.cells p).animal.snake? with
          | some s => m.setAnimal p
              (.snake { s with segment := some ⟨if false then .head now else .body, rest.head?⟩ })
          | none => m) now false rest = _
      rw [hsq]
      rfl
    rw [hgo]
    set m2 := m.setAnimal p (.snake ⟨species, some ⟨.body, rest.head?⟩⟩) with hm2
    have hm2size : m2.size = m.size := rfl
    have hm2other : ∀ q, q ≠ p → m2.cells q = m.cells q := by
      intro q hqp
      show (if q = p then _ else m.cells q) = m.cells q
      rw [if_neg hqp]
    have hm2p : (m2.cells p).animal = .snake ⟨species, some ⟨.body, rest.head?⟩⟩ := by
      show (if p = p then _ else m.cells p).animal = _
      rw [if_pos rfl]
    refine ⟨hval p hpmem, ?_, ?_⟩
    · rw [writeNewSnakeGo_outside hpnr, hm2p]
    · have hrest := @ih m2 (List.nodup_cons.mp hnd).2
        (fun q hq => hm2size ▸ hval q (List.mem_cons_of_mem p hq))
        (fun q hq => by
          rw [hm2other q (fun hh => hpnr (hh ▸ hq))]
          exact hsp q (List.mem_cons_of_mem p hq))
      rw [hm2size] at hrest
      exact hrest

theorem writeNewSnake_cells {m : Eco.Map} {now : Nat} {species : Eco.SnakeSpecies}
    {p0 : Point} {rest : List Point}
    (hnd : (p0 :: rest).Nodup)
    (hval : ∀ p ∈ p0 :: rest, p.isValid m.size = true)
    (hsp : ∀ p ∈ p0 :: rest, (m.cells p).animal = .snake ⟨species, none⟩) :
    ((Eco.writeNewSnake m now (p0 :: rest)).cells p0).animal
        = .snake ⟨species, some ⟨.head now, rest.head?⟩⟩ ∧
      Eco.BodyChain m.size (Eco.writeNewSnake m now (p0 :: rest)).cells species rest ∧
      (∀ q, q ∉ p0 :: rest → (Eco.writeNewSnake m now (p0 :: rest)).cells q = m.cells q) ∧
      (Eco.writeNewSnake m now (p0 :: rest)).size = m.size := by
  have hp0nr : p0 ∉ rest := (List.nodup_cons.mp hnd).1
  have hsq : (m.cells p0).animal.snake? = some ⟨species, none⟩ := by
    rw [hsp p0 (List.mem_cons_self p0 rest)]; rfl
  have hgo : Eco.writeNewSnake m now (p0 :: rest) =
      Eco.writeNewSnakeGo
        (m.setAnimal p0 (.snake ⟨species, some ⟨.head now, rest.head?⟩⟩)) now false rest := by
    show Eco.writeNewSnakeGo
      (match (m.cells p0).animal.snake? with
        | some s => m.setAnimal p0
            (.snake { s with segment := some ⟨if true then .head now else .body, rest.head?⟩ })
        | none => m) now false rest = _
    rw [hsq]
    rfl
  rw [hgo]
  set m2 := m.setAnimal p0 (.snake ⟨species, some ⟨.head now, rest.head?⟩⟩) with hm2
  have hm2size : m2.size = m.size := rfl
  have hm2other : ∀ q, q ≠ p0 → m2.cells q = m.cells q := by
    intro q hqp
    show (if q = p0 then _ else m.cells q) = m.cells q
    rw [if_neg hqp]
  have hm2p : (m2.cells p0).animal = .snake ⟨species, some ⟨.head now, rest.head?⟩⟩ := by
    show (if p0 = p0 then _ else m.cells p0).animal = _
    rw [if_pos rfl]
  refine ⟨?_, ?_, ?_, ?_⟩
  · rw [writeNewSnakeGo_outside hp0nr, hm2p]
  · have hrest := @writeNewSnakeGo_chain now species rest m2 (List.nodup_cons.mp hnd).2
      (fun q hq => hm2size ▸ hval q (List.mem_cons_of_mem p0 hq))
      (fun q hq => by
        rw [hm2other q (fun hh => hp0nr (hh ▸ hq))]
        exact hsp q (List.mem_cons_of_mem p0 hq))
    rw [hm2size] at hrest
    exact hrest
  · intro q hq
    have hqp : q ≠ p0 := fun hh => hq (hh ▸ List.mem_cons_self p0 rest)
    have hqr : q ∉ rest := fun hh => hq (List.mem_cons_of_mem p0 hh)
    rw [writeNewSnakeGo_outside hqr, hm2other q hqp]
  · rw [writeNewSnakeGo_size]
    exact hm2size

theorem applyDeath_cells {m m' : Eco.Map} {p : Point}
    (h : Eco.applyDeath m p = some m') :
    m'.size = m.size ∧ (∀ q, q ≠ p → m'.cells q = m.cells q) ∧
      (m'.cells p).animal.snake? = none := by
  unfold Eco.applyDeath at h
  cases hg : m.cellsIdx p with
  | none => rw [hg] at h; cases h
  | some c =>
    simp only [hg, Option.bind_eq_bind, Option.some_bind] at h
    split at h
    case isTrue hsome =>
      cases h
      refine ⟨rfl, ?_, ?_⟩
      · intro q hq
        show (if q = p then _ else m.cells q) = m.cells q
        rw [if_neg hq]
      · show (if p = p then { m.cells p with animal := .dead } else m.cells p).animal.snake? = none
        rw [if_pos rfl]
        rfl
    case isFalse hnone =>
      cases h
      refine ⟨rfl, fun _ _ => rfl, ?_⟩
      unfold Eco.Map.cellsIdx Eco.Map.cellsGet at hg
      split at hg
      case isFalse => cases hg
      case isTrue =>
        have : c = m.cells p := by cases hg; rfl
        rw [← this]
        simpa using hnone

theorem applyStarvation_cells :
    ∀ {pts : List Point} {m m' : Eco.Map},
      Eco.applyStarvation m pts = some m' →
      m'.size = m.size ∧ (∀ q, q ∉ pts → m'.cells q = m.cells q) ∧
        (∀ q ∈ pts, (m'.cells q).animal.snake? = none) := by
  intro pts
  induction pts with
  | nil =>
    intro m m' h
    cases h
    exact ⟨rfl, fun _ _ => rfl, fun q hq => absurd hq (List.not_mem_nil q)⟩
  | cons y rest ih =>
    intro m m' h
    unfold Eco.applyStarvation at h
    rw [List.foldlM_cons] at h
    cases hd : Eco.applyDeath m y with
    | none => rw [hd] at h; cases h
    | some my =>
      rw [hd] at h
      simp only [Option.bind_eq_bind, Option.some_bind] at h
      obtain ⟨hdsize, hdother, hdp⟩ := applyDeath_cells hd
      obtain ⟨hsize, houter, hin⟩ := @ih my m' h
      refine ⟨by rw [hsize, hdsize], ?_, ?_⟩
      · intro q hq
        have hqy : q ≠ y := fun hh => hq (hh ▸ List.mem_cons_self y rest)
        have hqr : q ∉ rest := fun hh => hq (List.mem_cons_of_mem y hh)
        rw [houter q hqr, hdother q hqy]
      · intro q hq
        cases List.mem_cons.mp hq with
        | inl heq =>
          subst heq
          by_cases hqr : q ∈ rest
          · exact hin q hqr
          · rw [houter q hqr]
            exact hdp
        | inr hmem => exact hin q hmem

theorem inv_transfer {cfg : Eco.SnakeConfig} {m m2 : Eco.Map}
    (hsz : m2.size = m.size) (hInv : Eco.SnakeInv cfg m)
    (newHd : Option (Point × List Point))
    (hdich : ∀ q : Point, q.isValid m.size = true → ∀ sp nx,
      Eco.headInfo (m2.cells q) = some (sp, nx) →
      (Eco.headInfo (m.cells q) = some (sp, nx) ∧
        ∃ l, Eco.walkBodies m.size m.cells sp (cfg.maxSize sp - 1) nx = some l ∧
          Eco.walkBodies m.size m2.cells sp (cfg.maxSize sp - 1) nx = some l) ∨
      (∃ nl, newHd = some (q, nl) ∧
        Eco.walkBodies m.size m2.cells sp (cfg.maxSize sp - 1) nx = some nl))
    (hfresh : ∀ q nl, newHd = some (q, nl) →
      ∀ q2, q2 ≠ q → q2.isValid m.size = true → ∀ sp2 nx2 l2,
        Eco.headInfo (m2.cells q2) = some (sp2, nx2) →
        Eco.headInfo (m.cells q2) = some (sp2, nx2) →
        Eco.walkBodies m.size m.cells sp2 (cfg.maxSize sp2 - 1) nx2 = some l2 →
        ∀ x ∈ nl, x ∉ l2) :
    Eco.SnakeInv cfg m2 := by
  constructor
  · intro p hp sp nx hh
    rw [hsz] at hp ⊢
    rcases hdich p hp sp nx hh with ⟨_, l, _, hw⟩ | ⟨nl, _, hw⟩
    · exact ⟨l, hw⟩
    · exact ⟨nl, hw⟩
  · intro p1 p2 hne hv1 hv2 sp1 nx1 sp2 nx2 l1 l2 hh1 hh2 hw1 hw2 q hq1
    rw [hsz] at hv1 hv2 hw1 hw2
    rcases hdich p1 hv1 sp1 nx1 hh1 with ⟨hold1, l1b, hwm1, hwm21⟩ | ⟨nl1, hnew1, hwm21⟩
    · rcases hdich p2 hv2 sp2 nx2 hh2 with ⟨hold2, l2b, hwm2, hwm22⟩ | ⟨nl2, hnew2, hwm22⟩
      · have he1 : l1 = l1b := by
          have := hw1.symm.trans hwm21
          exact Option.some.inj this
        have he2 : l2 = l2b := by
          have := hw2.symm.trans hwm22
          exact Option.some.inj this
        subst he1
        subst he2
        exact hInv.2 p1 p2 hne hv1 hv2 sp1 nx1 sp2 nx2 l1 l2 hold1 hold2 hwm1 hwm2 q hq1
      · have he1 : l1 = l1b := Option.some.inj (hw1.symm.trans hwm21)
        have he2 : l2 = nl2 := Option.some.inj (hw2.symm.trans hwm22)
        subst he1
        subst he2
        intro hq2
        exact hfresh p2 l2 hnew2 p1 hne hv1 sp1 nx1 l1 hh1 hold1 hwm1 q hq2 hq1
    · rcases hdich p2 hv2 sp2 nx2 hh2 with ⟨hold2, l2b, hwm2, hwm22⟩ | ⟨nl2, hnew2, hwm22⟩
      · have he1 : l1 = nl1 := Option.some.inj (hw1.symm.trans hwm21)
        have he2 : l2 = l2b := Option.some.inj (hw2.symm.trans hwm22)
        subst he1
        subst he2
        exact hfresh p1 l1 hnew1 p2 (Ne.symm hne) hv2 sp2 nx2 l2 hh2 hold2 hwm2 q hq1
      · rw [hnew1] at hnew2
        have : p1 = p2 := congrArg Prod.fst (Option.some.inj hnew2)
        exact absurd this hne

theorem snakeInv_emptyMap {cfg : Eco.SnakeConfig} {n : Nat} :
    Eco.SnakeInv cfg (Eco.emptyMap n) := by
  constructor
  · intro p _ sp nx hh
    exact Option.noConfusion hh
  · intro p1 p2 _ _ _ sp1 nx1 sp2 nx2 l1 l2 hh1
    exact fun _ _ _ _ _ => Option.noConfusion hh1

theorem headInfo_spare {c : Eco.Cell} {sp : Eco.SnakeSpecies}
    (h : c.animal = .snake ⟨sp, none⟩) : Eco.headInfo c = none := by
  unfold Eco.headInfo
  rw [h]

theorem withColor_headInfo {now : Nat} {c painted : Eco.Cell} {color : CellColor}
    (h : Eco.Cell.withColor now c color = some painted) :
    Eco.headInfo painted = none ∨ painted.animal = c.animal := by
  cases color
  case empty =>
    cases h
    left
    rfl
  case ant =>
    cases h
    left
    rfl
  case frog =>
    cases h
    left
    rfl
  case snake1 =>
    cases h
    left
    exact headInfo_spare rfl
  case snake2 =>
    cases h
    left
    exact headInfo_spare rfl
  case snake3 =>
    cases h
    left
    exact headInfo_spare rfl
  case shallowWater =>
    cases h
    right
    rfl
  case lowGrass =>
    cases h
    right
    rfl
  case dryGrass => cases h
  case highGrass => cases h
  case deepWater => cases h
  case deadMatter => cases h

theorem walk_frame_of_chain {n : Nat} {cells cells2 : Point → Eco.Cell}
    {sp : Eco.SnakeSpecies} {f : Nat} {nx : Option Point} {l : List Point}
    (hw : Eco.walkBodies n cells sp f nx = some l)
    (hag : ∀ x ∈ l, (cells2 x).animal = (cells x).animal) :
    Eco.walkBodies n cells2 sp f nx = some l := by
  obtain ⟨hnx, hbc, hlen⟩ := bodyChain_of_walk hw
  rw [hnx]
  exact walk_of_bodyChain (bodyChain_frame hag hbc) hlen

theorem inv_paint {cfg : Eco.SnakeConfig} {m m2 : Eco.Map} {now : Nat} {p : Point}
    {color : CellColor}
    (hInv : Eco.SnakeInv cfg m) (hoff : Eco.OffAllChains cfg m p)
    (happ : m.setCellColor now p color = some m2) :
    Eco.SnakeInv cfg m2 := by
  unfold Eco.Map.setCellColor at happ
  cases hg : m.cellsGet p with
  | none => rw [hg] at happ; cases happ
  | some c =>
    simp only [hg, Option.bind_eq_bind, Option.some_bind] at happ
    cases hwc : Eco.Cell.withColor now c color with
    | none => rw [hwc] at happ; cases happ
    | some painted =>
      rw [hwc] at happ
      simp only [Option.some_bind, Option.some.injEq] at happ
      have hm2 : m2 = (m.setCell p painted).notifyUpdate := happ.symm
      subst hm2
      have hsz : ((m.setCell p painted).notifyUpdate).size = m.size := rfl
      have hcells : ∀ q : Point, ((m.setCell p painted).notifyUpdate).cells q =
          if q = p then painted else m.cells q := fun _ => rfl
      have hcq : c = m.cells p := by
        unfold Eco.Map.cellsGet at hg
        split at hg
        case isFalse => cases hg
        case isTrue => cases hg; rfl
      -- an old head's chain survives the paint untouched
      have step : ∀ q : Point, q.isValid m.size = true → ∀ sp nx,
          Eco.headInfo (m.cells q) = some (sp, nx) →
          ∃ l, Eco.walkBodies m.size m.cells sp (cfg.maxSize sp - 1) nx = some l ∧
            Eco.walkBodies m.size ((m.setCell p painted).notifyUpdate).cells sp
              (cfg.maxSize sp - 1) nx = some l := by
        intro q hq sp nx hold
        obtain ⟨l, hwm⟩ := hInv.1 q hq sp nx hold
        have hpl : p ∉ l := hoff q hq sp nx l hold hwm
        refine ⟨l, hwm, walk_frame_of_chain hwm ?_⟩
        intro x hx
        have hxp : x ≠ p := fun hh => hpl (hh ▸ hx)
        rw [hcells x, if_neg hxp]
      refine inv_transfer hsz hInv none ?_ (fun q nl hnew => Option.noConfusion hnew)
      intro q hq sp nx hh
      left
      by_cases hqp : q = p
      · subst hqp
        rw [hcells q, if_pos rfl] at hh
        rcases withColor_headInfo hwc with hnone | hsame
        · rw [hnone] at hh
          cases hh
        · have hold : Eco.headInfo (m.cells q) = some (sp, nx) := by
            rw [← headInfo_congr (hcq ▸ hsame : painted.animal = (m.cells q).animal)]
            exact hh
          exact ⟨hold, step q hq sp nx hold⟩
      · rw [hcells q, if_neg hqp] at hh
        exact ⟨hh, step q hq sp nx hh⟩

theorem inv_death {cfg : Eco.SnakeConfig} {m m2 : Eco.Map} {p : Point}
    (hInv : Eco.SnakeInv cfg m) (hoff : Eco.OffAllChains cfg m p)
    (happ : Eco.applyDeath m p = some m2) :
    Eco.SnakeInv cfg m2 := by
  obtain ⟨hsz, hother, hdp⟩ := applyDeath_cells happ
  refine inv_transfer hsz hInv none ?_ (fun q nl hnew => Option.noConfusion hnew)
  intro q hq sp nx hh
  left
  by_cases hqp : q = p
  · subst hqp
    rw [headInfo_none_of_snakeq hdp] at hh
    cases hh
  · rw [hother q hqp] at hh
    obtain ⟨l, hwm⟩ := hInv.1 q hq sp nx hh
    have hpl : p ∉ l := hoff q hq sp nx l hh hwm
    refine ⟨hh, l, hwm, walk_frame_of_chain hwm ?_⟩
    intro x hx
    have hxp : x ≠ p := fun h2 => hpl (h2 ▸ hx)
    rw [hother x hxp]

theorem inv_starve {cfg : Eco.SnakeConfig} {m m2 : Eco.Map} {p : Point}
    {sp : Eco.SnakeSpecies} {nx : Option Point} {l : List Point}
    (hInv : Eco.SnakeInv cfg m)
    (hvalid : p.isValid m.size = true)
    (hhead : Eco.headInfo (m.cells p) = some (sp, nx))
    (hwalk : Eco.walkBodies m.size m.cells sp (cfg.maxSize sp - 1) nx = some l)
    (happ : Eco.applyStarvation m (p :: l) = some m2) :
    Eco.SnakeInv cfg m2 := by
  obtain ⟨hsz, houter, hin⟩ := applyStarvation_cells happ
  refine inv_transfer hsz hInv none ?_ (fun q nl hnew => Option.noConfusion hnew)
  intro q hq sp2 nx2 hh
  left
  by_cases hqm : q ∈ p :: l
  · rw [headInfo_none_of_snakeq (hin q hqm)] at hh
    cases hh
  · rw [houter q hqm] at hh
    have hqp : q ≠ p := fun h2 => hqm (h2 ▸ List.mem_cons_self p l)
    obtain ⟨l2, hwm2⟩ := hInv.1 q hq sp2 nx2 hh
    refine ⟨hh, l2, hwm2, walk_frame_of_chain hwm2 ?_⟩
    intro x hx
    have hxbody := bodyChain_mem (bodyChain_of_walk hwm2).2.1 hx
    have hxp : x ≠ p := by
      intro h2
      obtain ⟨_, nxq, hxa⟩ := hxbody
      rw [h2] at hxa
      rw [headInfo_none_of_body hxa] at hhead
      cases hhead
    have hxl : x ∉ l :=
      hInv.2 q p hqp hq hvalid sp2 nx2 sp nx l2 l hh hhead hwm2 hwalk x hx
    have hxm : x ∉ p :: l := by
      intro h2
      cases List.mem_cons.mp h2 with
      | inl h3 => exact hxp h3
      | inr h3 => exact hxl h3
    rw [houter x hxm]

theorem inv_newSnake {cfg : Eco.SnakeConfig} {m m2 : Eco.Map} {now : Nat}
    {points : List Point}
    (hInv : Eco.SnakeInv cfg m) (hnodup : points.Nodup)
    (hlen : ∀ sp, points.length ≤ cfg.maxSize sp)
    (happ : Eco.applyNewSnake m now points = some m2) :
    Eco.SnakeInv cfg m2 := by
  unfold Eco.applyNewSnake at happ
  cases points with
  | nil => cases happ
  | cons p0 rest =>
    dsimp only at happ
    cases hg : m.cellsIdx p0 with
    | none => rw [hg] at happ; cases happ
    | some c0 =>
      simp only [hg, Option.bind_eq_bind, Option.some_bind] at happ
      cases hs : c0.animal.snake? with
      | none =>
        simp only [hs] at happ
        cases happ
        exact hInv
      | some head =>
        simp only [hs] at happ
        cases hv : Eco.validNewSnake m head.species (p0 :: rest) with
        | none => rw [hv] at happ; cases happ
        | some ok =>
          rw [hv] at happ
          simp only [Option.some_bind] at happ
          cases ok with
          | false =>
            simp only [Bool.false_eq_true, if_false, Option.some.injEq] at happ
            rw [← happ]
            exact hInv
          | true =>
            simp only [if_true, Option.some.injEq] at happ
            have hm2 : m2 = Eco.writeNewSnake m now (p0 :: rest) := happ.symm
            subst hm2
            have hall := validNewSnake_spec hv
            obtain ⟨hc0, hbc, houtside, hsize⟩ := writeNewSnake_cells hnodup
              (fun p hp => (hall p hp).1) (fun p hp => (hall p hp).2)
            have hrlen : rest.length ≤ cfg.maxSize head.species - 1 := by
              have := hlen head.species
              simp only [List.length_cons] at this
              omega
            have hnewwalk : Eco.walkBodies m.size
                (Eco.writeNewSnake m now (p0 :: rest)).cells head.species
                (cfg.maxSize head.species - 1) rest.head? = some rest :=
              walk_of_bodyChain hbc hrlen
            -- a point on an old chain is a body cell of m, hence not a spare point
            have hbody_notin : ∀ (x : Point) (sp2 : Eco.SnakeSpecies)
                (nxq : Option Point),
                (m.cells x).animal = .snake ⟨sp2, some ⟨.body, nxq⟩⟩ →
                x ∉ p0 :: rest := by
              intro x sp2 nxq hxa hxmem
              have hsp := (hall x hxmem).2
              rw [hxa] at hsp
              simp only [Eco.CellAnimal.snake.injEq, Eco.Snake.mk.injEq] at hsp
              cases hsp.2
            refine inv_transfer hsize hInv (some (p0, rest)) ?_ ?_
            · intro q hq sp nx hh
              by_cases hq0 : q = p0
              · subst hq0
                rw [headInfo_of_animal hc0] at hh
                have hsp : sp = head.species := (Prod.mk.injEq _ _ _ _ ▸ Option.some.inj hh).1.symm
                have hnx : nx = rest.head? := (Prod.mk.injEq _ _ _ _ ▸ Option.some.inj hh).2.symm
                subst hsp
                subst hnx
                exact Or.inr ⟨rest, rfl, hnewwalk⟩
              · by_cases hqr : q ∈ rest
                · obtain ⟨_, nxq, hqa⟩ := bodyChain_mem hbc hqr
                  rw [headInfo_none_of_body hqa] at hh
                  cases hh
                · have hqm : q ∉ p0 :: rest := by
                    intro h2
                    cases List.mem_cons.mp h2 with
                    | inl h3 => exact hq0 h3
                    | inr h3 => exact hqr h3
                  rw [houtside q hqm] at hh
                  obtain ⟨l, hwm⟩ := hInv.1 q hq sp nx hh
                  refine Or.inl ⟨hh, l, hwm, walk_frame_of_chain hwm ?_⟩
                  intro x hx
                  obtain ⟨_, nxq, hxa⟩ := bodyChain_mem (bodyChain_of_walk hwm).2.1 hx
                  rw [houtside x (hbody_notin x sp nxq hxa)]
            · intro q nl hnew q2 hq2ne hq2v sp2 nx2 l2 hh2 hold2 hwm2 x hxnl
              have hq : p0 = q := congrArg Prod.fst (Option.some.inj hnew)
              have hnl : rest = nl := congrArg Prod.snd (Option.some.inj hnew)
              subst hq
              subst hnl
              intro hxl2
              obtain ⟨_, nxq, hxa⟩ := bodyChain_mem (bodyChain_of_walk hwm2).2.1 hxl2
              exact hbody_notin x sp2 nxq hxa (List.mem_cons_of_mem p0 hxnl)

theorem amphq_of_some {a : Eco.CellAnimal} {sa : Eco.SimpleAnimal}
    (h : a.amphibian? = some sa) : a = .amphibian sa := by
  cases a <;> simp_all [Eco.CellAnimal.amphibian?]

theorem castPair_ne_of_ne {a b : Point} (h : a = b) :
    castIndexPair a = castIndexPair b := by rw [h]

theorem inv_eat {cfg : Eco.SnakeConfig} {m m2 : Eco.Map} {now : Nat}
    {headPt newHeadPt foodPt : Point}
    (hInv : Eco.SnakeInv cfg m)
    (hvalid : headPt.isValid m.size = true)
    (hshort : ∀ sp nx l, Eco.headInfo (m.cells headPt) = some (sp, nx) →
      Eco.walkBodies m.size m.cells sp (cfg.maxSize sp - 1) nx = some l →
      l.length + 2 ≤ cfg.maxSize sp)
    (happ : Eco.applyEat m now headPt newHeadPt foodPt = some m2) :
    Eco.SnakeInv cfg m2 := by
  unfold Eco.applyEat at happ
  split at happ
  case isTrue => cases happ
  case isFalse hnp =>
  simp only [threeCellsMutPanics, castOutOfBounds, Bool.or_eq_true,
    decide_eq_true_eq, not_or] at hnp
  have hd_hn : headPt ≠ newHeadPt := fun hh => hnp.1.1.2 (castPair_ne_of_ne hh)
  have hd_hf : headPt ≠ foodPt := fun hh => hnp.1.2 (castPair_ne_of_ne hh)
  have hd_nf : newHeadPt ≠ foodPt := fun hh => hnp.2 (castPair_ne_of_ne hh)
  split at happ
  case h_1 => cases happ; exact hInv
  case h_2 headSnake hsq =>
  split at happ
  case h_1 => cases happ; exact hInv
  case h_2 headSegment hseg =>
  split at happ
  case h_1 => cases happ; exact hInv
  case h_2 lf hkind =>
  split at happ
  case isTrue => cases happ; exact hInv
  case isFalse hne =>
  split at happ
  case isTrue => cases happ; exact hInv
  case isFalse hfa =>
  cases happ
  -- name the pieces
  set species := headSnake.species with hspecies
  set oldnx := headSegment.nextSegment with holdnx
  have hanim : (m.cells headPt).animal = .snake ⟨species, some ⟨.head lf, oldnx⟩⟩ := by
    rw [snakeq_of_some hsq]
    obtain ⟨s1, s2⟩ := headSnake
    obtain ⟨k1, k2⟩ := headSegment
    simp only at hseg hkind
    rw [hseg, hkind]
  have hnewempty : (m.cells newHeadPt).animal = .empty := by
    simp only [Bool.not_eq_true'] at hne
    exact animal_isEmpty_true (by simpa using hne)
  have hfoodamph : ∃ sa, (m.cells foodPt).animal = .amphibian sa := by
    cases hfo : (m.cells foodPt).animal.amphibian? with
    | none => rw [hfo] at hfa; exact absurd rfl hfa
    | some sa => exact ⟨sa, amphq_of_some hfo⟩
  have hheadinfo : Eco.headInfo (m.cells headPt) = some (species, oldnx) :=
    headInfo_of_animal hanim
  obtain ⟨l, hwm⟩ := hInv.1 headPt hvalid species oldnx hheadinfo
  have hlen2 := hshort species oldnx l hheadinfo hwm
  obtain ⟨hnxl, hbcm, hlf⟩ := bodyChain_of_walk hwm
  -- cell values of the committed map
  set mQ := ((m.setAnimal headPt
      (.snake { headSnake with segment := some { headSegment with kind := .body } })).setAnimal
        newHeadPt (.snake ⟨headSnake.species, some ⟨.head now, some headPt⟩⟩)).setAnimal
        foodPt .empty with hmQ
  have hsz : mQ.size = m.size := rfl
  have hfood : (mQ.cells foodPt).animal = .empty := by
    rw [hmQ]
    simp only [Eco.Map.setAnimal, Eco.Map.setCell]
    simp
  have hnew : (mQ.cells newHeadPt).animal =
      .snake ⟨species, some ⟨.head now, some headPt⟩⟩ := by
    rw [hmQ]
    simp only [Eco.Map.setAnimal, Eco.Map.setCell]
    rw [if_neg hd_nf]
    simp
  have hhead2 : (mQ.cells headPt).animal = .snake ⟨species, some ⟨.body, oldnx⟩⟩ := by
    rw [hmQ]
    simp only [Eco.Map.setAnimal, Eco.Map.setCell]
    rw [if_neg hd_hf, if_neg hd_hn]
    simp
  have hother : ∀ q : Point, q ≠ headPt → q ≠ newHeadPt → q ≠ foodPt →
      mQ.cells q = m.cells q := by
    intro q h1 h2 h3
    rw [hmQ]
    simp only [Eco.Map.setAnimal, Eco.Map.setCell]
    rw [if_neg h3, if_neg h2, if_neg h1]
  -- members of an m-body-chain avoid all three written points
  have hbody_avoid : ∀ {l2 : List Point} {sp2 : Eco.SnakeSpecies},
      Eco.BodyChain m.size m.cells sp2 l2 → ∀ x ∈ l2,
        x ≠ headPt ∧ x ≠ newHeadPt ∧ x ≠ foodPt := by
    intro l2 sp2 hbc2 x hx
    obtain ⟨_, nxq, hxa⟩ := bodyChain_mem hbc2 hx
    refine ⟨?_, ?_, ?_⟩
    · intro hh
      rw [hh, hanim] at hxa
      simp only [Eco.CellAnimal.snake.injEq, Eco.Snake.mk.injEq, Option.some.injEq,
        Eco.SnakeSegment.mk.injEq] at hxa
      cases hxa.2.1
    · intro hh
      rw [hh, hnewempty] at hxa
      cases hxa
    · intro hh
      obtain ⟨sa, hfam⟩ := hfoodamph
      rw [hh, hfam] at hxa
      cases hxa
  -- the new chain of the advanced head
  have hbcQ : Eco.BodyChain m.size mQ.cells species (headPt :: l) := by
    refine ⟨hvalid, ?_, ?_⟩
    · rw [hhead2, hnxl]
    · refine bodyChain_frame ?_ hbcm
      intro x hx
      obtain ⟨h1, h2, h3⟩ := hbody_avoid hbcm x hx
      rw [hother x h1 h2 h3]
  have hnewlen : (headPt :: l).length ≤ cfg.maxSize species - 1 := by
    simp only [List.length_cons]
    omega
  have hnewwalk : Eco.walkBodies m.size mQ.cells species
      (cfg.maxSize species - 1) (some headPt) = some (headPt :: l) :=
    walk_of_bodyChain hbcQ hnewlen
  refine inv_transfer hsz hInv (some (newHeadPt, headPt :: l)) ?_ ?_
  · intro q hq sp nx hh
    by_cases hqn : q = newHeadPt
    · subst hqn
      rw [headInfo_of_animal hnew] at hh
      have hsp : sp = species := ((Prod.mk.injEq _ _ _ _).mp (Option.some.inj hh).symm).1
      have hnx : nx = some headPt := ((Prod.mk.injEq _ _ _ _).mp (Option.some.inj hh).symm).2
      subst hsp
      subst hnx
      exact Or.inr ⟨headPt :: l, rfl, hnewwalk⟩
    · by_cases hqh : q = headPt
      · subst hqh
        rw [headInfo_none_of_body hhead2] at hh
        cases hh
      · by_cases hqf : q = foodPt
        · subst hqf
          rw [headInfo_none_of_snakeq (by rw [hfood]; rfl)] at hh
          cases hh
        · rw [hother q hqh hqn hqf] at hh
          obtain ⟨l2, hwm2⟩ := hInv.1 q hq sp nx hh
          refine Or.inl ⟨hh, l2, hwm2, walk_frame_of_chain hwm2 ?_⟩
          intro x hx
          obtain ⟨h1, h2, h3⟩ :=
            hbody_avoid (bodyChain_of_walk hwm2).2.1 x hx
          rw [hother x h1 h2 h3]
  · intro qn nl hnewhd q2 hq2ne hq2v sp2 nx2 l2 hh2 hold2 hwm2 x hxnl
    have hqn : newHeadPt = qn := congrArg Prod.fst (Option.some.inj hnewhd)
    have hnl : headPt :: l = nl := congrArg Prod.snd (Option.some.inj hnewhd)
    subst hqn
    subst hnl
    intro hxl2
    have hq2h : q2 ≠ headPt := by
      intro hh
      rw [hh, headInfo_none_of_body hhead2] at hh2
      cases hh2
    cases List.mem_cons.mp hxnl with
    | inl hxh =>
      subst hxh
      obtain ⟨h1, _, _⟩ := hbody_avoid (bodyChain_of_walk hwm2).2.1 x hxl2
      exact h1 rfl
    | inr hxl =>
      exact hInv.2 q2 headPt hq2h hq2v hvalid sp2 nx2 species oldnx l2 l
        hold2 hheadinfo hwm2 hwm x hxl2 hxl

theorem getLastD_get {α : Type} :
    ∀ (l : List α) (d : α), l ≠ [] → l.get? (l.length - 1) = some (l.getLastD d) := by
  intro l
  induction l with
  | nil => intro d h; exact absurd rfl h
  | cons a t ih =>
    intro d _
    cases t with
    | nil => rfl
    | cons b t2 =>
      show (a :: b :: t2).get? ((b :: t2).length + 1 - 1) = some ((b :: t2).getLastD a)
      rw [Nat.add_sub_cancel]
      have : (b :: t2).length = (b :: t2).length - 1 + 1 := by
        simp
      rw [this, List.get?_cons_succ]
      exact ih a (by simp)

theorem bodyChain_of_get {n : Nat} {cells : Point → Eco.Cell} {sp : Eco.SnakeSpecies} :
    ∀ {l : List Point},
      (∀ i p, l.get? i = some p → p.isValid n = true ∧
        (cells p).animal = .snake ⟨sp, some ⟨.body, l.get? (i + 1)⟩⟩) →
      Eco.BodyChain n cells sp l := by
  intro l
  induction l with
  | nil => intro _; trivial
  | cons a t ih =>
    intro h
    have h0 := h 0 a rfl
    refine ⟨h0.1, ?_, ih ?_⟩
    · rw [h0.2]
      show _ = Eco.CellAnimal.snake ⟨sp, some ⟨.body, t.head?⟩⟩
      rw [show (a :: t).get? (0 + 1) = t.head? from List.get?_zero t]
    · intro i p hp
      exact h (i + 1) p hp

theorem bodyChain_get {n : Nat} {cells : Point → Eco.Cell} {sp : Eco.SnakeSpecies} :
    ∀ {l : List Point}, Eco.BodyChain n cells sp l →
      ∀ i p, l.get? i = some p → p.isValid n = true ∧
        (cells p).animal = .snake ⟨sp, some ⟨.body, l.get? (i + 1)⟩⟩ := by
  intro l
  induction l with
  | nil => intro _ i p hp; cases hp
  | cons a t ih =>
    intro h i p hp
    obtain ⟨hv, ha, ht⟩ := h
    cases i with
    | zero =>
      cases hp
      refine ⟨hv, ?_⟩
      rw [ha, show (a :: t).get? (0 + 1) = t.head? from List.get?_zero t]
    | succ j =>
      rw [List.get?_cons_succ] at hp
      rw [List.get?_cons_succ]
      exact ih ht j p hp

theorem listGetD {α : Type} (l : List α) (i : Nat) (d : α) :
    l.getD i d = (l.get? i).getD d := by
  simp [List.getD_eq_getElem?_getD, List.get?_eq_getElem?]

theorem dropLast_headq {α : Type} : ∀ (l : List α), 2 ≤ l.length →
    l.dropLast.head? = l.head? := by
  intro l h
  cases l with
  | nil => simp at h
  | cons a t =>
    cases t with
    | nil => simp at h
    | cons b t2 =>
      rw [List.dropLast_cons₂]
      rfl

theorem inv_move {cfg : Eco.SnakeConfig} {m m2 : Eco.Map} {snake : List Point}
    {targetPoint : Point}
    (hInv : Eco.SnakeInv cfg m)
    (happ : Eco.applyMove m snake targetPoint = some m2) :
    Eco.SnakeInv cfg m2 := by
  unfold Eco.applyMove at happ
  cases snake with
  | nil => cases happ
  | cons s0 srest =>
  dsimp only at happ
  cases hg : m.cellsIdx s0 with
  | none => rw [hg] at happ; cases happ
  | some c0 =>
  simp only [hg, Option.bind_eq_bind, Option.some_bind] at happ
  split at happ
  case h_1 => cases happ; exact hInv
  case h_2 headSnake hsq =>
  split at happ
  case h_1 => cases happ; exact hInv
  case h_2 headSegment hseg =>
  split at happ
  case isTrue => cases happ; exact hInv
  case isFalse hnxne =>
  split at happ
  case h_1 => cases happ; exact hInv
  case h_2 lf hkind =>
  cases hvb : Eco.validMoveBody m headSnake.species srest with
  | none => rw [hvb] at happ; cases happ
  | some ok =>
  rw [hvb] at happ
  simp only [Option.bind_eq_bind, Option.some_bind] at happ
  split at happ
  case isTrue => cases happ; exact hInv
  case isFalse hok =>
  have hoktrue : ok = true := by
    cases ok
    · simp at hok
    · rfl
  subst hoktrue
  cases htc : m.cellsIdx targetPoint with
  | none => rw [htc] at happ; cases happ
  | some targetCell =>
  rw [htc] at happ
  simp only [Option.bind_eq_bind, Option.some_bind] at happ
  split at happ
  case isTrue => cases happ; exact hInv
  case isFalse hte =>
  set species := headSnake.species with hspeciesdef
  -- digest the validated facts
  have hv0 : s0.isValid m.size = true ∧ c0 = m.cells s0 := by
    unfold Eco.Map.cellsIdx Eco.Map.cellsGet at hg
    split at hg
    case isFalse => cases hg
    case isTrue hvv => exact ⟨hvv, by cases hg; rfl⟩
  have htv : targetPoint.isValid m.size = true ∧ targetCell = m.cells targetPoint := by
    unfold Eco.Map.cellsIdx Eco.Map.cellsGet at htc
    split at htc
    case isFalse => cases htc
    case isTrue hvv => exact ⟨hvv, by cases htc; rfl⟩
  have hval0 := hv0.1
  have htvalid := htv.1
  have hnxeq : headSegment.nextSegment = srest.head? := not_not.mp hnxne
  have hanim0 : (m.cells s0).animal = .snake ⟨species, some ⟨.head lf, srest.head?⟩⟩ := by
    rw [← hv0.2, snakeq_of_some hsq]
    obtain ⟨s1, s2⟩ := headSnake
    obtain ⟨k1, k2⟩ := headSegment
    simp only at hseg hkind hnxeq
    rw [hseg, hkind, hnxeq]
  have htempty : (m.cells targetPoint).animal = .empty := by
    rw [← htv.2]
    simp only [Bool.not_eq_true'] at hte
    exact animal_isEmpty_true (by simpa using hte)
  have hbcm : Eco.BodyChain m.size m.cells species srest := validMoveBody_chain hvb
  have hheadinfo0 : Eco.headInfo (m.cells s0) = some (species, srest.head?) :=
    headInfo_of_animal hanim0
  obtain ⟨lold, hwmold⟩ := hInv.1 s0 hval0 species srest.head? hheadinfo0
  obtain ⟨hholdnx, hbcold, hlenold⟩ := bodyChain_of_walk hwmold
  have hlodeq : srest = lold := (bodyChain_det hbcold hbcm hholdnx.symm).symm
  subst hlodeq
  have hwm : Eco.walkBodies m.size m.cells species (cfg.maxSize species - 1)
      srest.head? = some srest := hwmold
  have hslen : srest.length ≤ cfg.maxSize species - 1 := hlenold
  have hnd : srest.Nodup := bodyChain_nodup hbcm
  have hbodyx : ∀ x ∈ srest, ∃ nxq,
      (m.cells x).animal = .snake ⟨species, some ⟨.body, nxq⟩⟩ :=
    fun x hx => (bodyChain_mem hbcm hx).2
  have hs0nr : s0 ∉ srest := by
    intro hmem
    obtain ⟨nxq, hxa⟩ := hbodyx s0 hmem
    rw [hanim0] at hxa
    simp only [Eco.CellAnimal.snake.injEq, Eco.Snake.mk.injEq, Option.some.injEq,
      Eco.SnakeSegment.mk.injEq] at hxa
    cases hxa.2.1
  have htnr : targetPoint ∉ srest := by
    intro hmem
    obtain ⟨nxq, hxa⟩ := hbodyx targetPoint hmem
    rw [htempty] at hxa
    cases hxa
  have hts0 : targetPoint ≠ s0 := by
    intro hh
    rw [hh, hanim0] at htempty
    cases htempty
  -- name the committed map
  have hm2 : m2 = Eco.clearNextSegment
      ((Eco.demoteToBody
        (m.setAnimal targetPoint (.snake ⟨species, some ⟨.head lf, some s0⟩⟩)) s0).setAnimal
          (srest.getLastD s0) .empty)
      (if srest.isEmpty then targetPoint
        else (s0 :: srest).getD ((s0 :: srest).length - 2) s0) :=
    (Option.some.inj happ).symm
  set cellA : Eco.CellAnimal := .snake ⟨species, some ⟨.head lf, some s0⟩⟩ with hcellA
  set cellB : Eco.CellAnimal := .snake ⟨species, some ⟨.body, srest.head?⟩⟩ with hcellB
  set m1 := m.setAnimal targetPoint cellA with hm1def
  have hm1other : ∀ q : Point, q ≠ targetPoint → m1.cells q = m.cells q := by
    intro q hq
    show (if q = targetPoint then _ else m.cells q) = m.cells q
    rw [if_neg hq]
  have hm1t : (m1.cells targetPoint).animal = cellA := by
    rw [hm1def]
    simp only [Eco.Map.setAnimal, Eco.Map.setCell]
    simp
  have hdm : Eco.demoteToBody m1 s0 = m1.setAnimal s0 cellB := by
    unfold Eco.demoteToBody
    rw [show (m1.cells s0).animal.snake? =
        some ⟨species, some ⟨.head lf, srest.head?⟩⟩ by
      rw [hm1other s0 (Ne.symm hts0), hanim0]; rfl]
  rw [hdm] at hm2
  set m2b := m1.setAnimal s0 cellB with hm2bdef
  have hm2bother : ∀ q : Point, q ≠ targetPoint → q ≠ s0 → m2b.cells q = m.cells q := by
    intro q hqt hqs
    show (if q = s0 then _ else m1.cells q) = m.cells q
    rw [if_neg hqs, hm1other q hqt]
  have hm2bs0 : (m2b.cells s0).animal = cellB := by
    rw [hm2bdef]
    simp only [Eco.Map.setAnimal, Eco.Map.setCell]
    simp
  have hm2bt : (m2b.cells targetPoint).animal = cellA := by
    rw [hm2bdef]
    show ((if targetPoint = s0 then _ else m1.cells targetPoint)).animal = _
    rw [if_neg hts0, hm1t]
  cases srest with
  | nil =>
    -- the whole snake is its head: it moves into the target with no bodies left
    have hm2n : m2 = Eco.clearNextSegment
        (m2b.setAnimal s0 Eco.CellAnimal.empty) targetPoint := hm2
    set m3 := m2b.setAnimal s0 Eco.CellAnimal.empty with hm3def
    have hm3other : ∀ q : Point, q ≠ targetPoint → q ≠ s0 → m3.cells q = m.cells q := by
      intro q hqt hqs
      show (if q = s0 then _ else m2b.cells q) = m.cells q
      rw [if_neg hqs, hm2bother q hqt hqs]
    have hm3s0 : (m3.cells s0).animal = .empty := by
      rw [hm3def]
      simp only [Eco.Map.setAnimal, Eco.Map.setCell]
      simp
    have hm3t : (m3.cells targetPoint).animal = cellA := by
      rw [hm3def]
      show ((if targetPoint = s0 then _ else m2b.cells targetPoint)).animal = _
      rw [if_neg hts0, hm2bt]
    have hcn : Eco.clearNextSegment m3 targetPoint =
        m3.setAnimal targetPoint (.snake ⟨species, some ⟨.head lf, none⟩⟩) := by
      unfold Eco.clearNextSegment
      rw [show (m3.cells targetPoint).animal.snake? =
          some ⟨species, some ⟨.head lf, some s0⟩⟩ by rw [hm3t, hcellA]; rfl]
    rw [hcn] at hm2n
    set mF := m3.setAnimal targetPoint (.snake ⟨species, some ⟨.head lf, none⟩⟩)
      with hmFdef
    subst hm2n
    have hsz : mF.size = m.size := rfl
    have hmFt : (mF.cells targetPoint).animal =
        .snake ⟨species, some ⟨.head lf, none⟩⟩ := by
      rw [hmFdef]
      simp only [Eco.Map.setAnimal, Eco.Map.setCell]
      simp
    have hmFs0 : (mF.cells s0).animal = .empty := by
      rw [hmFdef]
      show ((if s0 = targetPoint then _ else m3.cells s0)).animal = _
      rw [if_neg (Ne.symm hts0), hm3s0]
    have hmFother : ∀ q : Point, q ≠ targetPoint → q ≠ s0 → mF.cells q = m.cells q := by
      intro q hqt hqs
      show (if q = targetPoint then _ else m3.cells q) = m.cells q
      rw [if_neg hqt, hm3other q hqt hqs]
    refine inv_transfer hsz hInv (some (targetPoint, [])) ?_ ?_
    · intro q hq sp nx hh
      by_cases hqt : q = targetPoint
      · subst hqt
        rw [headInfo_of_animal hmFt] at hh
        have hsp : sp = species := ((Prod.mk.injEq _ _ _ _).mp (Option.some.inj hh).symm).1
        have hnx : nx = none := ((Prod.mk.injEq _ _ _ _).mp (Option.some.inj hh).symm).2
        subst hsp
        subst hnx
        exact Or.inr ⟨[], rfl, walkBodies_none⟩
      · by_cases hqs : q = s0
        · subst hqs
          rw [headInfo_none_of_snakeq (by rw [hmFs0]; rfl)] at hh
          cases hh
        · rw [hmFother q hqt hqs] at hh
          obtain ⟨l2, hwm2⟩ := hInv.1 q hq sp nx hh
          refine Or.inl ⟨hh, l2, hwm2, walk_frame_of_chain hwm2 ?_⟩
          intro x hx
          obtain ⟨_, nxq, hxa⟩ := bodyChain_mem (bodyChain_of_walk hwm2).2.1 hx
          have hxt : x ≠ targetPoint := by
            intro hh2
            rw [hh2, htempty] at hxa
            cases hxa
          have hxs : x ≠ s0 := by
            intro hh2
            rw [hh2, hanim0] at hxa
            simp only [Eco.CellAnimal.snake.injEq, Eco.Snake.mk.injEq, Option.some.injEq,
              Eco.SnakeSegment.mk.injEq] at hxa
            cases hxa.2.1
          rw [hmFother x hxt hxs]
    · intro qn nl hnewhd q2 hq2ne hq2v sp2 nx2 l2 hh2 hold2 hwm2 x hxnl
      have hnl : [] = nl := congrArg Prod.snd (Option.some.inj hnewhd)
      rw [← hnl] at hxnl
      cases hxnl
  | cons r0 rtail =>
  -- the snake still has bodies: old tail empties and the new tail's link clears
  set srest := r0 :: rtail with hsrest
  have hLpos : 1 ≤ srest.length := by rw [hsrest]; simp
  set tailPt := srest.getLastD s0 with htailPtdef
  have htail : srest.get? (srest.length - 1) = some tailPt :=
    getLastD_get srest s0 (by rw [hsrest]; simp)
  have htmem : tailPt ∈ srest := List.get?_mem htail
  have hts0ne : tailPt ≠ s0 := fun hh => hs0nr (hh ▸ htmem)
  have httne : tailPt ≠ targetPoint := fun hh => htnr (hh ▸ htmem)
  have hNT : (if srest.isEmpty = true then targetPoint
      else (s0 :: srest).getD ((s0 :: srest).length - 2) s0) =
      (s0 :: srest).getD (srest.length - 1) s0 := by
    rw [hsrest]
    rw [if_neg (by simp)]
    congr 1
  rw [hNT] at hm2
  set NT := (s0 :: srest).getD (srest.length - 1) s0 with hNTdef
  have hnewTail_cases : (srest.length = 1 ∧ NT = s0) ∨
      (2 ≤ srest.length ∧ srest.get? (srest.length - 2) = some NT) := by
    rcases Nat.lt_or_ge srest.length 2 with h2 | h2
    · have h1 : srest.length = 1 := by omega
      left
      refine ⟨h1, ?_⟩
      rw [hNTdef, h1, listGetD]
      rfl
    · right
      refine ⟨h2, ?_⟩
      have hidx2 : srest.length - 1 = (srest.length - 2) + 1 := by omega
      rw [hNTdef, hidx2, listGetD, List.get?_cons_succ]
      cases hpv : srest.get? (srest.length - 2) with
      | none =>
        rw [List.get?_eq_none] at hpv
        omega
      | some pv => rfl
  have hNTmem : NT = s0 ∨ NT ∈ srest := by
    rcases hnewTail_cases with ⟨_, h⟩ | ⟨_, h⟩
    · exact Or.inl h
    · exact Or.inr (List.get?_mem h)
  have hNTnetail : NT ≠ tailPt := by
    rcases hnewTail_cases with ⟨_, h⟩ | ⟨h2, h⟩
    · rw [h]; exact Ne.symm hts0ne
    · exact nodup_get_ne hnd (by omega) h htail
  have hNTtarget : NT ≠ targetPoint := by
    rcases hNTmem with h | h
    · rw [h]; exact Ne.symm hts0
    · exact fun hh => htnr (hh ▸ h)
  set m3 := m2b.setAnimal tailPt Eco.CellAnimal.empty with hm3def
  have hm3other : ∀ q : Point, q ≠ targetPoint → q ≠ s0 → q ≠ tailPt →
      m3.cells q = m.cells q := by
    intro q hqt hqs hqtl
    show (if q = tailPt then _ else m2b.cells q) = m.cells q
    rw [if_neg hqtl, hm2bother q hqt hqs]
  have hm3tail : (m3.cells tailPt).animal = .empty := by
    rw [hm3def]
    simp only [Eco.Map.setAnimal, Eco.Map.setCell]
    simp
  have hm3s0 : (m3.cells s0).animal = cellB := by
    rw [hm3def]
    show ((if s0 = tailPt then _ else m2b.cells s0)).animal = _
    rw [if_neg (Ne.symm hts0ne), hm2bs0]
  have hm3NT : ∃ nxv, (m3.cells NT).animal = .snake ⟨species, some ⟨.body, nxv⟩⟩ := by
    rcases hnewTail_cases with ⟨h1, h⟩ | ⟨h2, h⟩
    · refine ⟨srest.head?, ?_⟩
      rw [h, hm3s0, hcellB]
    · refine ⟨srest.get? (srest.length - 2 + 1), ?_⟩
      have hNTs0 : NT ≠ s0 := fun hh => hs0nr (hh ▸ List.get?_mem h)
      rw [hm3other NT hNTtarget hNTs0 hNTnetail]
      exact (bodyChain_get hbcm (srest.length - 2) NT h).2
  have hcn2 : Eco.clearNextSegment m3 NT =
      m3.setAnimal NT (.snake ⟨species, some ⟨.body, none⟩⟩) := by
    obtain ⟨nxv, hnxv⟩ := hm3NT
    unfold Eco.clearNextSegment
    rw [show (m3.cells NT).animal.snake? =
        some ⟨species, some ⟨.body, nxv⟩⟩ by rw [hnxv]; rfl]
  rw [hcn2] at hm2
  set mF := m3.setAnimal NT (.snake ⟨species, some ⟨.body, none⟩⟩) with hmFdef
  subst hm2
  have hsz : mF.size = m.size := rfl
  have hFNT : (mF.cells NT).animal = .snake ⟨species, some ⟨.body, none⟩⟩ := by
    rw [hmFdef]
    simp only [Eco.Map.setAnimal, Eco.Map.setCell]
    simp
  have hFmid : ∀ q : Point, q ≠ targetPoint → q ≠ s0 → q ≠ tailPt → q ≠ NT →
      mF.cells q = m.cells q := by
    intro q hqt hqs hqtl hqnt
    show (if q = NT then _ else m3.cells q) = m.cells q
    rw [if_neg hqnt, hm3other q hqt hqs hqtl]
  have hFtail : (mF.cells tailPt).animal = .empty := by
    rw [hmFdef]
    show ((if tailPt = NT then _ else m3.cells tailPt)).animal = _
    rw [if_neg (Ne.symm hNTnetail), hm3tail]
  have hFs0 : (mF.cells s0).animal = .snake ⟨species, some ⟨.body, srest.dropLast.head?⟩⟩ := by
    rcases hnewTail_cases with ⟨h1, h⟩ | ⟨h2, h⟩
    · have hdl : srest.dropLast.head? = none := by
        have : srest.dropLast.length = 0 := by rw [List.length_dropLast, h1]
        cases hdd : srest.dropLast with
        | nil => rfl
        | cons a t => rw [hdd] at this; simp at this
      rw [hdl, ← h, hFNT]
    · have hNTs0 : NT ≠ s0 := fun hh => hs0nr (hh ▸ List.get?_mem h)
      have hdl : srest.dropLast.head? = srest.head? := dropLast_headq srest h2
      rw [hmFdef]
      show ((if s0 = NT then _ else m3.cells s0)).animal = _
      rw [if_neg (Ne.symm hNTs0), hm3s0, hcellB, hdl]
  have hFtarget : (mF.cells targetPoint).animal = cellA := by
    rw [hmFdef]
    show ((if targetPoint = NT then _ else m3.cells targetPoint)).animal = _
    rw [if_neg (Ne.symm hNTtarget)]
    rw [hm3def]
    show ((if targetPoint = tailPt then _ else m2b.cells targetPoint)).animal = _
    rw [if_neg (Ne.symm httne), hm2bt]
  -- the moved snake's new chain
  have hbcF : Eco.BodyChain m.size mF.cells species (s0 :: srest.dropLast) := by
    refine bodyChain_of_get ?_
    intro i p hp
    cases i with
    | zero =>
      cases hp
      refine ⟨hval0, ?_⟩
      rw [hFs0]
      rw [show (s0 :: srest.dropLast).get? (0 + 1) = srest.dropLast.head? from
        List.get?_zero srest.dropLast]
    | succ j =>
      rw [List.get?_cons_succ] at hp
      have hj : j < srest.length - 1 := by
        have := (List.get?_eq_some.mp hp).1
        rw [List.length_dropLast] at this
        exact this
      have hL2 : 2 ≤ srest.length := by omega
      have hpg : srest.get? j = some p := by
        rw [← listGet_dropLast srest j (by omega)]
        exact hp
      have hpmem : p ∈ srest := List.get?_mem hpg
      have hps0 : p ≠ s0 := fun hh => hs0nr (hh ▸ hpmem)
      have hpt : p ≠ targetPoint := fun hh => htnr (hh ▸ hpmem)
      have hvalp := (bodyChain_get hbcm j p hpg).1
      have hpen : srest.get? (srest.length - 2) = some NT := by
        rcases hnewTail_cases with ⟨h1, _⟩ | ⟨_, h⟩
        · omega
        · exact h
      rw [List.get?_cons_succ]
      by_cases hjlast : j = srest.length - 2
      · have hpNT : p = NT := by
          rw [hjlast] at hpg
          exact Option.some.inj (hpg.symm.trans hpen)
        refine ⟨hvalp, ?_⟩
        rw [hpNT, hFNT]
        have hnone : srest.dropLast.get? (j + 1) = none := by
          rw [List.get?_eq_none, List.length_dropLast]
          omega
        rw [hnone]
      · have hpNT : p ≠ NT := nodup_get_ne hnd (by omega) hpg hpen
        have hptl : p ≠ tailPt := nodup_get_ne hnd (by omega) hpg htail
        refine ⟨hvalp, ?_⟩
        rw [hFmid p hpt hps0 hptl hpNT]
        have hnext := (bodyChain_get hbcm j p hpg).2
        rw [hnext]
        rw [listGet_dropLast srest (j + 1) (by omega)]
  have hlennew : (s0 :: srest.dropLast).length ≤ cfg.maxSize species - 1 := by
    simp only [List.length_cons, List.length_dropLast]
    omega
  have hwalkF : Eco.walkBodies m.size mF.cells species (cfg.maxSize species - 1)
      (some s0) = some (s0 :: srest.dropLast) :=
    walk_of_bodyChain hbcF hlennew
  have hFtargetHead : Eco.headInfo (mF.cells targetPoint) = some (species, some s0) :=
    @headInfo_of_animal (mF.cells targetPoint) species lf (some s0)
      (by rw [hFtarget, hcellA])
  -- a body of an untouched chain avoids every written point
  have hl2avoid : ∀ {q : Point}, q ≠ s0 → q.isValid m.size = true →
      ∀ {sp2 nx2 l2}, Eco.headInfo (m.cells q) = some (sp2, nx2) →
      Eco.walkBodies m.size m.cells sp2 (cfg.maxSize sp2 - 1) nx2 = some l2 →
      ∀ x ∈ l2, mF.cells x = m.cells x := by
    intro q hqs0 hqv sp2 nx2 l2 hold hwm2 x hx
    obtain ⟨_, nxq, hxa⟩ := bodyChain_mem (bodyChain_of_walk hwm2).2.1 hx
    have hxt : x ≠ targetPoint := by
      intro hh2
      rw [hh2, htempty] at hxa
      cases hxa
    have hxs : x ≠ s0 := by
      intro hh2
      rw [hh2, hanim0] at hxa
      simp only [Eco.CellAnimal.snake.injEq, Eco.Snake.mk.injEq, Option.some.injEq,
        Eco.SnakeSegment.mk.injEq] at hxa
      cases hxa.2.1
    have hxsrest : x ∉ srest :=
      hInv.2 q s0 hqs0 hqv hval0 sp2 nx2 species srest.head? l2 srest
        hold hheadinfo0 hwm2 hwm x hx
    have hxtl : x ≠ tailPt := fun hh => hxsrest (hh ▸ htmem)
    have hxNT : x ≠ NT := by
      rcases hNTmem with h | h
      · rw [h]; exact hxs
      · exact fun hh => hxsrest (hh ▸ h)
    exact hFmid x hxt hxs hxtl hxNT
  refine inv_transfer hsz hInv (some (targetPoint, s0 :: srest.dropLast)) ?_ ?_
  · intro q hq sp nx hh
    by_cases hqt : q = targetPoint
    · subst hqt
      rw [hFtargetHead] at hh
      have hsp : sp = species := ((Prod.mk.injEq _ _ _ _).mp (Option.some.inj hh).symm).1
      have hnx : nx = some s0 := ((Prod.mk.injEq _ _ _ _).mp (Option.some.inj hh).symm).2
      subst hsp
      subst hnx
      exact Or.inr ⟨s0 :: srest.dropLast, rfl, hwalkF⟩
    · by_cases hqs : q = s0
      · subst hqs
        rw [headInfo_none_of_body hFs0] at hh
        cases hh
      · by_cases hqsr : q ∈ srest
        · by_cases hqtl : q = tailPt
          · subst hqtl
            rw [headInfo_none_of_snakeq (by rw [hFtail]; rfl)] at hh
            cases hh
          · by_cases hqNT : q = NT
            · subst hqNT
              rw [headInfo_none_of_body hFNT] at hh
              cases hh
            · rw [hFmid q hqt hqs hqtl hqNT] at hh
              obtain ⟨nxq, hqa⟩ := hbodyx q hqsr
              rw [headInfo_none_of_body hqa] at hh
              cases hh
        · have hqtl : q ≠ tailPt := fun hh => hqsr (hh ▸ htmem)
          have hqNT : q ≠ NT := by
            rcases hNTmem with h | h
            · rw [h]; exact hqs
            · exact fun hh => hqsr (hh ▸ h)
          rw [hFmid q hqt hqs hqtl hqNT] at hh
          obtain ⟨l2, hwm2⟩ := hInv.1 q hq sp nx hh
          exact Or.inl ⟨hh, l2, hwm2,
            walk_frame_of_chain hwm2 (fun x hx => by
              rw [hl2avoid hqs hq hh hwm2 x hx])⟩
  · intro qn nl hnewhd q2 hq2ne hq2v sp2 nx2 l2 hh2 hold2 hwm2 x hxnl
    have hqn : targetPoint = qn := congrArg Prod.fst (Option.some.inj hnewhd)
    have hnl : s0 :: srest.dropLast = nl := congrArg Prod.snd (Option.some.inj hnewhd)
    subst hqn
    subst hnl
    intro hxl2
    have hq2s0 : q2 ≠ s0 := by
      intro hh
      rw [hh, headInfo_none_of_body hFs0] at hh2
      cases hh2
    cases List.mem_cons.mp hxnl with
    | inl hxh =>
      subst hxh
      obtain ⟨_, nxq, hxa⟩ := bodyChain_mem (bodyChain_of_walk hwm2).2.1 hxl2
      rw [hanim0] at hxa
      simp only [Eco.CellAnimal.snake.injEq, Eco.Snake.mk.injEq, Option.some.injEq,
        Eco.SnakeSegment.mk.injEq] at hxa
      cases hxa.2.1
    | inr hxdl =>
      exact hInv.2 q2 s0 hq2s0 hq2v hval0 sp2 nx2 species srest.head? l2 srest
        hold2 hheadinfo0 hwm2 hwm x hxl2 (List.dropLast_subset srest hxdl)

/-- C2: the snake chain invariant. As literally claimed — "after every commit
of the snake engine and after every paint" — the property is refutable (see
the counterexample: painting `Empty` onto a body cell breaks its head's
chain). Amended: in every state reachable from the bootstrap world through
snake-engine commits satisfying the planner's guarantees and paints that do
not strike a cell lying on a live snake chain, every `Head` cell's
`next_segment` walk visits only in-grid same-species `Body` cells and
terminates with a `None` link within `max_size(species)` cells. -/
theorem C2_chain_invariant_safe_reachable (cfg : Eco.SnakeConfig) (n : Nat)
    (m : Eco.Map) (h : Eco.ReachSafe cfg n m) : Eco.SnakeChainProp cfg m := by
  have key : Eco.SnakeInv cfg m := by
    unfold Eco.ReachSafe at h
    induction h with
    | refl => exact snakeInv_emptyMap
    | tail hsteps hstep ih =>
      cases hstep with
      | engine he =>
        cases he with
        | newSnake now points hnodup hlen happ =>
          exact inv_newSnake ih hnodup hlen happ
        | move snake target happ =>
          exact inv_move ih happ
        | eat now headPt newHeadPt foodPt hvalid hshort happ =>
          exact inv_eat ih hvalid hshort happ
        | death p hoff happ =>
          exact inv_death ih hoff happ
        | starve p sp nx l hvalid hhead hwalk happ =>
          exact inv_starve ih hvalid hhead hwalk happ
      | paint now p color hoff happ =>
        exact inv_paint ih hoff happ
  exact key.1

/-- Witness for C2: the amended theorem applied to a concrete safe run (one
paint of a snake spare part onto the empty 4×4 bootstrap world). -/
theorem C2_chain_invariant_safe_reachable_witness :
    Eco.ReachSafe cfgEx 4 exM1 ∧ Eco.SnakeChainProp cfgEx exM1 := by
  have hoff : Eco.OffAllChains cfgEx (Eco.emptyMap 4) ⟨0, 0⟩ := by
    intro q hq sp nx l hh hw
    exact Option.noConfusion hh
  have hstep : Eco.WorldStepSafe cfgEx (Eco.emptyMap 4) exM1 :=
    Eco.WorldStepSafe.paint _ _ 0 ⟨0, 0⟩ .snake1 hoff (by rfl)
  have hpath : Eco.ReachSafe cfgEx 4 exM1 :=
    Relation.ReflTransGen.tail Relation.ReflTransGen.refl hstep
  exact ⟨hpath, C2_chain_invariant_safe_reachable cfgEx 4 exM1 hpath⟩

/-- Counterexample to C2 as literally stated: after four legitimate steps
(three paints of snake-1 spare parts and one committed `NewSnake`
enrollment), a fifth legitimate step — painting `Empty` onto the chain cell
(0, 1) — yields a reachable state in which the head at (0, 0) still links to
(0, 1), but the walk from it fails: the chain property does not survive
arbitrary paints. -/
theorem C2_chain_broken_by_paint_counterexample :
    Eco.ReachAny cfgEx 4 exM5 ∧ ¬ Eco.SnakeChainProp cfgEx exM5 := by
  constructor
  · have s1 : Eco.WorldStepAny cfgEx exM0 exM1 :=
      Eco.WorldStepAny.paint _ _ 0 ⟨0, 0⟩ .snake1 (by rfl)
    have s2 : Eco.WorldStepAny cfgEx exM1 exM2 :=
      Eco.WorldStepAny.paint _ _ 1 ⟨0, 1⟩ .snake1 (by rfl)
    have s3 : Eco.WorldStepAny cfgEx exM2 exM3 :=
      Eco.WorldStepAny.paint _ _ 2 ⟨0, 2⟩ .snake1 (by rfl)
    have s4 : Eco.WorldStepAny cfgEx exM3 exM4 :=
      Eco.WorldStepAny.engine _ _
        (Eco.SnakeEngineStep.newSnake exM3 exM4 5 exNewSnakePoints
          (by decide) (fun sp => by cases sp <;> decide) (by rfl))
    have s5 : Eco.WorldStepAny cfgEx exM4 exM5 :=
      Eco.WorldStepAny.paint _ _ 9 ⟨0, 1⟩ .empty (by rfl)
    show Relation.ReflTransGen (Eco.WorldStepAny cfgEx) exM0 exM5
    exact Relation.ReflTransGen.tail
      (Relation.ReflTransGen.tail
        (Relation.ReflTransGen.tail
          (Relation.ReflTransGen.tail
            (Relation.ReflTransGen.tail Relation.ReflTransGen.refl s1) s2) s3) s4) s5
  · intro hprop
    have hv : (⟨0, 0⟩ : Point).isValid exM5.size = true := by decide
    have hh : Eco.headInfo (exM5.cells ⟨0, 0⟩) = some (.A, some ⟨0, 1⟩) := by decide
    obtain ⟨l, hl⟩ := hprop ⟨0, 0⟩ hv .A (some ⟨0, 1⟩) hh
    have hnone : Eco.walkBodies exM5.size exM5.cells .A
        (cfgEx.maxSize .A - 1) (some ⟨0, 1⟩) = none := by decide
    rw [hnone] at hl
    cases hl
